import Mathlib

/-! ksync: block-sync executor and engine adapters.

A shallow embedding of `blocksync/executor.go` (`StartBlockSyncExecutor`), of the
engine adapters `engines/cometbft-v38/cometbft.go` and
`engines/celestia-core-v34/celestiacore.go`, of the choice of the engine in
`engines/engines.go` and of `GetEnginePathFromBinary` in `utils/binaries.go`.

Conventions.
* Go `int64` values are integers; every `+`, `-`, `*` of the source goes through
  `wrapInt64`, and `%` is the truncated remainder `Int.tmod`.
* A Go `error` result is `Option Err` (`none` is `nil`); a `(T, error)` result is
  `Except Err T`.
* Functions of the consensus library (cometbft / celestia-core), of the `utils`
  constants and of the other collaborators are not part of the modelled files; they are
  fields of the parameter records `CometLib`, `CelestiaLib`, `Constants`, `Collaborators`
  and `EngineOps`.
* Every call that leaves the modelled function is recorded in a trace (`Effect` for the
  adapters, `Event` for the executor), so that "is called", "is not called" and "in this
  order" are statements about lists.
-/

namespace Ksync

/-! ## Errors and machine integers -/

/-- Go error values: a message, or `fmt.Errorf("context: %w", cause)`. -/
inductive Err where
  | msg (text : String)
  | wrap (context : String) (cause : Err)
  deriving DecidableEq, Repr

deriving instance DecidableEq for Except

/-- Two's complement reduction of an integer to the `int64` range. -/
def wrapInt64 (x : Int) : Int :=
  (x + 9223372036854775808) % 18446744073709551616 - 9223372036854775808

/-- Go `a + b` on `int64`. -/
def add64 (a b : Int) : Int := wrapInt64 (a + b)

/-- Go `a - b` on `int64`. -/
def sub64 (a b : Int) : Int := wrapInt64 (a - b)

/-- Go `a * b` on `int64`. -/
def mul64 (a b : Int) : Int := wrapInt64 (a * b)

/-- Go `a % b` on `int64` (the sign follows the dividend). -/
def rem64 (a b : Int) : Int := Int.tmod a b

/-- The values of package `utils` used by the modelled code. -/
structure Constants where
  KSyncRuntimeTendermint : String
  KSyncRuntimeTendermintBsync : String
  SnapshotPruningAheadFactor : Int
  SnapshotPruningWindowFactor : Int
  PruningInterval : Int

/-! ## Consensus data -/

structure BlockID where
  Hash : Nat
  PartSetHeader : Nat
  deriving DecidableEq, Repr

structure Commit where
  Height : Int
  Signatures : Nat
  deriving DecidableEq, Repr

structure Block where
  ChainID : String
  Height : Int
  AppVersion : Nat
  LastBlockID : BlockID
  LastCommit : Commit
  Data : Nat
  deriving DecidableEq, Repr

structure PartSet where
  Header : Nat
  Total : Nat
  deriving DecidableEq, Repr

/-- The consensus state held in `engine.state`; `AppVersion` is `Version.Consensus.App`. -/
structure State where
  ChainID : String
  LastBlockHeight : Int
  Validators : Nat
  AppVersion : Nat
  AppHash : Nat
  deriving DecidableEq, Repr

structure SavedBlock where
  block : Block
  blockParts : PartSet
  seenCommit : Commit
  deriving DecidableEq, Repr

/-- The block store as the adapters observe it: `Height()`, `Base()` and what was saved. -/
structure BlockStore where
  base : Int
  height : Int
  saved : List SavedBlock
  deriving DecidableEq, Repr

/-- The library call `blockStore.SaveBlock(block, blockParts, seenCommit)`: the entry is
recorded, the store height becomes the block height, and an empty store takes it as base. -/
def BlockStore.SaveBlock (bs : BlockStore) (block : Block) (blockParts : PartSet)
    (seenCommit : Commit) : BlockStore :=
  { base := if bs.base = 0 then block.Height else bs.base
    height := block.Height
    saved := bs.saved ++ [SavedBlock.mk block blockParts seenCommit] }

/-- The part of the state store read by the adapters: the value returned by
`GetOfflineStateSyncHeight()` (its error is discarded by the caller). -/
structure StateStore where
  offlineStateSyncHeight : Int
  deriving DecidableEq, Repr

/-- The fields of `type Engine struct` that the modelled methods read or write.
`genesisInitialHeight` is the result of
`utils.GetInitialHeightFromGenesisFile(engine.GetGenesisPath())`. Pointers into the
consensus library (`proxyApp`, `blockExecutor`, `config`, `genDoc`, `privValidatorKey`,
`blockDB`, `stateDB`) are numbers, `none` for `nil`. -/
structure Engine where
  areDBsOpen : Bool
  proxyApp : Option Nat
  blockStore : BlockStore
  stateStore : StateStore
  genesisInitialHeight : Except Err Int
  state : State
  prevBlock : Option Block
  blockExecutor : Option Nat
  config : Option Nat := none
  genDoc : Option Nat := none
  privValidatorKey : Option Nat := none
  blockDB : Option Nat := none
  stateDB : Option Nat := none

/-- Calls made by `ApplyBlock` into the consensus library, in the order they happen. -/
inductive Effect where
  | validateBlock (state : State) (block : Block)
  | verifyCommitLight (chainID : String) (blockId : BlockID) (height : Int) (commit : Commit)
  | saveBlock (block : Block) (blockParts : PartSet) (seenCommit : Commit)
  | applyBlock (state : State) (blockId : BlockID) (block : Block)
  deriving DecidableEq, Repr

/-- The calls that change the block store or the application. -/
def Effect.isWrite : Effect → Bool
  | .saveBlock _ _ _ => true
  | .applyBlock _ _ _ => true
  | _ => false

/-- What one `ApplyBlock` call did: the returned error, the engine afterwards, the calls. -/
structure ApplyResult where
  err : Option Err
  engine : Engine
  effects : List Effect

/-! ## cometbft-v38 adapter -/

namespace CometbftV38

/-- The cometbft v0.38 functions called by the adapter. -/
structure CometLib where
  UnmarshalBlockResponse : String → Except Err Block
  UnmarshalTendermintValue : String → Except Err Block
  UnmarshalBlock : String → Except Err Block
  MakePartSet : Block → Except Err PartSet
  Hash : Block → Nat
  ValidateBlock : State → Block → Option Err
  VerifyCommitLight : Nat → String → BlockID → Int → Commit → Option Err
  ApplyBlock : State → BlockID → Block → Except Err State

/-- The decoding head of `Engine.ApplyBlock` (cometbft.go 257-281). -/
def decodeBlock (lib : CometLib) (k : Constants) (runtime : Option String) (value : String) :
    Except Err Block :=
  match runtime with
  | none =>
    match lib.UnmarshalBlockResponse value with
    | .error err => .error (Err.wrap "failed to unmarshal block response" err)
    | .ok block => .ok block
  | some rt =>
    if rt = k.KSyncRuntimeTendermint then
      match lib.UnmarshalTendermintValue value with
      | .error err => .error (Err.wrap "failed to unmarshal value" err)
      | .ok block => .ok block
    else if rt = k.KSyncRuntimeTendermintBsync then
      match lib.UnmarshalBlock value with
      | .error err => .error (Err.wrap "failed to unmarshal value" err)
      | .ok block => .ok block
    else .error (Err.msg "runtime unknown")

/-- The method `Engine.GetHeight` (cometbft.go 434-441). -/
def GetHeight (engine : Engine) : Int :=
  if engine.blockStore.height = 0 then engine.stateStore.offlineStateSyncHeight
  else engine.blockStore.height

/-- The method `Engine.GetContinuationHeight` (cometbft.go 194-209). -/
def GetContinuationHeight (engine : Engine) : Except Err Int :=
  let height := GetHeight engine
  match engine.genesisInitialHeight with
  | .error err => .error (Err.wrap "failed to load initial height from genesis file" err)
  | .ok initialHeight =>
    let continuationHeight := add64 height 1
    if continuationHeight < initialHeight then .ok initialHeight else .ok continuationHeight

/-- The method `Engine.ApplyBlock` (cometbft.go 256-321). -/
def ApplyBlock (lib : CometLib) (k : Constants) (runtime : Option String) (value : String)
    (engine : Engine) : ApplyResult :=
  match decodeBlock lib k runtime value with
  | .error err => ⟨some err, engine, []⟩
  | .ok block =>
    match engine.prevBlock with
    | none => ⟨none, { engine with prevBlock := some block }, []⟩
    | some prevBlock =>
      match lib.MakePartSet prevBlock with
      | .error err => ⟨some (Err.wrap "failed make part set of block" err), engine, []⟩
      | .ok blockParts =>
        let blockId : BlockID := ⟨lib.Hash prevBlock, blockParts.Header⟩
        match lib.ValidateBlock engine.state prevBlock with
        | some err =>
          ⟨some (Err.wrap ("block validation failed at height " ++ toString prevBlock.Height) err),
            engine, [Effect.validateBlock engine.state prevBlock]⟩
        | none =>
          match lib.VerifyCommitLight engine.state.Validators engine.state.ChainID blockId
              prevBlock.Height block.LastCommit with
          | some err =>
            ⟨some (Err.wrap
                ("light commit verification failed at height " ++ toString prevBlock.Height) err),
              engine,
              [Effect.validateBlock engine.state prevBlock,
               Effect.verifyCommitLight engine.state.ChainID blockId prevBlock.Height
                 block.LastCommit]⟩
          | none =>
            let stored : Engine :=
              { engine with
                blockStore := engine.blockStore.SaveBlock prevBlock blockParts block.LastCommit }
            match lib.ApplyBlock engine.state blockId prevBlock with
            | .error err =>
              ⟨some (Err.wrap ("failed to apply block at height " ++ toString prevBlock.Height) err),
                stored,
                [Effect.validateBlock engine.state prevBlock,
                 Effect.verifyCommitLight engine.state.ChainID blockId prevBlock.Height
                   block.LastCommit,
                 Effect.saveBlock prevBlock blockParts block.LastCommit,
                 Effect.applyBlock engine.state blockId prevBlock]⟩
            | .ok state =>
              ⟨none, { stored with state := state, prevBlock := some block },
                [Effect.validateBlock engine.state prevBlock,
                 Effect.verifyCommitLight engine.state.ChainID blockId prevBlock.Height
                   block.LastCommit,
                 Effect.saveBlock prevBlock blockParts block.LastCommit,
                 Effect.applyBlock engine.state blockId prevBlock]⟩

end CometbftV38

/-! ## celestia-core-v34 adapter -/

namespace CelestiaCoreV34

/-- The celestia-core v0.34 functions called by the adapter. -/
structure CelestiaLib where
  UnmarshalBlockResponse : String → Except Err Block
  UnmarshalTendermintValue : String → Except Err Block
  UnmarshalBlock : String → Except Err Block
  MakePartSet : Block → PartSet
  ValidateBlock : State → Block → Option Err
  VerifyCommitLight : Nat → String → BlockID → Int → Commit → Option Err
  ApplyBlock : State → BlockID → Block → Commit → Except Err State

/-- The decoding head of `Engine.ApplyBlock` (celestiacore.go 255-279). -/
def decodeBlock (lib : CelestiaLib) (k : Constants) (runtime : Option String) (value : String) :
    Except Err Block :=
  match runtime with
  | none =>
    match lib.UnmarshalBlockResponse value with
    | .error err => .error (Err.wrap "failed to unmarshal block response" err)
    | .ok block => .ok block
  | some rt =>
    if rt = k.KSyncRuntimeTendermint then
      match lib.UnmarshalTendermintValue value with
      | .error err => .error (Err.wrap "failed to unmarshal value" err)
      | .ok block => .ok block
    else if rt = k.KSyncRuntimeTendermintBsync then
      match lib.UnmarshalBlock value with
      | .error err => .error (Err.wrap "failed to unmarshal value" err)
      | .ok block => .ok block
    else .error (Err.msg "runtime unknown")

/-- The method `Engine.GetHeight` (celestiacore.go 432-434). -/
def GetHeight (engine : Engine) : Int := engine.blockStore.height

/-- The method `Engine.GetContinuationHeight` (celestiacore.go 193-208). -/
def GetContinuationHeight (engine : Engine) : Except Err Int :=
  let height := engine.blockStore.height
  match engine.genesisInitialHeight with
  | .error err => .error (Err.wrap "failed to load initial height from genesis file" err)
  | .ok initialHeight =>
    let continuationHeight := add64 height 1
    if continuationHeight < initialHeight then .ok initialHeight else .ok continuationHeight

/-- The method `Engine.ApplyBlock` (celestiacore.go 254-319). -/
def ApplyBlock (lib : CelestiaLib) (k : Constants) (runtime : Option String) (value : String)
    (engine : Engine) : ApplyResult :=
  match decodeBlock lib k runtime value with
  | .error err => ⟨some err, engine, []⟩
  | .ok block =>
    match engine.prevBlock with
    | none => ⟨none, { engine with prevBlock := some block }, []⟩
    | some prevBlock =>
      let blockParts := lib.MakePartSet prevBlock
      let blockId := block.LastBlockID
      match lib.ValidateBlock engine.state prevBlock with
      | some err =>
        ⟨some (Err.wrap ("block validation failed at height " ++ toString prevBlock.Height) err),
          engine, [Effect.validateBlock engine.state prevBlock]⟩
      | none =>
        match lib.VerifyCommitLight engine.state.Validators engine.state.ChainID blockId
            prevBlock.Height block.LastCommit with
        | some err =>
          ⟨some (Err.wrap
              ("light commit verification failed at height " ++ toString prevBlock.Height) err),
            engine,
            [Effect.validateBlock engine.state prevBlock,
             Effect.verifyCommitLight engine.state.ChainID blockId prevBlock.Height
               block.LastCommit]⟩
        | none =>
          match lib.ApplyBlock engine.state blockId prevBlock block.LastCommit with
          | .error err =>
            ⟨some (Err.wrap ("failed to apply block at height " ++ toString prevBlock.Height) err),
              engine,
              [Effect.validateBlock engine.state prevBlock,
               Effect.verifyCommitLight engine.state.ChainID blockId prevBlock.Height
                 block.LastCommit,
               Effect.applyBlock engine.state blockId prevBlock]⟩
          | .ok state =>
            let state : State := { state with AppVersion := prevBlock.AppVersion }
            ⟨none,
              { engine with
                blockStore := engine.blockStore.SaveBlock prevBlock blockParts block.LastCommit
                state := state
                prevBlock := some block },
              [Effect.validateBlock engine.state prevBlock,
               Effect.verifyCommitLight engine.state.ChainID blockId prevBlock.Height
                 block.LastCommit,
               Effect.applyBlock engine.state blockId prevBlock,
               Effect.saveBlock prevBlock blockParts block.LastCommit]⟩

end CelestiaCoreV34

/-! ## Block-sync executor (`blocksync/executor.go`) -/

structure DataItem where
  Key : String
  Value : String
  deriving DecidableEq, Repr

/-- What one `select` of the main loop receives: `err := <-errorCh` or `item := <-itemCh`. -/
inductive SourceEvent where
  | error (err : Err)
  | item (item : DataItem)
  deriving DecidableEq, Repr

structure BackupConfig where
  Interval : Int
  deriving DecidableEq, Repr

/-- The arguments of `StartBlockSyncExecutor` that it inspects itself (`chainRest`,
`storageRest` and `blockRpcConfig` are only handed on to collaborators). -/
structure Params where
  blockPoolId : Option Int
  targetHeight : Int
  snapshotPoolId : Int
  snapshotInterval : Int
  pruning : Bool
  skipWaiting : Bool
  backupCfg : Option BackupConfig

/-- The methods of the `types.Engine` interface called by the executor, over an engine
state `σ`; each fallible method returns its result and the engine afterwards. -/
structure EngineOps (σ : Type) where
  GetContinuationHeight : σ → Except Err Int × σ
  GetAppHeight : σ → Except Err Int × σ
  StartProxyApp : σ → Option Err × σ
  DoHandshake : σ → Option Err × σ
  ApplyBlock : Option String → String → σ → Option Err × σ
  IsSnapshotAvailable : Int → σ → Except Err Bool × σ
  GetHeight : σ → Int
  GetBaseHeight : σ → Int
  PruneBlocks : Int → σ → Option Err × σ
  GetChainId : σ → Except Err String × σ
  StopProxyApp : σ → Option Err × σ

/-- The functions of other packages called by the executor. `GetPoolInfo` yields the
runtime of the pool; `GetSnapshotPoolHeight n` is the answer to the call number `n` of
`stateSyncHelpers.GetSnapshotPoolHeight` (counted from zero). -/
structure Collaborators where
  ParseBlockHeightFromKey : String → Except Err Int
  GetPoolInfo : Int → Except Err String
  GetSnapshotPoolHeight : Nat → Int
  CreateBackup : String → Int → Bool → Option Err

/-- Calls made by the executor, in the order they happen. The height carried by
`applyBlock` is the one parsed from the key of the item whose value is passed. -/
inductive Event where
  | getContinuationHeight
  | getAppHeight
  | startProxyApp
  | doHandshake
  | getPoolInfo (poolId : Int)
  | startBlockCollector (continuationHeight targetHeight : Int) (exitOnTargetHeight : Bool)
  | getSnapshotPoolHeight
  | sleep (seconds : Nat)
  | applyBlock (height : Int) (runtime : Option String) (value : String)
  | isSnapshotAvailable (height : Int)
  | pruneBlocks (toHeight : Int)
  | getChainId
  | createBackup (chainId : String) (height : Int) (isFinal : Bool)
  | logError (text : String)
  | stopProxyApp
  deriving DecidableEq, Repr

/-- The executor in mid-run: the engine, the calls made so far, how often the snapshot
pool height was fetched, and the local variable `snapshotPoolHeight`. -/
structure Exec (σ : Type) where
  engine : σ
  trace : List Event
  poolCalls : Nat
  snapshotPoolHeight : Int
  deriving DecidableEq

/-- The locals fixed before the main loop. -/
structure LoopVars where
  continuationHeight : Int
  appHeight : Int
  runtime : Option String
  deriving DecidableEq, Repr

/-- A wait loop after the given number of rounds: left, or still inside. -/
inductive Wait (σ : Type) where
  | finished (x : Exec σ)
  | pending (x : Exec σ)
  deriving DecidableEq

/-- One iteration of the main loop on an item: `continue`, `return err`, or still inside
a wait loop. -/
inductive Step (σ : Type) where
  | next (x : Exec σ)
  | done (err : Option Err) (x : Exec σ)
  | waiting (x : Exec σ)
  deriving DecidableEq

/-- How a run ends: the function returned, it blocks in `select` because the source sent
nothing more, or it is still inside a wait loop. -/
inductive Outcome where
  | returned (err : Option Err)
  | awaitingItem
  | stillWaiting
  deriving DecidableEq, Repr

variable {σ : Type}

/-- Record a call. -/
def Exec.emit (x : Exec σ) (ev : Event) : Exec σ :=
  { x with trace := x.trace ++ [ev] }

/-- The statement `snapshotPoolHeight = stateSyncHelpers.GetSnapshotPoolHeight(...)`. -/
def refreshSnapshotPoolHeight (env : Collaborators) (x : Exec σ) : Exec σ :=
  { x with
    snapshotPoolHeight := env.GetSnapshotPoolHeight x.poolCalls
    poolCalls := x.poolCalls + 1
    trace := x.trace ++ [Event.getSnapshotPoolHeight] }

/-- The loops at executor.go 62-73 and 171-182, run for at most `fuel` sleeps. -/
def waitForSnapshotPool (env : Collaborators) (k : Constants) (p : Params) (height : Int) :
    Nat → Exec σ → Wait σ
  | 0, x =>
    if height > add64 x.snapshotPoolHeight (mul64 k.SnapshotPruningAheadFactor p.snapshotInterval)
    then .pending x else .finished x
  | fuel + 1, x =>
    if height > add64 x.snapshotPoolHeight (mul64 k.SnapshotPruningAheadFactor p.snapshotInterval)
    then waitForSnapshotPool env k p height fuel
      (refreshSnapshotPoolHeight env (x.emit (Event.sleep 10)))
    else .finished x

/-- The loop at executor.go 99-117, run for at most `fuel` checks. -/
def waitForSnapshot (ops : EngineOps σ) (prevHeight : Int) : Nat → Exec σ → Wait σ
  | 0, x => .pending x
  | fuel + 1, x =>
    let r := ops.IsSnapshotAvailable prevHeight x.engine
    let x1 : Exec σ :=
      { x with engine := r.2, trace := x.trace ++ [Event.isSnapshotAvailable prevHeight] }
    match r.1 with
    | .error _ =>
      waitForSnapshot ops prevHeight fuel
        ((x1.emit (Event.logError "check snapshot availability failed")).emit (Event.sleep 10))
    | .ok false => waitForSnapshot ops prevHeight fuel (x1.emit (Event.sleep 10))
    | .ok true => .finished x1

/-- Lines 55-74: the backpressure evaluated before the main loop. -/
def initialBackpressure (env : Collaborators) (k : Constants) (p : Params)
    (continuationHeight : Int) (fuel : Nat) (x : Exec σ) : Wait σ :=
  if p.snapshotInterval > 0 ∧ p.skipWaiting = false then
    waitForSnapshotPool env k p continuationHeight fuel (refreshSnapshotPoolHeight env x)
  else .finished x

/-- Lines 98-121: the wait for the snapshot of the applied height. -/
def snapshotPhase (ops : EngineOps σ) (env : Collaborators) (p : Params) (v : LoopVars)
    (fuel : Nat) (prevHeight : Int) (x : Exec σ) : Wait σ :=
  if p.snapshotInterval > 0 ∧ rem64 prevHeight p.snapshotInterval = 0 ∧ v.appHeight < prevHeight
  then
    match waitForSnapshot ops prevHeight fuel x with
    | .finished x1 => .finished (refreshSnapshotPoolHeight env x1)
    | .pending x1 => .pending x1
  else .finished x

/-- Lines 129-143: pruning. -/
def prunePhase (ops : EngineOps σ) (k : Constants) (p : Params) (prevHeight : Int)
    (x : Exec σ) : Exec σ :=
  if p.pruning = true ∧ rem64 prevHeight k.PruningInterval = 0 then
    let height :=
      sub64 (ops.GetHeight x.engine) (mul64 k.SnapshotPruningWindowFactor p.snapshotInterval)
    let height := if height < ops.GetBaseHeight x.engine then ops.GetBaseHeight x.engine else height
    let r := ops.PruneBlocks height x.engine
    let x1 : Exec σ := { x with engine := r.2, trace := x.trace ++ [Event.pruneBlocks height] }
    match r.1 with
    | some _ => x1.emit (Event.logError "failed to prune blocks")
    | none => x1
  else x

/-- Lines 146-161: the backup of the data directory; the error, if any, is returned by the
executor. -/
def backupPhase (ops : EngineOps σ) (env : Collaborators) (p : Params) (prevHeight : Int)
    (x : Exec σ) : Option Err × Exec σ :=
  match p.backupCfg with
  | none => (none, x)
  | some backupCfg =>
    if backupCfg.Interval > 0 ∧ rem64 prevHeight backupCfg.Interval = 0 then
      let x1 := x.emit (Event.sleep 15)
      let r := ops.GetChainId x1.engine
      let x2 : Exec σ := { x1 with engine := r.2, trace := x1.trace ++ [Event.getChainId] }
      match r.1 with
      | .error _ => (some (Err.msg "failed to get chain id from genesis: %!w(MISSING)"), x2)
      | .ok chainId =>
        let x3 := x2.emit (Event.createBackup chainId prevHeight false)
        match env.CreateBackup chainId prevHeight false with
        | some _ => (none, x3.emit (Event.logError "failed to create backup"))
        | none => (none, x3)
    else (none, x)

/-- Lines 165-183: the backpressure evaluated after an item. -/
def backpressurePhase (env : Collaborators) (k : Constants) (p : Params) (fuel : Nat)
    (height : Int) (x : Exec σ) : Wait σ :=
  if p.snapshotInterval > 0 ∧ p.skipWaiting = false then
    waitForSnapshotPool env k p height fuel x
  else .finished x

/-- Lines 186-192: the stop at the target height. -/
def targetPhase (ops : EngineOps σ) (p : Params) (height : Int) (x : Exec σ) : Step σ :=
  if p.targetHeight > 0 ∧ height ≥ add64 p.targetHeight 1 then
    let r := ops.StopProxyApp x.engine
    let x1 : Exec σ := { x with engine := r.2, trace := x.trace ++ [Event.stopProxyApp] }
    match r.1 with
    | some err => .done (some (Err.wrap "failed to stop proxy app" err)) x1
    | none => .done none x1
  else .next x

/-- Lines 80-193: the body of `case item := <-itemCh`. -/
def processItem (ops : EngineOps σ) (env : Collaborators) (k : Constants) (p : Params)
    (v : LoopVars) (fuel : Nat) (item : DataItem) (x : Exec σ) : Step σ :=
  match env.ParseBlockHeightFromKey item.Key with
  | .error err =>
    .done (some (Err.wrap ("failed parse block height from key " ++ item.Key) err)) x
  | .ok height =>
    let prevHeight := sub64 height 1
    let r := ops.ApplyBlock v.runtime item.Value x.engine
    let x1 : Exec σ :=
      { x with engine := r.2, trace := x.trace ++ [Event.applyBlock height v.runtime item.Value] }
    match r.1 with
    | some err => .done (some (Err.wrap "failed to apply block in engine" err)) x1
    | none =>
      match snapshotPhase ops env p v fuel prevHeight x1 with
      | .pending x2 => .waiting x2
      | .finished x2 =>
        if height = v.continuationHeight then .next x2
        else
          let x3 := prunePhase ops k p prevHeight x2
          match backupPhase ops env p prevHeight x3 with
          | (some err, x4) => .done (some err) x4
          | (none, x4) =>
            match backpressurePhase env k p fuel height x4 with
            | .pending x5 => .waiting x5
            | .finished x5 => targetPhase ops p height x5

/-- Lines 76-194: the main loop, fed with what its `select` receives, in order. -/
def mainLoop (ops : EngineOps σ) (env : Collaborators) (k : Constants) (p : Params)
    (v : LoopVars) (fuel : Nat) : List SourceEvent → Exec σ → Outcome × Exec σ
  | [], x => (.awaitingItem, x)
  | .error err :: _, x => (.returned (some (Err.wrap "error in block collector" err)), x)
  | .item item :: rest, x =>
    match processItem ops env k p v fuel item x with
    | .next x1 => mainLoop ops env k p v fuel rest x1
    | .done err x1 => (.returned err, x1)
    | .waiting x1 => (.stillWaiting, x1)

/-- Lines 20-74: everything before the main loop. The result is either the way the run
ended there, or the locals and the state with which the main loop is entered. -/
def startup (ops : EngineOps σ) (env : Collaborators) (k : Constants) (p : Params)
    (fuel : Nat) (engine : σ) : (Outcome × Exec σ) ⊕ (LoopVars × Exec σ) :=
  let r1 := ops.GetContinuationHeight engine
  let x1 : Exec σ :=
    { engine := r1.2, trace := [Event.getContinuationHeight], poolCalls := 0,
      snapshotPoolHeight := 0 }
  match r1.1 with
  | .error err =>
    .inl (.returned (some (Err.wrap "failed to get continuation height from engine" err)), x1)
  | .ok continuationHeight =>
    let r2 := ops.GetAppHeight x1.engine
    let x2 : Exec σ := { x1 with engine := r2.2, trace := x1.trace ++ [Event.getAppHeight] }
    match r2.1 with
    | .error err =>
      .inl (.returned (some (Err.wrap "failed to get app height from engine" err)), x2)
    | .ok appHeight =>
      let r3 := ops.StartProxyApp x2.engine
      let x3 : Exec σ := { x2 with engine := r3.2, trace := x2.trace ++ [Event.startProxyApp] }
      match r3.1 with
      | some err => .inl (.returned (some (Err.wrap "failed to start proxy app" err)), x3)
      | none =>
        let r4 := ops.DoHandshake x3.engine
        let x4 : Exec σ := { x3 with engine := r4.2, trace := x3.trace ++ [Event.doHandshake] }
        match r4.1 with
        | some err => .inl (.returned (some (Err.wrap "failed to do handshake" err)), x4)
        | none =>
          let pool : Except Err (Option String) × Exec σ :=
            match p.blockPoolId with
            | none => (.ok none, x4)
            | some poolId =>
              match env.GetPoolInfo poolId with
              | .error err => (.error err, x4.emit (Event.getPoolInfo poolId))
              | .ok runtime => (.ok (some runtime), x4.emit (Event.getPoolInfo poolId))
          match pool with
          | (.error err, x5) =>
            .inl (.returned (some (Err.wrap "failed to get pool info" err)), x5)
          | (.ok runtime, x5) =>
            let x6 := x5.emit (Event.startBlockCollector continuationHeight p.targetHeight
              (decide (p.snapshotInterval = 0)))
            match initialBackpressure env k p continuationHeight fuel x6 with
            | .pending x7 => .inl (.stillWaiting, x7)
            | .finished x7 => .inr (⟨continuationHeight, appHeight, runtime⟩, x7)

/-- The function `StartBlockSyncExecutor` (executor.go 19-195): `events` is what the two
channels deliver, `fuel` bounds the rounds of each wait loop. -/
def StartBlockSyncExecutor (ops : EngineOps σ) (env : Collaborators) (k : Constants)
    (p : Params) (fuel : Nat) (events : List SourceEvent) (engine : σ) : Outcome × Exec σ :=
  match startup ops env k p fuel engine with
  | .inl r => r
  | .inr (v, x) => mainLoop ops env k p v fuel events x

/-! ## Reading a trace -/

/-- The heights of the items passed to `ApplyBlock`, in call order. -/
def applyHeights (tr : List Event) : List Int :=
  tr.filterMap fun ev =>
    match ev with
    | .applyBlock height _ _ => some height
    | _ => none

/-- How often `StopProxyApp` was called. -/
def stopCalls (tr : List Event) : Nat := tr.count Event.stopProxyApp

/-- The state in which a wait loop was left or is still waiting. -/
def Wait.exec : Wait σ → Exec σ
  | .finished x => x
  | .pending x => x

/-- The state after one iteration of the main loop. -/
def Step.exec : Step σ → Exec σ
  | .next x => x
  | .done _ x => x
  | .waiting x => x

/-- The state `y` continues `x` by calls that are neither `ApplyBlock` nor `StopProxyApp`. -/
def Quiet (x y : Exec σ) : Prop :=
  ∃ added, y.trace = x.trace ++ added ∧ applyHeights added = [] ∧ stopCalls added = 0

/-- The state right after the `ApplyBlock` call for an item whose key parsed to `h`. -/
def afterApply (ops : EngineOps σ) (v : LoopVars) (h : Int) (item : DataItem) (x : Exec σ) :
    Exec σ :=
  { x with
    engine := (ops.ApplyBlock v.runtime item.Value x.engine).2
    trace := x.trace ++ [Event.applyBlock h v.runtime item.Value] }

/-- The state right after the `StopProxyApp` call of the target-height exit. -/
def afterStop (ops : EngineOps σ) (x : Exec σ) : Exec σ :=
  { x with engine := (ops.StopProxyApp x.engine).2, trace := x.trace ++ [Event.stopProxyApp] }

/-- What the target-height exit returns: `nil`, or the wrapped error of `StopProxyApp`. -/
def stopResult (ops : EngineOps σ) (x : Exec σ) : Option Err :=
  (ops.StopProxyApp x.engine).1.map (Err.wrap "failed to stop proxy app")

/-- The state `y` continues `x` by calls other than `StopProxyApp`. -/
def NoStop (x y : Exec σ) : Prop :=
  ∃ added, y.trace = x.trace ++ added ∧ stopCalls added = 0

/-- The items among what the channels deliver. -/
def itemsOf : List SourceEvent → List DataItem
  | [] => []
  | .error _ :: rest => itemsOf rest
  | .item item :: rest => item :: itemsOf rest

/-- The four engine calls with which every run begins. -/
def startupCalls : List Event :=
  [Event.getContinuationHeight, Event.getAppHeight, Event.startProxyApp, Event.doHandshake]

/-- The engine after `GetContinuationHeight`. -/
def engineAfterContinuationHeight (ops : EngineOps σ) (engine : σ) : σ :=
  (ops.GetContinuationHeight engine).2

/-- The engine after `GetAppHeight`. -/
def engineAfterAppHeight (ops : EngineOps σ) (engine : σ) : σ :=
  (ops.GetAppHeight (engineAfterContinuationHeight ops engine)).2

/-- The engine after `StartProxyApp`. -/
def engineAfterStartProxyApp (ops : EngineOps σ) (engine : σ) : σ :=
  (ops.StartProxyApp (engineAfterAppHeight ops engine)).2

/-- The engine after `DoHandshake`. -/
def engineAfterHandshake (ops : EngineOps σ) (engine : σ) : σ :=
  (ops.DoHandshake (engineAfterStartProxyApp ops engine)).2

/-- Whether the engine calls made for one item succeed and the waits entered for it end
within `fuel` rounds, in the state `x` in which the executor takes the item: the key
parses, this `ApplyBlock` call returns `nil`, the snapshot wait ends, and for an item past
the first the `GetChainId` call of a due backup returns a chain id and the backpressure
wait ends. The outcome of `StopProxyApp` is left open. -/
def itemHealthy (ops : EngineOps σ) (env : Collaborators) (k : Constants) (p : Params)
    (v : LoopVars) (fuel : Nat) (item : DataItem) (x : Exec σ) : Bool :=
  match env.ParseBlockHeightFromKey item.Key with
  | .error _ => false
  | .ok h =>
    (ops.ApplyBlock v.runtime item.Value x.engine).1.isNone &&
    match snapshotPhase ops env p v fuel (sub64 h 1) (afterApply ops v h item x) with
    | .pending _ => false
    | .finished y =>
      decide (h = v.continuationHeight) ||
      match backupPhase ops env p (sub64 h 1) (prunePhase ops k p (sub64 h 1) y) with
      | (some _, _) => false
      | (none, z) =>
        match backpressurePhase env k p fuel h z with
        | .pending _ => false
        | .finished _ => true

/-- Whether every item of a run is healthy, each in the state in which the executor takes
it: the calls of this run succeed, whatever other calls would do. -/
def runHealthy (ops : EngineOps σ) (env : Collaborators) (k : Constants) (p : Params)
    (v : LoopVars) (fuel : Nat) : List DataItem → Exec σ → Bool
  | [], _ => true
  | item :: rest, x =>
    itemHealthy ops env k p v fuel item x &&
    match processItem ops env k p v fuel item x with
    | .next y => runHealthy ops env k p v fuel rest y
    | .done _ _ => true
    | .waiting _ => true

/-- Modelled from the spec: the bundle source (`blocks.StartBlockCollector` of package
`collectors/blocks`, started by the executor at line 49 and not among the modelled files)
delivers strictly ascending heights without duplicates or gaps, beginning at its start
height. For the items delivered from height `h` on: their keys parse to `h`, `h + 1`, ...
in the order of delivery. -/
def SourceOrdered (env : Collaborators) : Int → List DataItem → Prop
  | _, [] => True
  | h, item :: rest =>
    env.ParseBlockHeightFromKey item.Key = .ok h ∧ SourceOrdered env (h + 1) rest

/-- The runtime with which the main loop calls `ApplyBlock` (lines 38-46). -/
def resolveRuntime (env : Collaborators) (p : Params) : Option String :=
  match p.blockPoolId with
  | none => none
  | some poolId =>
    match env.GetPoolInfo poolId with
    | .error _ => none
    | .ok runtime => some runtime

/-- The state in which the backpressure before the main loop is evaluated (line 51), when
the four startup calls and the pool lookup have succeeded. -/
def loopEntry (ops : EngineOps σ) (p : Params) (engine : σ) (continuationHeight : Int) :
    Exec σ :=
  { engine := engineAfterHandshake ops engine
    trace := startupCalls ++
      ((match p.blockPoolId with
        | none => []
        | some poolId => [Event.getPoolInfo poolId]) ++
      [Event.startBlockCollector continuationHeight p.targetHeight
        (decide (p.snapshotInterval = 0))])
    poolCalls := 0
    snapshotPoolHeight := 0 }

/-! ## Reading a trace: the steps of one item -/

/-- The condition of line 98 under which the snapshot wait for the height `applied` is
entered. -/
def snapshotDue (p : Params) (v : LoopVars) (applied : Int) : Prop :=
  p.snapshotInterval > 0 ∧ rem64 applied p.snapshotInterval = 0 ∧ v.appHeight < applied

/-- The condition of line 129 under which blocks are pruned after the height `applied`. -/
def pruneDue (k : Constants) (p : Params) (applied : Int) : Prop :=
  p.pruning = true ∧ rem64 applied k.PruningInterval = 0

/-- The condition of line 146 under which a backup is made after the height `applied`. -/
def backupDue (p : Params) (applied : Int) : Prop :=
  ∃ backupCfg, p.backupCfg = some backupCfg ∧ backupCfg.Interval > 0 ∧
    rem64 applied backupCfg.Interval = 0

/-- The comparison of lines 64 and 173: the height is more than
`SnapshotPruningAheadFactor * snapshotInterval` ahead of the snapshot pool height last
fetched. -/
def aheadOfSnapshotPool (k : Constants) (p : Params) (height : Int) (x : Exec σ) : Prop :=
  height > add64 x.snapshotPoolHeight (mul64 k.SnapshotPruningAheadFactor p.snapshotInterval)

/-- The target of line 132-136 for store height `storeHeight` and base height `base`. -/
def pruneTarget (k : Constants) (p : Params) (storeHeight base : Int) : Int :=
  if sub64 storeHeight (mul64 k.SnapshotPruningWindowFactor p.snapshotInterval) < base then base
  else sub64 storeHeight (mul64 k.SnapshotPruningWindowFactor p.snapshotInterval)

/-- Lines 163-192 for an item past the first: backpressure, then the target-height check. -/
def afterBackup (ops : EngineOps σ) (env : Collaborators) (k : Constants) (p : Params)
    (fuel : Nat) (height : Int) (x : Exec σ) : Step σ :=
  match backpressurePhase env k p fuel height x with
  | .pending y => .waiting y
  | .finished y => targetPhase ops p height y

/-- Lines 145-192 for an item past the first: backup, backpressure, target-height check. -/
def afterPrune (ops : EngineOps σ) (env : Collaborators) (k : Constants) (p : Params)
    (fuel : Nat) (height : Int) (x : Exec σ) : Step σ :=
  match backupPhase ops env p (sub64 height 1) x with
  | (some err, y) => .done (some err) y
  | (none, y) => afterBackup ops env k p fuel height y

/-- The calls made from the state `x` up to the state `y`. -/
def newCalls (x y : Exec σ) : List Event := y.trace.drop x.trace.length

/-- The heights for which `IsSnapshotAvailable` was called, in call order. -/
def snapshotChecks (tr : List Event) : List Int :=
  tr.filterMap fun ev =>
    match ev with
    | .isSnapshotAvailable height => some height
    | _ => none

/-- How often the snapshot pool height was fetched. -/
def poolFetches (tr : List Event) : Nat := tr.count Event.getSnapshotPoolHeight

/-- The targets passed to `PruneBlocks`, in call order. -/
def pruneTargets (tr : List Event) : List Int :=
  tr.filterMap fun ev =>
    match ev with
    | .pruneBlocks toHeight => some toHeight
    | _ => none

/-- The arguments of the `CreateBackup` calls, in call order. -/
def backupCalls (tr : List Event) : List (String × Int × Bool) :=
  tr.filterMap fun ev =>
    match ev with
    | .createBackup chainId height isFinal => some (chainId, height, isFinal)
    | _ => none

/-- The calls of the snapshot wait loop. -/
def Event.inSnapshotWait : Event → Bool
  | .isSnapshotAvailable _ => true
  | .logError _ => true
  | .sleep seconds => decide (seconds = 10)
  | _ => false

/-- The calls of the snapshot step: the wait loop and the refresh that follows it. -/
def Event.inSnapshotStep : Event → Bool
  | .isSnapshotAvailable _ => true
  | .logError _ => true
  | .sleep seconds => decide (seconds = 10)
  | .getSnapshotPoolHeight => true
  | _ => false

/-- The calls of a backpressure loop. -/
def Event.inBackpressure : Event → Bool
  | .sleep seconds => decide (seconds = 10)
  | .getSnapshotPoolHeight => true
  | _ => false

/-- The calls of the pruning step. -/
def Event.inPrune : Event → Bool
  | .pruneBlocks _ => true
  | .logError _ => true
  | _ => false

/-- The calls of the backup step. -/
def Event.inBackup : Event → Bool
  | .sleep seconds => decide (seconds = 15)
  | .getChainId => true
  | .createBackup _ _ _ => true
  | .logError _ => true
  | _ => false

/-- The calls that follow the backup step of an item: backpressure and `StopProxyApp`. -/
def Event.inTail : Event → Bool
  | .sleep seconds => decide (seconds = 10)
  | .getSnapshotPoolHeight => true
  | .stopProxyApp => true
  | _ => false

/-- The calls of a wait: `IsSnapshotAvailable`, the fetch of the snapshot pool height, and
the ten-second sleep of the wait loops. -/
def Event.isWaitCall : Event → Bool
  | .isSnapshotAvailable _ => true
  | .getSnapshotPoolHeight => true
  | .sleep seconds => decide (seconds = 10)
  | _ => false

/-- The state `y` continues `x` by calls that all satisfy `allowed`. -/
def Adds (allowed : Event → Bool) (x y : Exec σ) : Prop :=
  ∃ added, y.trace = x.trace ++ added ∧ ∀ ev ∈ added, allowed ev = true

/-! ## The adapters as engines of the executor -/

/-- Go `uint64(x)` for an `int64` value. -/
def uint64 (x : Int) : Nat := (x % 18446744073709551616).toNat

/-- Rendering of an error with `%s`. -/
def Err.text : Err → String
  | .msg text => text
  | .wrap context cause => context ++ ": " ++ cause.text

/-- What the ABCI socket client answers in one `IsSnapshotAvailable` call: the results of
`Start`, of `ListSnapshots` (the heights of the listed snapshots) and of `Stop`. -/
structure SnapshotQuery where
  start : Option Err
  listSnapshots : Except Err (List Nat)
  stop : Option Err

/-- The method `Engine.IsSnapshotAvailable` (cometbft.go 489-512, celestiacore.go 482-505),
given the answers of the socket client. -/
def IsSnapshotAvailable (query : SnapshotQuery) (height : Int) : Except Err Bool :=
  match query.start with
  | some err => .error (Err.wrap "failed to start socket client" err)
  | none =>
    match query.listSnapshots with
    | .error err => .error (Err.wrap "failed to list snapshots" err)
    | .ok snapshots =>
      match query.stop with
      | some err => .error (Err.wrap "failed to stop socket client" err)
      | none => .ok (snapshots.any fun snapshotHeight => decide (snapshotHeight = uint64 height))

namespace CometbftV38

/-- The pruning functions of the cometbft v0.38 stores: `blockStore.PruneBlocks` returns
the number of pruned blocks and the store afterwards, `stateStore.PruneStates` its error and
the store afterwards. -/
structure PruneLib where
  PruneBlocks : BlockStore → Int → State → Except Err (Nat × BlockStore)
  PruneStates : StateStore → Int → Int → Int → Option Err × StateStore

/-- The method `Engine.GetBaseHeight` (cometbft.go 443-445). -/
def GetBaseHeight (engine : Engine) : Int := engine.blockStore.base

/-- The method `Engine.PruneBlocks` (cometbft.go 755-770). -/
def PruneBlocks (lib : PruneLib) (toHeight : Int) (engine : Engine) : Option Err × Engine :=
  match lib.PruneBlocks engine.blockStore toHeight engine.state with
  | .error err =>
    (some (Err.msg ("failed to prune blocks up to " ++ toString toHeight ++ ": " ++ err.text)),
      engine)
  | .ok (blocksPruned, blockStore) =>
    let pruned : Engine := { engine with blockStore := blockStore }
    let base := sub64 toHeight (wrapInt64 blocksPruned)
    if toHeight > base then
      match lib.PruneStates pruned.stateStore base toHeight toHeight with
      | (some err, stateStore) =>
        (some (Err.msg
            ("failed to prune state up to " ++ toString toHeight ++ ": " ++ err.text)),
          { pruned with stateStore := stateStore })
      | (none, stateStore) => (none, { pruned with stateStore := stateStore })
    else (none, pruned)

/-- The cometbft-v38 adapter as the engine of the executor: `GetContinuationHeight`,
`ApplyBlock`, `IsSnapshotAvailable`, `GetHeight`, `GetBaseHeight` and `PruneBlocks` are the
modelled methods; the other methods are those of `rest`. -/
def engineOps (lib : CometLib) (plib : PruneLib) (k : Constants)
    (query : Int → Engine → SnapshotQuery) (rest : EngineOps Engine) : EngineOps Engine :=
  { rest with
    GetContinuationHeight := fun engine => (GetContinuationHeight engine, engine)
    ApplyBlock := fun runtime value engine =>
      ((ApplyBlock lib k runtime value engine).err, (ApplyBlock lib k runtime value engine).engine)
    IsSnapshotAvailable := fun height engine =>
      (IsSnapshotAvailable (query height engine) height, engine)
    GetHeight := GetHeight
    GetBaseHeight := GetBaseHeight
    PruneBlocks := PruneBlocks plib }

end CometbftV38

namespace CelestiaCoreV34

/-- The method `Engine.GetBaseHeight` (celestiacore.go 436-438). -/
def GetBaseHeight (engine : Engine) : Int := engine.blockStore.base

/-- The celestia-core-v34 adapter as the engine of the executor: `GetContinuationHeight`,
`ApplyBlock`, `IsSnapshotAvailable`, `GetHeight` and `GetBaseHeight` are the modelled
methods; the other methods are those of `rest`. -/
def engineOps (lib : CelestiaLib) (k : Constants)
    (query : Int → Engine → SnapshotQuery) (rest : EngineOps Engine) : EngineOps Engine :=
  { rest with
    GetContinuationHeight := fun engine => (GetContinuationHeight engine, engine)
    ApplyBlock := fun runtime value engine =>
      ((ApplyBlock lib k runtime value engine).err, (ApplyBlock lib k runtime value engine).engine)
    IsSnapshotAvailable := fun height engine =>
      (IsSnapshotAvailable (query height engine) height, engine)
    GetHeight := GetHeight
    GetBaseHeight := GetBaseHeight }

end CelestiaCoreV34

/-! ## Concrete engines used to exercise the adapters -/

namespace Demo

/-- A block at height `h` carrying the commit for height `h - 1`. -/
def block (h : Int) : Block :=
  { ChainID := "demo", Height := h, AppVersion := 2,
    LastBlockID := ⟨(h - 1).toNat, (h - 1).toNat⟩,
    LastCommit := ⟨h - 1, 1⟩, Data := 0 }

/-- Values "5", "6", "7" decode to the blocks at these heights; "6x" decodes to a block at
height 6 whose commit is signed by another validator set; everything else is malformed. -/
def unmarshal (value : String) : Except Err Block :=
  if value = "5" then .ok (block 5)
  else if value = "6" then .ok (block 6)
  else if value = "7" then .ok (block 7)
  else if value = "6x" then .ok { block 6 with LastCommit := ⟨5, 9⟩ }
  else .error (Err.msg "invalid character")

/-- Validation as far as the height is concerned. -/
def validateBlock (state : State) (b : Block) : Option Err :=
  if b.Height = state.LastBlockHeight + 1 then none else some (Err.msg "wrong Block.Header.Height")

/-- The commit must be for the given height and block, signed by the validator set. -/
def verifyCommitLight (validators : Nat) (_chainID : String) (blockId : BlockID) (height : Int)
    (commit : Commit) : Option Err :=
  if commit.Height = height ∧ commit.Signatures = validators ∧ blockId.Hash = height.toNat
  then none else some (Err.msg "invalid commit")

def cometLib : CometbftV38.CometLib :=
  { UnmarshalBlockResponse := unmarshal
    UnmarshalTendermintValue := unmarshal
    UnmarshalBlock := unmarshal
    MakePartSet := fun b => .ok ⟨b.Height.toNat, 1⟩
    Hash := fun b => b.Height.toNat
    ValidateBlock := validateBlock
    VerifyCommitLight := verifyCommitLight
    ApplyBlock := fun state _ b => .ok { state with LastBlockHeight := b.Height, AppVersion := 0 } }

def celestiaLib : CelestiaCoreV34.CelestiaLib :=
  { UnmarshalBlockResponse := unmarshal
    UnmarshalTendermintValue := unmarshal
    UnmarshalBlock := unmarshal
    MakePartSet := fun b => ⟨b.Height.toNat, 1⟩
    ValidateBlock := validateBlock
    VerifyCommitLight := verifyCommitLight
    ApplyBlock := fun state _ b _ =>
      .ok { state with LastBlockHeight := b.Height, AppVersion := 0 } }

def constants : Constants :=
  { KSyncRuntimeTendermint := "@kyvejs/tendermint"
    KSyncRuntimeTendermintBsync := "@kyvejs/tendermint-bsync"
    SnapshotPruningAheadFactor := 3
    SnapshotPruningWindowFactor := 6
    PruningInterval := 100 }

/-- An engine after the handshake at store height 4, with nothing buffered. -/
def engineAt4 : Engine :=
  { areDBsOpen := true, proxyApp := some 0,
    blockStore := ⟨1, 4, []⟩, stateStore := ⟨0⟩, genesisInitialHeight := .ok 1,
    state := ⟨"demo", 4, 1, 2, 0⟩, prevBlock := none, blockExecutor := some 0 }

/-- The same engine with block 5 buffered. -/
def engineAt4Buffered5 : Engine := { engineAt4 with prevBlock := some (block 5) }

/-- The same engine with a block of height 7 buffered, which does not follow height 4. -/
def engineAt4Buffered7 : Engine := { engineAt4 with prevBlock := some (block 7) }

/-- A stand-in engine for the executor: the store height, the value of the buffered block,
and whether the proxy app runs. Applying a block raises the store height by one. -/
structure StubEngine where
  height : Int
  buffered : Option String
  proxyStarted : Bool
  deriving DecidableEq, Repr

/-- What is made to fail in a run of the stand-in engine. -/
structure Faults where
  handshake : Bool
  applyValue : Option String

def noFaults : Faults := ⟨false, none⟩

/-- The stand-in engine: `ApplyBlock` follows the one-slot buffer discipline. -/
def ops (faults : Faults) : EngineOps StubEngine :=
  { GetContinuationHeight := fun s => (.ok (s.height + 1), s)
    GetAppHeight := fun s => (.ok s.height, s)
    StartProxyApp := fun s =>
      if s.proxyStarted then (some (Err.msg "proxy app already started"), s)
      else (none, { s with proxyStarted := true })
    DoHandshake := fun s =>
      if faults.handshake then (some (Err.msg "state divergence"), s) else (none, s)
    ApplyBlock := fun _ value s =>
      if faults.applyValue = some value then
        (some (Err.msg "light commit verification failed"), s)
      else
        match s.buffered with
        | none => (none, { s with buffered := some value })
        | some _ => (none, { s with height := s.height + 1, buffered := some value })
    IsSnapshotAvailable := fun _ s => (.ok true, s)
    GetHeight := fun s => s.height
    GetBaseHeight := fun _ => 1
    PruneBlocks := fun _ s => (none, s)
    GetChainId := fun s => (.ok "demo", s)
    StopProxyApp := fun s =>
      if s.proxyStarted then (none, { s with proxyStarted := false })
      else (some (Err.msg "proxy app already stopped"), s) }

/-- Keys "1" to "8" are heights; every other key is malformed. -/
def parseKey (key : String) : Except Err Int :=
  if key = "1" then .ok 1
  else if key = "2" then .ok 2
  else if key = "3" then .ok 3
  else if key = "4" then .ok 4
  else if key = "5" then .ok 5
  else if key = "6" then .ok 6
  else if key = "7" then .ok 7
  else if key = "8" then .ok 8
  else .error (Err.msg "invalid syntax")

def env : Collaborators :=
  { ParseBlockHeightFromKey := parseKey
    GetPoolInfo := fun _ => .ok "@kyvejs/tendermint-bsync"
    GetSnapshotPoolHeight := fun _ => 0
    CreateBackup := fun _ _ _ => none }

/-- A run to the target height `target`, without snapshot pool, pruning and backup. -/
def params (target : Int) : Params :=
  { blockPoolId := none, targetHeight := target, snapshotPoolId := 0, snapshotInterval := 0,
    pruning := false, skipWaiting := false, backupCfg := none }

/-- A run to the target height `target` with a snapshot every second block, without
backpressure. -/
def snapshotParams (target : Int) : Params :=
  { blockPoolId := some 0, targetHeight := target, snapshotPoolId := 1, snapshotInterval := 2,
    pruning := true, skipWaiting := true, backupCfg := some ⟨3⟩ }

/-- The item for the height written in `key`. -/
def item (key : String) : DataItem := ⟨key, key⟩

/-- An engine stopped at store height `h`. -/
def stubAt (h : Int) : StubEngine := ⟨h, none, false⟩

end Demo

namespace Demo

/-- The stand-in engine with a counter of `IsSnapshotAvailable` calls: the application is
`appLag` blocks behind the store, and the answer to the check number `n` is `available n`. -/
def countingOps (appLag : Int) (available : Nat → Except Err Bool) :
    EngineOps (StubEngine × Nat) :=
  { GetContinuationHeight := fun s => (.ok (s.1.height + 1), s)
    GetAppHeight := fun s => (.ok (s.1.height - appLag), s)
    StartProxyApp := fun s => (((ops noFaults).StartProxyApp s.1).1,
      (((ops noFaults).StartProxyApp s.1).2, s.2))
    DoHandshake := fun s => (none, s)
    ApplyBlock := fun runtime value s => (((ops noFaults).ApplyBlock runtime value s.1).1,
      (((ops noFaults).ApplyBlock runtime value s.1).2, s.2))
    IsSnapshotAvailable := fun _ s => (available s.2, (s.1, s.2 + 1))
    GetHeight := fun s => s.1.height
    GetBaseHeight := fun _ => 1
    PruneBlocks := fun _ s => (none, s)
    GetChainId := fun s => (.ok "demo", s)
    StopProxyApp := fun s => (((ops noFaults).StopProxyApp s.1).1,
      (((ops noFaults).StopProxyApp s.1).2, s.2)) }

/-- The first check fails, the second finds no snapshot, the third finds it. -/
def thirdTime (n : Nat) : Except Err Bool :=
  if n = 0 then .error (Err.msg "failed to list snapshots")
  else if n = 1 then .ok false
  else .ok true

/-- A run with a snapshot every second block and backpressure against the snapshot pool. -/
def backpressureParams (target : Int) : Params :=
  { blockPoolId := none, targetHeight := target, snapshotPoolId := 1, snapshotInterval := 2,
    pruning := false, skipWaiting := false, backupCfg := none }

/-- Keys "100" to "102" are heights; every other key is malformed. -/
def parseLateKey (key : String) : Except Err Int :=
  if key = "100" then .ok 100
  else if key = "101" then .ok 101
  else if key = "102" then .ok 102
  else .error (Err.msg "invalid syntax")

/-- The collaborators of a run around height 100. -/
def lateEnv : Collaborators := { env with ParseBlockHeightFromKey := parseLateKey }

/-- The collaborators of a run whose backups fail. -/
def failingBackupEnv : Collaborators :=
  { env with CreateBackup := fun _ _ _ => some (Err.msg "failed to compress directory") }

/-- The stand-in engine with a `PruneBlocks` that fails when `pruneFails` and a
`GetChainId` that fails when `chainIdFails`. -/
def faultyOps (pruneFails chainIdFails : Bool) : EngineOps StubEngine :=
  { ops noFaults with
    PruneBlocks := fun _ s =>
      if pruneFails then (some (Err.msg "failed to prune blocks"), s) else (none, s)
    GetChainId := fun s =>
      if chainIdFails then (.error (Err.msg "failed to load genesis file"), s)
      else (.ok "demo", s) }

/-- A run with pruning and the given snapshot interval, without backpressure and backup. -/
def pruneParams (snapshotInterval : Int) : Params :=
  { blockPoolId := none, targetHeight := 0, snapshotPoolId := 1,
    snapshotInterval := snapshotInterval, pruning := true, skipWaiting := true,
    backupCfg := none }

/-- A run with a backup every third block, without snapshots and pruning. -/
def backupParams : Params :=
  { blockPoolId := none, targetHeight := 0, snapshotPoolId := 0, snapshotInterval := 0,
    pruning := false, skipWaiting := false, backupCfg := some ⟨3⟩ }

/-- A block store library for pruning: a target that is not positive, beyond the store
height or below the base is refused; otherwise the base becomes the target. -/
def pruneLib : CometbftV38.PruneLib :=
  { PruneBlocks := fun bs toHeight _ =>
      if toHeight ≤ 0 then .error (Err.msg "height must be greater than 0")
      else if toHeight > bs.height then .error (Err.msg "cannot prune beyond the latest height")
      else if toHeight < bs.base then .error (Err.msg "cannot prune below the base height")
      else .ok ((toHeight - bs.base).toNat, { bs with base := toHeight })
    PruneStates := fun ss _ _ _ => (none, ss) }

/-- An engine after the handshake with the blocks 1 to 100 in its store. -/
def engineAt100 : Engine :=
  { areDBsOpen := true, proxyApp := some 0,
    blockStore := ⟨1, 100, []⟩, stateStore := ⟨0⟩, genesisInitialHeight := .ok 1,
    state := ⟨"demo", 100, 1, 2, 0⟩, prevBlock := none, blockExecutor := some 0 }

/-- Every snapshot query of the socket client succeeds and lists no snapshot. -/
def noSnapshots : Int → Engine → SnapshotQuery := fun _ _ => ⟨none, .ok [], none⟩

/-- The methods of the adapters that are not modelled, as methods that succeed. -/
def restOps : EngineOps Engine :=
  { GetContinuationHeight := fun s => (.ok 1, s)
    GetAppHeight := fun s => (.ok s.state.LastBlockHeight, s)
    StartProxyApp := fun s => (none, s)
    DoHandshake := fun s => (none, s)
    ApplyBlock := fun _ _ s => (none, s)
    IsSnapshotAvailable := fun _ s => (.ok true, s)
    GetHeight := fun s => s.blockStore.height
    GetBaseHeight := fun s => s.blockStore.base
    PruneBlocks := fun _ s => (none, s)
    GetChainId := fun s => (.ok s.state.ChainID, s)
    StopProxyApp := fun s => (none, s) }

end Demo

/-! ## The life cycle of the adapters

`OpenDBs`, `CloseDBs`, `StartProxyApp` and `StopProxyApp` have the same text in both
adapters (cometbft.go 64-179, celestiacore.go 63-178). -/

/-- The functions outside the adapters called by the life-cycle methods, as they answer at
the time of one call. A pointer argument is passed as the field holds it. -/
structure LifecycleLib where
  LoadConfig : Except Err Nat
  FormatGenesisFile : Option Nat → Option Err
  GenesisDocProvider : Option Nat → Except Err Nat
  LoadValidatorKey : Option Nat → Except Err Nat
  GetBlockstoreDBs : Option Nat → Except Err (Nat × BlockStore)
  GetStateDBs : Option Nat → Except Err (Nat × StateStore)
  CloseDB : Option Nat → Option Err
  CreateAndStartProxyAppConns : Option Nat → Except Err Nat
  StopProxyApp : Nat → Option Err

/-- The method `Engine.LoadConfig` (cometbft.go 68-79, celestiacore.go 67-78). -/
def LoadConfig (lib : LifecycleLib) (engine : Engine) : Option Err × Engine :=
  match engine.config with
  | some _ => (none, engine)
  | none =>
    match lib.LoadConfig with
    | .error err => (some (Err.wrap "failed to load config.toml" err), engine)
    | .ok config => (none, { engine with config := some config })

/-- The method `Engine.OpenDBs` (cometbft.go 81-127, celestiacore.go 80-126). -/
def OpenDBs (lib : LifecycleLib) (engine : Engine) : Option Err × Engine :=
  if engine.areDBsOpen = true then (none, engine)
  else
    match LoadConfig lib engine with
    | (some err, e1) => (some err, e1)
    | (none, e1) =>
      match lib.FormatGenesisFile e1.config with
      | some err => (some (Err.wrap "failed to format genesis file" err), e1)
      | none =>
        match lib.GenesisDocProvider e1.config with
        | .error err => (some (Err.wrap "failed to load state and genDoc" err), e1)
        | .ok genDoc =>
          let e2 : Engine := { e1 with genDoc := some genDoc }
          match lib.LoadValidatorKey e2.config with
          | .error err => (some (Err.wrap "failed to load validator key file" err), e2)
          | .ok privValidatorKey =>
            let e3 : Engine := { e2 with privValidatorKey := some privValidatorKey }
            match lib.GetBlockstoreDBs e3.config with
            | .error err => (some (Err.wrap "failed to open blockDB" err), e3)
            | .ok (blockDB, blockStore) =>
              let e4 : Engine := { e3 with blockDB := some blockDB, blockStore := blockStore }
              match lib.GetStateDBs e4.config with
              | .error err => (some (Err.wrap "failed to open stateDB" err), e4)
              | .ok (stateDB, stateStore) =>
                (none,
                  { e4 with
                    stateDB := some stateDB, stateStore := stateStore, areDBsOpen := true })

/-- The method `Engine.CloseDBs` (cometbft.go 129-144, celestiacore.go 128-143). -/
def CloseDBs (lib : LifecycleLib) (engine : Engine) : Option Err × Engine :=
  if engine.areDBsOpen = false then (none, engine)
  else
    match lib.CloseDB engine.blockDB with
    | some err => (some (Err.wrap "failed to close blockDB" err), engine)
    | none =>
      match lib.CloseDB engine.stateDB with
      | some err => (some (Err.wrap "failed to close stateDB" err), engine)
      | none => (none, { engine with areDBsOpen := false })

/-- The method `Engine.StartProxyApp` (cometbft.go 154-166, celestiacore.go 153-165). -/
def StartProxyApp (lib : LifecycleLib) (engine : Engine) : Option Err × Engine :=
  match engine.proxyApp with
  | some _ => (some (Err.msg "proxy app already started"), engine)
  | none =>
    match lib.CreateAndStartProxyAppConns engine.config with
    | .error err => (some err, engine)
    | .ok proxyApp => (none, { engine with proxyApp := some proxyApp })

/-- The method `Engine.StopProxyApp` (cometbft.go 168-179, celestiacore.go 167-178). -/
def StopProxyApp (lib : LifecycleLib) (engine : Engine) : Option Err × Engine :=
  match engine.proxyApp with
  | none => (some (Err.msg "proxy app already stopped"), engine)
  | some proxyApp =>
    match lib.StopProxyApp proxyApp with
    | some err => (some err, engine)
    | none => (none, { engine with proxyApp := none })

/-- A call of `OpenDBs` or `CloseDBs`, with the answers of the outside world at that
time. -/
inductive DbCall where
  | openDBs (lib : LifecycleLib)
  | closeDBs (lib : LifecycleLib)

/-- Whether the call is an `OpenDBs` call. -/
def DbCall.isOpen : DbCall → Bool
  | .openDBs _ => true
  | .closeDBs _ => false

/-- The call made on an engine. -/
def DbCall.run : DbCall → Engine → Option Err × Engine
  | .openDBs lib, engine => OpenDBs lib engine
  | .closeDBs lib, engine => CloseDBs lib engine

/-- The engine after a sequence of `OpenDBs` and `CloseDBs` calls. -/
def runDbCalls : List DbCall → Engine → Engine
  | [], engine => engine
  | call :: rest, engine => runDbCalls rest (call.run engine).2

/-- The calls of the sequence that returned `nil`, as `true` for `OpenDBs` and `false` for
`CloseDBs`, in call order. -/
def successfulDbCalls : List DbCall → Engine → List Bool
  | [], _ => []
  | call :: rest, engine =>
    match (call.run engine).1 with
    | none => call.isOpen :: successfulDbCalls rest (call.run engine).2
    | some _ => successfulDbCalls rest (call.run engine).2

namespace CometbftV38

/-- The functions outside the adapter called by `DoHandshake`: the handshake of the
consensus library returns its error and the state store as the replay left it. -/
structure HandshakeLib where
  LoadFromDBOrGenesisDoc : Option Nat → Option Nat → Except Err State
  CreateAndStartEventBus : Except Err Nat
  DoHandshake : StateStore → State → BlockStore → Option Nat → Nat → Option Nat →
    Option Err × StateStore
  Load : StateStore → Except Err State
  CreateMempool : Option Nat → Option Nat → State → Nat
  CreateEvidenceReactor : Option Nat → StateStore → BlockStore → Except Err Nat
  NewBlockExecutor : StateStore → Option Nat → Nat → Nat → BlockStore → Nat

/-- The method `Engine.DoHandshake` (cometbft.go 211-254). Only a handshake that has
completed sets `engine.blockExecutor`; the fields `mempool` and `evidencePool`, which no
modelled method reads, are left out. -/
def DoHandshake (lib : HandshakeLib) (engine : Engine) : Option Err × Engine :=
  match lib.LoadFromDBOrGenesisDoc engine.stateDB engine.genDoc with
  | .error err => (some (Err.wrap "failed to load state from genDoc" err), engine)
  | .ok state =>
    match lib.CreateAndStartEventBus with
    | .error err => (some (Err.wrap "failed to start event bus" err), engine)
    | .ok eventBus =>
      match lib.DoHandshake engine.stateStore state engine.blockStore engine.genDoc eventBus
          engine.proxyApp with
      | (some err, stateStore) =>
        (some (Err.wrap "failed to do handshake" err), { engine with stateStore := stateStore })
      | (none, stateStore) =>
        let e1 : Engine := { engine with stateStore := stateStore }
        match lib.Load e1.stateStore with
        | .error err => (some (Err.wrap "failed to reload state" err), e1)
        | .ok state =>
          let e2 : Engine := { e1 with state := state }
          let mempool := lib.CreateMempool e2.config e2.proxyApp state
          match lib.CreateEvidenceReactor e2.config e2.stateStore e2.blockStore with
          | .error err => (some (Err.wrap "failed to create evidence reactor" err), e2)
          | .ok evidencePool =>
            (none,
              { e2 with
                blockExecutor :=
                  some (lib.NewBlockExecutor e2.stateStore e2.proxyApp mempool evidencePool
                    e2.blockStore) })

end CometbftV38

/-- An engine as `EngineFactory` creates it, before any method was called: every pointer
is `nil`, the databases are not open and nothing is buffered. -/
def newEngine (genesisInitialHeight : Except Err Int) : Engine :=
  { areDBsOpen := false, proxyApp := none, blockStore := ⟨0, 0, []⟩, stateStore := ⟨0⟩,
    genesisInitialHeight := genesisInitialHeight, state := ⟨"", 0, 0, 0, 0⟩,
    prevBlock := none, blockExecutor := none }

/-! ## Choice of the engine (engines/engines.go) -/

/-- The engine names of package `utils`. -/
structure EngineNames where
  EngineTendermintV34 : String
  EngineCometBFTV37 : String
  EngineCometBFTV38 : String
  EngineCelestiaCoreV34 : String
  EngineTendermintV34Legacy : String
  EngineCometBFTV37Legacy : String
  EngineCometBFTV38Legacy : String
  EngineCelestiaCoreV34Legacy : String
  EngineTendermintLegacy : String
  EngineCometBFTLegacy : String
  EngineCelestiaCoreLegacy : String

/-- The adapter packages of which `EngineFactory` creates an engine. -/
inductive EngineKind where
  | tendermintV34
  | cometbftV37
  | cometbftV38
  | celestiaCoreV34
  deriving DecidableEq, Repr

/-- The function `EngineFactory` (engines.go 48-90): the adapter for an engine name, or
`none` when the name is unknown and the process exits. The home path and the port are
passed on unchanged and left out. -/
def EngineFactory (names : EngineNames) (engine : String) : Option EngineKind :=
  if engine = "" then some .cometbftV38
  else if engine = names.EngineTendermintV34 then some .tendermintV34
  else if engine = names.EngineCometBFTV37 then some .cometbftV37
  else if engine = names.EngineCometBFTV38 then some .cometbftV38
  else if engine = names.EngineCelestiaCoreV34 then some .celestiaCoreV34
  else if engine = names.EngineTendermintV34Legacy then some .tendermintV34
  else if engine = names.EngineCometBFTV37Legacy then some .cometbftV37
  else if engine = names.EngineCometBFTV38Legacy then some .cometbftV38
  else if engine = names.EngineCelestiaCoreV34Legacy then some .celestiaCoreV34
  else if engine = names.EngineTendermintLegacy then some .tendermintV34
  else if engine = names.EngineCometBFTLegacy then some .cometbftV37
  else if engine = names.EngineCelestiaCoreLegacy then some .celestiaCoreV34
  else none

/-- An entry of `entry.Codebase.Settings.Upgrades` in the source registry. -/
structure Upgrade where
  Height : String
  Engine : String
  deriving DecidableEq, Repr

/-- The functions of other packages called by `EngineSourceFactory`:
`helpers.GetSourceRegistryEntry` (of which only the list of upgrades is read) and
`strconv.ParseInt(s, 10, 64)`. -/
structure RegistryLib where
  GetSourceRegistryEntry : String → String → Except Err (List Upgrade)
  ParseInt : String → Except Err Int

/-- The loop of `EngineSourceFactory` (engines.go 31-42) over the upgrades that are left,
with the current value of the variable `engine`. -/
def selectUpgrade (parseInt : String → Except Err Int) (continuationHeight : Int) :
    List Upgrade → String → Except Err String
  | [], engine => .ok engine
  | upgrade :: rest, engine =>
    match parseInt upgrade.Height with
    | .error err => .error (Err.wrap ("failed to parse upgrade height " ++ upgrade.Height) err)
    | .ok height =>
      if continuationHeight < height then .ok engine
      else selectUpgrade parseInt continuationHeight rest upgrade.Engine

/-- The engine name with which `EngineSourceFactory` calls `EngineFactory`
(engines.go 20-46). -/
def sourceEngineName (lib : RegistryLib) (engine registryUrl source : String)
    (continuationHeight : Int) : Except Err String :=
  if engine ≠ "" ∨ source = "" then .ok engine
  else
    match lib.GetSourceRegistryEntry registryUrl source with
    | .error err => .error (Err.wrap "failed to get source registry entry" err)
    | .ok upgrades => selectUpgrade lib.ParseInt continuationHeight upgrades engine

/-- The function `EngineSourceFactory` (engines.go 20-46). -/
def EngineSourceFactory (names : EngineNames) (lib : RegistryLib)
    (engine registryUrl source : String) (continuationHeight : Int) :
    Except Err (Option EngineKind) :=
  match sourceEngineName lib engine registryUrl source continuationHeight with
  | .error err => .error err
  | .ok name => .ok (EngineFactory names name)

/-! ## The engine of a binary (utils/binaries.go)

Texts are lists of characters. The functions of Go package `strings` are written out for a
separator that is not empty, the only case in which the modelled code calls them. -/

namespace strings

/-- Whether the text begins with `sep`. -/
def startsWith : List Char → List Char → Bool
  | _, [] => true
  | [], _ :: _ => false
  | c :: s, d :: sep => decide (c = d) && startsWith s sep

/-- Go `strings.Contains(s, substr)`. -/
def Contains : List Char → List Char → Bool
  | [], substr => startsWith [] substr
  | c :: s, substr => startsWith (c :: s) substr || Contains s substr

/-- The scan of `strings.Split`: `skip` characters of a separator found earlier are still
to be passed over, `current` is the part collected so far, in reverse. -/
def splitLoop (sep : List Char) : List Char → Nat → List Char → List (List Char)
  | [], _, current => [current.reverse]
  | _ :: s, skip + 1, current => splitLoop sep s skip current
  | c :: s, 0, current =>
    if startsWith (c :: s) sep then current.reverse :: splitLoop sep s (sep.length - 1) []
    else splitLoop sep s 0 (c :: current)

/-- Go `strings.Split(s, sep)`: the parts between the occurrences of `sep`, found from the
left and not overlapping. -/
def Split (s sep : List Char) : List (List Char) := splitLoop sep s 0 []

/-- The scan of `strings.ReplaceAll`. -/
def replaceLoop (old new : List Char) : List Char → Nat → List Char
  | [], _ => []
  | _ :: s, skip + 1 => replaceLoop old new s skip
  | c :: s, 0 =>
    if startsWith (c :: s) old then new ++ replaceLoop old new s (old.length - 1)
    else c :: replaceLoop old new s 0

/-- Go `strings.ReplaceAll(s, old, new)`: every occurrence of `old`, found from the left
and not overlapping, is replaced by `new`. -/
def ReplaceAll (s old new : List Char) : List Char := replaceLoop old new s 0

end strings

/-- How `GetEnginePathFromBinary` ends: it returns an engine name, it exits because no
engine was found (`os.Exit(1)`), or it stops with an index that is out of range. -/
inductive EnginePath where
  | found (engine : String)
  | exit
  | indexOutOfRange
  deriving DecidableEq, Repr

/-- The value of `dependency` for a line (binaries.go 74): the text after the last
`" => "`, without `"- "`, split at `"@v"`. -/
def dependencyOf (line : List Char) : List (List Char) :=
  strings.Split
    (strings.ReplaceAll ((strings.Split line " => ".toList).getLast?.getD []) "- ".toList [])
    "@v".toList

/-- Lines 76-84 for one line that lists the dependency: the engine returned, the failure of
the index `dependency[1]`, or `none` when the loop goes on with the next line. -/
def classifyLine (names : EngineNames) (line : List Char) : Option EnginePath :=
  match dependencyOf line with
  | dep0 :: dep1 :: _ =>
    if strings.Contains dep1 "0.34.".toList ∧ strings.Contains dep0 "celestia-core".toList then
      some (.found names.EngineCelestiaCoreV34)
    else if strings.Contains dep1 "0.34.".toList then some (.found names.EngineTendermintV34)
    else if strings.Contains dep1 "0.37.".toList then some (.found names.EngineCometBFTV37)
    else if strings.Contains dep1 "0.38.".toList then some (.found names.EngineCometBFTV38)
    else none
  | _ => some .indexOutOfRange

/-- The inner loop of lines 72-86 for the dependency `engine` over the lines that are
left. -/
def scanLines (names : EngineNames) (engine : List Char) : List (List Char) → Option EnginePath
  | [] => none
  | line :: rest =>
    if strings.Contains line ("- ".toList ++ engine) then
      match classifyLine names line with
      | some result => some result
      | none => scanLines names engine rest
    else scanLines names engine rest

/-- The function `GetEnginePathFromBinary` (binaries.go 51-94) from the output `out` of
`<binary> version --long` on. -/
def GetEnginePathFromBinary (names : EngineNames) (out : String) : EnginePath :=
  match scanLines names "github.com/tendermint/tendermint@v".toList
      (strings.Split out.toList "\n".toList) with
  | some result => result
  | none =>
    match scanLines names "github.com/cometbft/cometbft@v".toList
        (strings.Split out.toList "\n".toList) with
    | some result => result
    | none => .exit

namespace Demo

/-- Engine names for the examples. -/
def names : EngineNames :=
  { EngineTendermintV34 := "tendermint-v34"
    EngineCometBFTV37 := "cometbft-v37"
    EngineCometBFTV38 := "cometbft-v38"
    EngineCelestiaCoreV34 := "celestia-core-v34"
    EngineTendermintV34Legacy := "tendermint-v34-legacy"
    EngineCometBFTV37Legacy := "cometbft-v37-legacy"
    EngineCometBFTV38Legacy := "cometbft-v38-legacy"
    EngineCelestiaCoreV34Legacy := "celestia-core-v34-legacy"
    EngineTendermintLegacy := "tendermint"
    EngineCometBFTLegacy := "cometbft"
    EngineCelestiaCoreLegacy := "celestia-core" }

/-- An outside world for the life-cycle methods: the state database cannot be opened when
`openFails`, it cannot be closed when `closeFails`, the proxy app cannot be started when
`startFails` and cannot be stopped when `stopFails`. -/
def lifecycle (openFails closeFails startFails stopFails : Bool) : LifecycleLib :=
  { LoadConfig := .ok 1
    FormatGenesisFile := fun _ => none
    GenesisDocProvider := fun _ => .ok 2
    LoadValidatorKey := fun _ => .ok 3
    GetBlockstoreDBs := fun _ => .ok (4, ⟨1, 4, []⟩)
    GetStateDBs := fun _ =>
      if openFails then .error (Err.msg "resource temporarily unavailable") else .ok (5, ⟨0⟩)
    CloseDB := fun handle =>
      if closeFails ∧ handle = some 5 then some (Err.msg "database is locked") else none
    CreateAndStartProxyAppConns := fun _ =>
      if startFails then .error (Err.msg "connection refused") else .ok 6
    StopProxyApp := fun _ => if stopFails then some (Err.msg "already stopped") else none }

/-- An outside world in which the handshake succeeds. -/
def handshakeLib : CometbftV38.HandshakeLib :=
  { LoadFromDBOrGenesisDoc := fun _ _ => .ok ⟨"demo", 4, 1, 2, 0⟩
    CreateAndStartEventBus := .ok 7
    DoHandshake := fun stateStore _ _ _ _ _ => (none, stateStore)
    Load := fun _ => .ok ⟨"demo", 4, 1, 2, 0⟩
    CreateMempool := fun _ _ _ => 8
    CreateEvidenceReactor := fun _ _ _ => .ok 9
    NewBlockExecutor := fun _ _ _ _ _ => 10 }

/-- A registry with the given upgrades; the heights "1" to "8" parse. -/
def registry (upgrades : List Upgrade) : RegistryLib :=
  { GetSourceRegistryEntry := fun _ _ => .ok upgrades
    ParseInt := parseKey }

/-- The cometbft library with an application that rejects every block. -/
def failingCometLib : CometbftV38.CometLib :=
  { cometLib with ApplyBlock := fun _ _ _ => .error (Err.msg "app hash mismatch") }

/-- The celestia-core library with an application that rejects every block. -/
def failingCelestiaLib : CelestiaCoreV34.CelestiaLib :=
  { celestiaLib with ApplyBlock := fun _ _ _ _ => .error (Err.msg "app hash mismatch") }

end Demo

/-- The block ids passed to the consensus library by the calls of one `ApplyBlock`, in
call order. -/
def blockIdsOf (effects : List Effect) : List BlockID :=
  effects.filterMap fun effect =>
    match effect with
    | .verifyCommitLight _ blockId _ _ => some blockId
    | .applyBlock _ blockId _ => some blockId
    | _ => none

namespace Demo

/-- The celestia-core library of the examples with a decoder that yields `b` for every
value. -/
def celestiaLibFor (b : Block) : CelestiaCoreV34.CelestiaLib :=
  { celestiaLib with
    UnmarshalBlockResponse := fun _ => .ok b
    UnmarshalTendermintValue := fun _ => .ok b
    UnmarshalBlock := fun _ => .ok b }

/-- The cometbft library of the examples with a decoder that yields `b` for every value. -/
def cometLibFor (b : Block) : CometbftV38.CometLib :=
  { cometLib with
    UnmarshalBlockResponse := fun _ => .ok b
    UnmarshalTendermintValue := fun _ => .ok b
    UnmarshalBlock := fun _ => .ok b }

/-- Block 6 with another part set header in its `LastBlockID`, everything else as in
`block 6`. -/
def block6OtherId : Block := { block 6 with LastBlockID := ⟨5, 7⟩ }

end Demo

/-- The lines of the output in the order in which `GetEnginePathFromBinary` looks at them:
those that list a tendermint dependency, then those that list a cometbft dependency. -/
def candidateLines (out : String) : List (List Char) :=
  (strings.Split out.toList "\n".toList).filter
      (fun line => strings.Contains line "- github.com/tendermint/tendermint@v".toList) ++
    (strings.Split out.toList "\n".toList).filter
      (fun line => strings.Contains line "- github.com/cometbft/cometbft@v".toList)

/-- The outcome of the first line that is not passed over. -/
def firstDecisive (names : EngineNames) : List (List Char) → Option EnginePath
  | [] => none
  | line :: rest =>
    match classifyLine names line with
    | some result => some result
    | none => firstDecisive names rest

namespace Demo

/-- The cometbft-v38 adapter of the examples as the engine of the executor, with the
life-cycle methods of the adapter and an application at the height of the state. -/
def adapterOps : EngineOps Engine :=
  CometbftV38.engineOps cometLib pruneLib constants noSnapshots
    { restOps with
      StartProxyApp := StartProxyApp (lifecycle false false false false)
      DoHandshake := CometbftV38.DoHandshake handshakeLib
      StopProxyApp := StopProxyApp (lifecycle false false false false) }

/-- The engine of the examples at store height 4 with its databases open, before the proxy
app is started. -/
def engineOpened : Engine := { engineAt4 with proxyApp := none, blockExecutor := none }

/-- The same engine after `StartProxyApp` and `DoHandshake`. -/
def engineHandshaken : Engine := { engineAt4 with proxyApp := some 6, blockExecutor := some 10 }

end Demo
/-! ## Engine adapters: `ApplyBlock` and `GetContinuationHeight` -/

/-- C1: a successful `ApplyBlock` on an engine that buffers `p`, with incoming block `b`,
validates, saves and executes `p` (not `b`), saves `p` with the commit `b.LastCommit`, and
leaves exactly `b` in the buffer; in both adapters. -/
theorem applyBlock_applies_buffered_block
    (clib : CometbftV38.CometLib) (tlib : CelestiaCoreV34.CelestiaLib) (k : Constants)
    (runtime : Option String) (value : String) (engine : Engine) (p : Block)
    (hprev : engine.prevBlock = some p) :
    (∀ b, CometbftV38.decodeBlock clib k runtime value = .ok b →
      (CometbftV38.ApplyBlock clib k runtime value engine).err = none →
      ∃ parts state,
        clib.MakePartSet p = .ok parts ∧
        clib.ApplyBlock engine.state ⟨clib.Hash p, parts.Header⟩ p = .ok state ∧
        (CometbftV38.ApplyBlock clib k runtime value engine).effects =
          [Effect.validateBlock engine.state p,
           Effect.verifyCommitLight engine.state.ChainID ⟨clib.Hash p, parts.Header⟩ p.Height
             b.LastCommit,
           Effect.saveBlock p parts b.LastCommit,
           Effect.applyBlock engine.state ⟨clib.Hash p, parts.Header⟩ p] ∧
        (CometbftV38.ApplyBlock clib k runtime value engine).engine =
          { engine with
            blockStore := engine.blockStore.SaveBlock p parts b.LastCommit
            state := state
            prevBlock := some b }) ∧
    (∀ b, CelestiaCoreV34.decodeBlock tlib k runtime value = .ok b →
      (CelestiaCoreV34.ApplyBlock tlib k runtime value engine).err = none →
      ∃ state,
        tlib.ApplyBlock engine.state b.LastBlockID p b.LastCommit = .ok state ∧
        (CelestiaCoreV34.ApplyBlock tlib k runtime value engine).effects =
          [Effect.validateBlock engine.state p,
           Effect.verifyCommitLight engine.state.ChainID b.LastBlockID p.Height b.LastCommit,
           Effect.applyBlock engine.state b.LastBlockID p,
           Effect.saveBlock p (tlib.MakePartSet p) b.LastCommit] ∧
        (CelestiaCoreV34.ApplyBlock tlib k runtime value engine).engine =
          { engine with
            blockStore := engine.blockStore.SaveBlock p (tlib.MakePartSet p) b.LastCommit
            state := { state with AppVersion := p.AppVersion }
            prevBlock := some b }) := by
  constructor
  · intro b hdec herr
    unfold CometbftV38.ApplyBlock at herr ⊢
    rw [hdec] at herr ⊢
    simp only [hprev] at herr ⊢
    cases hparts : clib.MakePartSet p with
    | error e => simp [hparts] at herr
    | ok parts =>
      simp only [hparts] at herr ⊢
      cases hval : clib.ValidateBlock engine.state p with
      | some e => simp [hval] at herr
      | none =>
        simp only [hval] at herr ⊢
        cases hver : clib.VerifyCommitLight engine.state.Validators engine.state.ChainID
            ⟨clib.Hash p, parts.Header⟩ p.Height b.LastCommit with
        | some e => simp [hver] at herr
        | none =>
          simp only [hver] at herr ⊢
          cases happ : clib.ApplyBlock engine.state ⟨clib.Hash p, parts.Header⟩ p with
          | error e => simp [happ] at herr
          | ok state => exact ⟨parts, state, rfl, happ, rfl, rfl⟩
  · intro b hdec herr
    unfold CelestiaCoreV34.ApplyBlock at herr ⊢
    rw [hdec] at herr ⊢
    simp only [hprev] at herr ⊢
    cases hval : tlib.ValidateBlock engine.state p with
    | some e => simp [hval] at herr
    | none =>
      simp only [hval] at herr ⊢
      cases hver : tlib.VerifyCommitLight engine.state.Validators engine.state.ChainID
          b.LastBlockID p.Height b.LastCommit with
      | some e => simp [hver] at herr
      | none =>
        simp only [hver] at herr ⊢
        cases happ : tlib.ApplyBlock engine.state b.LastBlockID p b.LastCommit with
        | error e => simp [happ] at herr
        | ok state => exact ⟨state, rfl, rfl, rfl⟩

/-- Witness for C1: block 6 arrives while block 5 is buffered; block 5 is what gets
validated, saved and executed, and block 6 is buffered. -/
theorem applyBlock_applies_buffered_block_witness :
    Demo.engineAt4Buffered5.prevBlock = some (Demo.block 5) ∧
    CometbftV38.decodeBlock Demo.cometLib Demo.constants none "6" = .ok (Demo.block 6) ∧
    (CometbftV38.ApplyBlock Demo.cometLib Demo.constants none "6"
      Demo.engineAt4Buffered5).err = none ∧
    (CometbftV38.ApplyBlock Demo.cometLib Demo.constants none "6"
      Demo.engineAt4Buffered5).engine.prevBlock = some (Demo.block 6) ∧
    (CometbftV38.ApplyBlock Demo.cometLib Demo.constants none "6"
      Demo.engineAt4Buffered5).engine.blockStore.saved =
        [⟨Demo.block 5, ⟨5, 1⟩, (Demo.block 6).LastCommit⟩] ∧
    (CelestiaCoreV34.ApplyBlock Demo.celestiaLib Demo.constants none "6"
      Demo.engineAt4Buffered5).err = none ∧
    (CelestiaCoreV34.ApplyBlock Demo.celestiaLib Demo.constants none "6"
      Demo.engineAt4Buffered5).engine.prevBlock = some (Demo.block 6) := by
  have h := applyBlock_applies_buffered_block Demo.cometLib Demo.celestiaLib Demo.constants
    none "6" Demo.engineAt4Buffered5 (Demo.block 5) rfl
  refine ⟨rfl, by decide, by decide, ?_, ?_, by decide, ?_⟩
  · obtain ⟨parts, state, _, _, _, heng⟩ := h.1 (Demo.block 6) (by decide) (by decide)
    rw [heng]
  · obtain ⟨parts, state, hparts, _, _, heng⟩ := h.1 (Demo.block 6) (by decide) (by decide)
    rw [heng]
    have : parts = ⟨5, 1⟩ := by
      have h2 : Demo.cometLib.MakePartSet (Demo.block 5) = .ok ⟨5, 1⟩ := by decide
      rw [h2] at hparts
      exact (Except.ok.inj hparts).symm
    subst this
    rfl
  · obtain ⟨state, _, _, heng⟩ := h.2 (Demo.block 6) (by decide) (by decide)
    rw [heng]

/-- C2: on an engine whose buffer is empty, an `ApplyBlock` call whose value decodes
returns no error, calls nothing in the consensus library (no validation, no commit
verification, no save) and changes only the buffer, which then holds the decoded block; in
both adapters. -/
theorem applyBlock_first_call_only_buffers
    (clib : CometbftV38.CometLib) (tlib : CelestiaCoreV34.CelestiaLib) (k : Constants)
    (runtime : Option String) (value : String) (engine : Engine)
    (hprev : engine.prevBlock = none) :
    (∀ b, CometbftV38.decodeBlock clib k runtime value = .ok b →
      CometbftV38.ApplyBlock clib k runtime value engine =
        ⟨none, { engine with prevBlock := some b }, []⟩) ∧
    (∀ b, CelestiaCoreV34.decodeBlock tlib k runtime value = .ok b →
      CelestiaCoreV34.ApplyBlock tlib k runtime value engine =
        ⟨none, { engine with prevBlock := some b }, []⟩) := by
  constructor
  · intro b hdec
    unfold CometbftV38.ApplyBlock
    rw [hdec]
    simp only [hprev]
  · intro b hdec
    unfold CelestiaCoreV34.ApplyBlock
    rw [hdec]
    simp only [hprev]

/-- Witness for C2: the first block of a run, at height 5, is only buffered. -/
theorem applyBlock_first_call_only_buffers_witness :
    Demo.engineAt4.prevBlock = none ∧
    CometbftV38.ApplyBlock Demo.cometLib Demo.constants none "5" Demo.engineAt4 =
      ⟨none, Demo.engineAt4Buffered5, []⟩ ∧
    CelestiaCoreV34.ApplyBlock Demo.celestiaLib Demo.constants
        (some "@kyvejs/tendermint-bsync") "5" Demo.engineAt4 =
      ⟨none, Demo.engineAt4Buffered5, []⟩ :=
  ⟨rfl,
   (applyBlock_first_call_only_buffers Demo.cometLib Demo.celestiaLib Demo.constants none "5"
      Demo.engineAt4 rfl).1 (Demo.block 5) (by decide),
   (applyBlock_first_call_only_buffers Demo.cometLib Demo.celestiaLib Demo.constants
      (some "@kyvejs/tendermint-bsync") "5" Demo.engineAt4 rfl).2 (Demo.block 5) (by decide)⟩

/-- C3: with a block `p` buffered and an incoming block `b`, if the validation of `p`
fails, or the light verification of `b.LastCommit` against the current validator set
fails, `ApplyBlock` returns an error, leaves the whole engine (block store, state and
buffer) as it was, and neither saves nor executes `p`; in both adapters. -/
theorem applyBlock_rejects_invalid_block
    (clib : CometbftV38.CometLib) (tlib : CelestiaCoreV34.CelestiaLib) (k : Constants)
    (runtime : Option String) (value : String) (engine : Engine) (p : Block)
    (hprev : engine.prevBlock = some p) :
    (∀ b, CometbftV38.decodeBlock clib k runtime value = .ok b →
      (clib.ValidateBlock engine.state p ≠ none ∨
        ∃ parts, clib.MakePartSet p = .ok parts ∧
          clib.VerifyCommitLight engine.state.Validators engine.state.ChainID
            ⟨clib.Hash p, parts.Header⟩ p.Height b.LastCommit ≠ none) →
      (CometbftV38.ApplyBlock clib k runtime value engine).err ≠ none ∧
      (CometbftV38.ApplyBlock clib k runtime value engine).engine = engine ∧
      ∀ ev ∈ (CometbftV38.ApplyBlock clib k runtime value engine).effects,
        ev.isWrite = false) ∧
    (∀ b, CelestiaCoreV34.decodeBlock tlib k runtime value = .ok b →
      (tlib.ValidateBlock engine.state p ≠ none ∨
        tlib.VerifyCommitLight engine.state.Validators engine.state.ChainID
          b.LastBlockID p.Height b.LastCommit ≠ none) →
      (CelestiaCoreV34.ApplyBlock tlib k runtime value engine).err ≠ none ∧
      (CelestiaCoreV34.ApplyBlock tlib k runtime value engine).engine = engine ∧
      ∀ ev ∈ (CelestiaCoreV34.ApplyBlock tlib k runtime value engine).effects,
        ev.isWrite = false) := by
  constructor
  · intro b hdec hfail
    unfold CometbftV38.ApplyBlock
    rw [hdec]
    simp only [hprev]
    cases hparts : clib.MakePartSet p with
    | error e => simp
    | ok parts =>
      simp only []
      cases hval : clib.ValidateBlock engine.state p with
      | some e => simp [Effect.isWrite]
      | none =>
        simp only []
        cases hver : clib.VerifyCommitLight engine.state.Validators engine.state.ChainID
            ⟨clib.Hash p, parts.Header⟩ p.Height b.LastCommit with
        | some e => simp [Effect.isWrite]
        | none =>
          exfalso
          rcases hfail with h | ⟨parts2, hp2, h⟩
          · exact h hval
          · rw [hparts] at hp2
            cases hp2
            exact h hver
  · intro b hdec hfail
    unfold CelestiaCoreV34.ApplyBlock
    rw [hdec]
    simp only [hprev]
    cases hval : tlib.ValidateBlock engine.state p with
    | some e => simp [Effect.isWrite]
    | none =>
      simp only []
      cases hver : tlib.VerifyCommitLight engine.state.Validators engine.state.ChainID
          b.LastBlockID p.Height b.LastCommit with
      | some e => simp [Effect.isWrite]
      | none =>
        exfalso
        rcases hfail with h | h
        · exact h hval
        · exact h hver

/-- Witness for C3: a buffered block of height 7 on a state at height 4 fails validation,
and a block 6 whose commit is signed by another validator set fails the commit
verification of the buffered block 5; the engine is unchanged in both cases. -/
theorem applyBlock_rejects_invalid_block_witness :
    Demo.engineAt4Buffered7.prevBlock = some (Demo.block 7) ∧
    Demo.cometLib.ValidateBlock Demo.engineAt4Buffered7.state (Demo.block 7) ≠ none ∧
    (CometbftV38.ApplyBlock Demo.cometLib Demo.constants none "6"
      Demo.engineAt4Buffered7).err ≠ none ∧
    (CometbftV38.ApplyBlock Demo.cometLib Demo.constants none "6"
      Demo.engineAt4Buffered7).engine = Demo.engineAt4Buffered7 ∧
    (CelestiaCoreV34.ApplyBlock Demo.celestiaLib Demo.constants none "6x"
      Demo.engineAt4Buffered5).err ≠ none ∧
    (CelestiaCoreV34.ApplyBlock Demo.celestiaLib Demo.constants none "6x"
      Demo.engineAt4Buffered5).engine = Demo.engineAt4Buffered5 := by
  have h1 := (applyBlock_rejects_invalid_block Demo.cometLib Demo.celestiaLib Demo.constants
    none "6" Demo.engineAt4Buffered7 (Demo.block 7) rfl).1 (Demo.block 6) (by decide)
    (Or.inl (by decide))
  have h2 := (applyBlock_rejects_invalid_block Demo.cometLib Demo.celestiaLib Demo.constants
    none "6x" Demo.engineAt4Buffered5 (Demo.block 5) rfl).2
    { Demo.block 6 with LastCommit := ⟨5, 9⟩ } (by decide) (Or.inr (by decide))
  exact ⟨rfl, by decide, h1.1, h1.2.1, h2.1, h2.2.1⟩

/-- C8: for an engine whose store height `GetHeight()` is `s` (with `s + 1` an `int64`),
`GetContinuationHeight` returns `max (s + 1) i` when the genesis file gives the initial
height `i`, and fails exactly when the initial height cannot be read, in both adapters;
so after a clean exit at height `H >= i - 1` the next run continues at `H + 1`. -/
theorem getContinuationHeight_eq_max (engine : Engine) (s : Int)
    (hlo : -9223372036854775808 ≤ s) (hhi : s + 1 < 9223372036854775808) :
    (CometbftV38.GetHeight engine = s →
      CometbftV38.GetContinuationHeight engine =
        match engine.genesisInitialHeight with
        | .ok i => .ok (max (s + 1) i)
        | .error err =>
          .error (Err.wrap "failed to load initial height from genesis file" err)) ∧
    (CelestiaCoreV34.GetHeight engine = s →
      CelestiaCoreV34.GetContinuationHeight engine =
        match engine.genesisInitialHeight with
        | .ok i => .ok (max (s + 1) i)
        | .error err =>
          .error (Err.wrap "failed to load initial height from genesis file" err)) ∧
    (∀ i, engine.genesisInitialHeight = .ok i → i - 1 ≤ s →
      (CometbftV38.GetHeight engine = s →
        CometbftV38.GetContinuationHeight engine = .ok (s + 1)) ∧
      (CelestiaCoreV34.GetHeight engine = s →
        CelestiaCoreV34.GetContinuationHeight engine = .ok (s + 1))) := by
  have hw : add64 s 1 = s + 1 := by
    unfold add64 wrapInt64
    omega
  have hC : CometbftV38.GetHeight engine = s →
      CometbftV38.GetContinuationHeight engine =
        match engine.genesisInitialHeight with
        | .ok i => .ok (max (s + 1) i)
        | .error err =>
          .error (Err.wrap "failed to load initial height from genesis file" err) := by
    intro hs
    unfold CometbftV38.GetContinuationHeight
    rw [hs]
    cases engine.genesisInitialHeight with
    | error e => rfl
    | ok i =>
      simp only [hw]
      split
      · rename_i hlt
        rw [max_eq_right (le_of_lt hlt)]
      · rename_i hge
        rw [max_eq_left (le_of_not_lt hge)]
  have hT : CelestiaCoreV34.GetHeight engine = s →
      CelestiaCoreV34.GetContinuationHeight engine =
        match engine.genesisInitialHeight with
        | .ok i => .ok (max (s + 1) i)
        | .error err =>
          .error (Err.wrap "failed to load initial height from genesis file" err) := by
    intro hs
    unfold CelestiaCoreV34.GetHeight at hs
    unfold CelestiaCoreV34.GetContinuationHeight
    rw [hs]
    cases engine.genesisInitialHeight with
    | error e => rfl
    | ok i =>
      simp only [hw]
      split
      · rename_i hlt
        rw [max_eq_right (le_of_lt hlt)]
      · rename_i hge
        rw [max_eq_left (le_of_not_lt hge)]
  refine ⟨hC, hT, ?_⟩
  intro i hi his
  have hmax : max (s + 1) i = s + 1 := max_eq_left (by omega)
  constructor
  · intro hs
    rw [hC hs, hi]
    simp only [hmax]
  · intro hs
    rw [hT hs, hi]
    simp only [hmax]

/-- Witness for C8: at store height 4 with initial height 1 both adapters continue at 5. -/
theorem getContinuationHeight_eq_max_witness :
    CometbftV38.GetHeight Demo.engineAt4 = 4 ∧
    CelestiaCoreV34.GetHeight Demo.engineAt4 = 4 ∧
    CometbftV38.GetContinuationHeight Demo.engineAt4 = .ok 5 ∧
    CelestiaCoreV34.GetContinuationHeight Demo.engineAt4 = .ok 5 :=
  ⟨by decide, by decide,
   ((getContinuationHeight_eq_max Demo.engineAt4 4 (by decide) (by decide)).2.2 1 rfl
      (by decide)).1 (by decide),
   ((getContinuationHeight_eq_max Demo.engineAt4 4 (by decide) (by decide)).2.2 1 rfl
      (by decide)).2 (by decide)⟩

/-! ## Executor: how the phases extend the trace -/

theorem applyHeights_append (a b : List Event) :
    applyHeights (a ++ b) = applyHeights a ++ applyHeights b := by
  simp [applyHeights, List.filterMap_append]

theorem stopCalls_append (a b : List Event) :
    stopCalls (a ++ b) = stopCalls a + stopCalls b := by
  simp [stopCalls, List.count_append]

theorem quiet_refl (x : Exec σ) : Quiet x x :=
  ⟨[], by simp, rfl, rfl⟩

theorem quiet_trans {x y z : Exec σ} (h1 : Quiet x y) (h2 : Quiet y z) : Quiet x z := by
  obtain ⟨a, ha, ha1, ha2⟩ := h1
  obtain ⟨b, hb, hb1, hb2⟩ := h2
  refine ⟨a ++ b, ?_, ?_, ?_⟩
  · rw [hb, ha, List.append_assoc]
  · rw [applyHeights_append, ha1, hb1]
    rfl
  · rw [stopCalls_append, ha2, hb2]

theorem quiet_applyHeights_eq {x y : Exec σ} (h : Quiet x y) :
    applyHeights y.trace = applyHeights x.trace := by
  obtain ⟨a, ha, ha1, _⟩ := h
  rw [ha, applyHeights_append, ha1, List.append_nil]

theorem quiet_stopCalls_eq {x y : Exec σ} (h : Quiet x y) :
    stopCalls y.trace = stopCalls x.trace := by
  obtain ⟨a, ha, _, ha2⟩ := h
  rw [ha, stopCalls_append, ha2, Nat.add_zero]

theorem quiet_of_trace {x y : Exec σ} (added : List Event)
    (h : y.trace = x.trace ++ added) (h1 : applyHeights added = []) (h2 : stopCalls added = 0) :
    Quiet x y :=
  ⟨added, h, h1, h2⟩

theorem quiet_refresh (env : Collaborators) (x : Exec σ) :
    Quiet x (refreshSnapshotPoolHeight env x) :=
  ⟨[Event.getSnapshotPoolHeight], rfl, rfl, rfl⟩

theorem quiet_waitForSnapshotPool (env : Collaborators) (k : Constants) (p : Params)
    (height : Int) (fuel : Nat) (x : Exec σ) :
    Quiet x (waitForSnapshotPool env k p height fuel x).exec := by
  induction fuel generalizing x with
  | zero =>
    unfold waitForSnapshotPool
    split <;> exact quiet_refl x
  | succ n ih =>
    unfold waitForSnapshotPool
    split
    · refine quiet_trans ?_ (ih _)
      exact ⟨[Event.sleep 10, Event.getSnapshotPoolHeight], by
        simp [refreshSnapshotPoolHeight, Exec.emit], rfl, rfl⟩
    · exact quiet_refl x

theorem quiet_waitForSnapshot (ops : EngineOps σ) (prevHeight : Int) (fuel : Nat) (x : Exec σ) :
    Quiet x (waitForSnapshot ops prevHeight fuel x).exec := by
  induction fuel generalizing x with
  | zero => exact quiet_refl x
  | succ n ih =>
    unfold waitForSnapshot
    simp only []
    split
    · refine quiet_trans ?_ (ih _)
      exact ⟨[Event.isSnapshotAvailable prevHeight,
        Event.logError "check snapshot availability failed", Event.sleep 10], by
        simp [Exec.emit], rfl, rfl⟩
    · refine quiet_trans ?_ (ih _)
      exact ⟨[Event.isSnapshotAvailable prevHeight, Event.sleep 10], by
        simp [Exec.emit], rfl, rfl⟩
    · exact ⟨[Event.isSnapshotAvailable prevHeight], rfl, rfl, rfl⟩

theorem quiet_initialBackpressure (env : Collaborators) (k : Constants) (p : Params)
    (c : Int) (fuel : Nat) (x : Exec σ) :
    Quiet x (initialBackpressure env k p c fuel x).exec := by
  unfold initialBackpressure
  split
  · exact quiet_trans (quiet_refresh env x) (quiet_waitForSnapshotPool env k p c fuel _)
  · exact quiet_refl x

theorem quiet_snapshotPhase (ops : EngineOps σ) (env : Collaborators) (p : Params)
    (v : LoopVars) (fuel : Nat) (prevHeight : Int) (x : Exec σ) :
    Quiet x (snapshotPhase ops env p v fuel prevHeight x).exec := by
  unfold snapshotPhase
  split
  · have h := quiet_waitForSnapshot ops prevHeight fuel x
    cases hw : waitForSnapshot ops prevHeight fuel x with
    | finished x1 =>
      rw [hw] at h
      exact quiet_trans h (quiet_refresh env x1)
    | pending x1 =>
      rw [hw] at h
      exact h
  · exact quiet_refl x

theorem quiet_step (x y : Exec σ) (ev : Event) (h : y.trace = x.trace ++ [ev])
    (h1 : applyHeights [ev] = []) (h2 : stopCalls [ev] = 0) : Quiet x y :=
  ⟨[ev], h, h1, h2⟩

theorem quiet_prunePhase (ops : EngineOps σ) (k : Constants) (p : Params) (prevHeight : Int)
    (x : Exec σ) : Quiet x (prunePhase ops k p prevHeight x) := by
  unfold prunePhase
  split
  · simp only []
    split
    · exact quiet_trans (quiet_step x _ (Event.pruneBlocks _) rfl rfl rfl)
        (quiet_step _ _ (Event.logError _) rfl rfl rfl)
    · exact quiet_step x _ (Event.pruneBlocks _) rfl rfl rfl
  · exact quiet_refl x

theorem quiet_backupPhase (ops : EngineOps σ) (env : Collaborators) (p : Params)
    (prevHeight : Int) (x : Exec σ) : Quiet x (backupPhase ops env p prevHeight x).2 := by
  unfold backupPhase
  split
  · exact quiet_refl x
  · split
    · simp only []
      have h2 : Quiet x
          ({ x.emit (Event.sleep 15) with
              engine := (ops.GetChainId (x.emit (Event.sleep 15)).engine).2
              trace := (x.emit (Event.sleep 15)).trace ++ [Event.getChainId] } : Exec σ) :=
        quiet_trans (quiet_step x (x.emit (Event.sleep 15)) (Event.sleep 15) rfl rfl rfl)
          (quiet_step _ _ Event.getChainId rfl rfl rfl)
      split
      · exact h2
      · split
        · exact quiet_trans h2
            (quiet_trans (quiet_step _ _ (Event.createBackup _ _ _) rfl rfl rfl)
              (quiet_step _ _ (Event.logError _) rfl rfl rfl))
        · exact quiet_trans h2 (quiet_step _ _ (Event.createBackup _ _ _) rfl rfl rfl)
    · exact quiet_refl x

theorem quiet_backpressurePhase (env : Collaborators) (k : Constants) (p : Params)
    (fuel : Nat) (height : Int) (x : Exec σ) :
    Quiet x (backpressurePhase env k p fuel height x).exec := by
  unfold backpressurePhase
  split
  · exact quiet_waitForSnapshotPool env k p height fuel x
  · exact quiet_refl x

/-! ## Executor: one item -/

theorem backupPhase_err (ops : EngineOps σ) (env : Collaborators) (p : Params)
    (prevHeight : Int) (x : Exec σ) (e : Err)
    (h : (backupPhase ops env p prevHeight x).1 = some e) :
    e = Err.msg "failed to get chain id from genesis: %!w(MISSING)" := by
  unfold backupPhase at h
  split at h
  · simp at h
  · split at h
    · simp only [] at h
      split at h
      · simp at h
        exact h.symm
      · split at h <;> simp at h
    · simp at h

theorem targetPhase_stop (ops : EngineOps σ) (p : Params) (height : Int) (x : Exec σ)
    (h : p.targetHeight > 0 ∧ height ≥ add64 p.targetHeight 1) :
    targetPhase ops p height x = .done (stopResult ops x) (afterStop ops x) := by
  unfold targetPhase stopResult afterStop
  rw [if_pos h]
  simp only []
  cases (ops.StopProxyApp x.engine).1 <;> rfl

theorem targetPhase_next (ops : EngineOps σ) (p : Params) (height : Int) (x : Exec σ)
    (h : ¬ (p.targetHeight > 0 ∧ height ≥ add64 p.targetHeight 1)) :
    targetPhase ops p height x = .next x := by
  unfold targetPhase
  rw [if_neg h]

/-- Every way one iteration of the main loop can go. -/
theorem processItem_cases (ops : EngineOps σ) (env : Collaborators) (k : Constants)
    (p : Params) (v : LoopVars) (fuel : Nat) (item : DataItem) (x : Exec σ) :
    (∃ e, env.ParseBlockHeightFromKey item.Key = .error e ∧
      processItem ops env k p v fuel item x =
        .done (some (Err.wrap ("failed parse block height from key " ++ item.Key) e)) x) ∨
    (∃ h, env.ParseBlockHeightFromKey item.Key = .ok h ∧
      ((∃ e, (ops.ApplyBlock v.runtime item.Value x.engine).1 = some e ∧
          processItem ops env k p v fuel item x =
            .done (some (Err.wrap "failed to apply block in engine" e))
              (afterApply ops v h item x)) ∨
        ((ops.ApplyBlock v.runtime item.Value x.engine).1 = none ∧
          ((∃ y, Quiet (afterApply ops v h item x) y ∧
              processItem ops env k p v fuel item x = .next y) ∨
            (∃ y, Quiet (afterApply ops v h item x) y ∧
              processItem ops env k p v fuel item x = .waiting y) ∨
            (∃ y, Quiet (afterApply ops v h item x) y ∧
              processItem ops env k p v fuel item x =
                .done (some (Err.msg "failed to get chain id from genesis: %!w(MISSING)")) y) ∨
            (∃ y, Quiet (afterApply ops v h item x) y ∧ h ≠ v.continuationHeight ∧
              (p.targetHeight > 0 ∧ h ≥ add64 p.targetHeight 1) ∧
              processItem ops env k p v fuel item x =
                .done (stopResult ops y) (afterStop ops y)))))) := by
  unfold processItem
  cases hparse : env.ParseBlockHeightFromKey item.Key with
  | error e => exact Or.inl ⟨e, rfl, rfl⟩
  | ok h =>
    refine Or.inr ⟨h, rfl, ?_⟩
    simp only []
    cases happ : (ops.ApplyBlock v.runtime item.Value x.engine).1 with
    | some e => exact Or.inl ⟨e, rfl, rfl⟩
    | none =>
      refine Or.inr ⟨rfl, ?_⟩
      simp only []
      have hq1 := quiet_snapshotPhase ops env p v fuel (sub64 h 1) (afterApply ops v h item x)
      change Quiet _ (snapshotPhase ops env p v fuel (sub64 h 1)
        { x with
          engine := (ops.ApplyBlock v.runtime item.Value x.engine).2
          trace := x.trace ++ [Event.applyBlock h v.runtime item.Value] }).exec at hq1
      cases hsnap : snapshotPhase ops env p v fuel (sub64 h 1)
        { x with
          engine := (ops.ApplyBlock v.runtime item.Value x.engine).2
          trace := x.trace ++ [Event.applyBlock h v.runtime item.Value] } with
      | pending x2 =>
        rw [hsnap] at hq1
        exact Or.inr (Or.inl ⟨x2, hq1, rfl⟩)
      | finished x2 =>
        rw [hsnap] at hq1
        simp only []
        by_cases hc : h = v.continuationHeight
        · rw [if_pos hc]
          exact Or.inl ⟨x2, hq1, rfl⟩
        · rw [if_neg hc]
          have hq3 := quiet_trans hq1 (quiet_prunePhase ops k p (sub64 h 1) x2)
          have hq4 := quiet_trans hq3
            (quiet_backupPhase ops env p (sub64 h 1) (prunePhase ops k p (sub64 h 1) x2))
          have herr := backupPhase_err ops env p (sub64 h 1) (prunePhase ops k p (sub64 h 1) x2)
          cases hb : backupPhase ops env p (sub64 h 1) (prunePhase ops k p (sub64 h 1) x2) with
          | mk e x4 =>
            rw [hb] at hq4 herr
            cases e with
            | some e =>
              have he := herr e rfl
              subst he
              exact Or.inr (Or.inr (Or.inl ⟨x4, hq4, rfl⟩))
            | none =>
              simp only []
              have hq5 := quiet_trans hq4 (quiet_backpressurePhase env k p fuel h x4)
              cases hbp : backpressurePhase env k p fuel h x4 with
              | pending x5 =>
                rw [hbp] at hq5
                exact Or.inr (Or.inl ⟨x5, hq5, rfl⟩)
              | finished x5 =>
                rw [hbp] at hq5
                simp only []
                by_cases ht : p.targetHeight > 0 ∧ h ≥ add64 p.targetHeight 1
                · rw [targetPhase_stop ops p h x5 ht]
                  exact Or.inr (Or.inr (Or.inr ⟨x5, hq5, hc, ht, rfl⟩))
                · rw [targetPhase_next ops p h x5 ht]
                  exact Or.inl ⟨x5, hq5, rfl⟩

/-! ## Executor: the start and the main loop -/

theorem noStop_refl (x : Exec σ) : NoStop x x :=
  ⟨[], by simp, rfl⟩

theorem noStop_trans {x y z : Exec σ} (h1 : NoStop x y) (h2 : NoStop y z) : NoStop x z := by
  obtain ⟨a, ha, ha2⟩ := h1
  obtain ⟨b, hb, hb2⟩ := h2
  refine ⟨a ++ b, ?_, ?_⟩
  · rw [hb, ha, List.append_assoc]
  · rw [stopCalls_append, ha2, hb2]

theorem quiet_noStop {x y : Exec σ} (h : Quiet x y) : NoStop x y := by
  obtain ⟨a, ha, _, ha2⟩ := h
  exact ⟨a, ha, ha2⟩

theorem noStop_stopCalls_eq {x y : Exec σ} (h : NoStop x y) :
    stopCalls y.trace = stopCalls x.trace := by
  obtain ⟨a, ha, ha2⟩ := h
  rw [ha, stopCalls_append, ha2, Nat.add_zero]

theorem noStop_afterApply (ops : EngineOps σ) (v : LoopVars) (h : Int) (item : DataItem)
    (x : Exec σ) : NoStop x (afterApply ops v h item x) :=
  ⟨[Event.applyBlock h v.runtime item.Value], rfl, rfl⟩

theorem applyHeights_afterApply (ops : EngineOps σ) (v : LoopVars) (h : Int) (item : DataItem)
    (x : Exec σ) :
    applyHeights (afterApply ops v h item x).trace = applyHeights x.trace ++ [h] := by
  unfold afterApply
  rw [applyHeights_append]
  rfl

theorem applyHeights_afterStop (ops : EngineOps σ) (x : Exec σ) :
    applyHeights (afterStop ops x).trace = applyHeights x.trace := by
  unfold afterStop
  rw [applyHeights_append]
  simp [applyHeights]

theorem stopCalls_afterStop (ops : EngineOps σ) (x : Exec σ) :
    stopCalls (afterStop ops x).trace = stopCalls x.trace + 1 := by
  unfold afterStop
  rw [stopCalls_append]
  rfl

/-- A run that entered the main loop made the four startup calls, all successful, and
then only calls other than `ApplyBlock` and `StopProxyApp`. -/
theorem startup_inr (ops : EngineOps σ) (env : Collaborators) (k : Constants) (p : Params)
    (fuel : Nat) (engine : σ) (v : LoopVars) (y : Exec σ)
    (h : startup ops env k p fuel engine = .inr (v, y)) :
    (ops.GetContinuationHeight engine).1 = .ok v.continuationHeight ∧
    (ops.GetAppHeight (ops.GetContinuationHeight engine).2).1 = .ok v.appHeight ∧
    (ops.StartProxyApp (ops.GetAppHeight (ops.GetContinuationHeight engine).2).2).1 = none ∧
    (ops.DoHandshake (ops.StartProxyApp
      (ops.GetAppHeight (ops.GetContinuationHeight engine).2).2).2).1 = none ∧
    v.runtime = resolveRuntime env p ∧
    ∃ added, y.trace = startupCalls ++ added ∧ applyHeights added = [] ∧
      stopCalls added = 0 := by
  unfold startup at h
  simp only [] at h
  cases h1 : (ops.GetContinuationHeight engine).1 with
  | error e => simp [h1] at h
  | ok c =>
    simp only [h1] at h
    cases h2 : (ops.GetAppHeight (ops.GetContinuationHeight engine).2).1 with
    | error e => simp [h2] at h
    | ok a =>
      simp only [h2] at h
      cases h3 : (ops.StartProxyApp (ops.GetAppHeight (ops.GetContinuationHeight engine).2).2).1 with
      | some e => simp [h3] at h
      | none =>
        simp only [h3] at h
        cases h4 : (ops.DoHandshake (ops.StartProxyApp
            (ops.GetAppHeight (ops.GetContinuationHeight engine).2).2).2).1 with
        | some e => simp [h4] at h
        | none =>
          simp only [h4] at h
          cases hpool : p.blockPoolId with
          | none =>
            simp only [hpool] at h
            have hq := quiet_initialBackpressure env k p c fuel
              (Exec.emit
                ({ engine := (ops.DoHandshake (ops.StartProxyApp
                      (ops.GetAppHeight (ops.GetContinuationHeight engine).2).2).2).2
                   trace := startupCalls
                   poolCalls := 0
                   snapshotPoolHeight := 0 } : Exec σ)
                (Event.startBlockCollector c p.targetHeight (decide (p.snapshotInterval = 0))))
            split at h
            · simp at h
            · rename_i x7 hx7
              simp only [Sum.inr.injEq, Prod.mk.injEq] at h
              obtain ⟨hv, hy⟩ := h
              subst hv
              subst hy
              refine ⟨rfl, rfl, rfl, rfl, ?_, ?_⟩
              · simp [resolveRuntime, hpool]
              · change Quiet _ (initialBackpressure env k p c fuel _).exec at hq
                simp only [startupCalls, Exec.emit, List.cons_append, List.nil_append] at hx7 hq
                rw [hx7] at hq
                obtain ⟨added, hadd, ha1, ha2⟩ := hq
                refine ⟨Event.startBlockCollector c p.targetHeight
                  (decide (p.snapshotInterval = 0)) :: added, ?_, ?_, ?_⟩
                · rw [Wait.exec] at hadd
                  rw [hadd]
                  simp [startupCalls]
                · change applyHeights ([_] ++ added) = []
                  rw [applyHeights_append, ha1]
                  rfl
                · change stopCalls ([_] ++ added) = 0
                  rw [stopCalls_append, ha2]
                  rfl
          | some poolId =>
            simp only [hpool] at h
            cases hinfo : env.GetPoolInfo poolId with
            | error e => simp [hinfo] at h
            | ok rt =>
              simp only [hinfo] at h
              have hq := quiet_initialBackpressure env k p c fuel
                (Exec.emit (Exec.emit
                  ({ engine := (ops.DoHandshake (ops.StartProxyApp
                        (ops.GetAppHeight (ops.GetContinuationHeight engine).2).2).2).2
                     trace := startupCalls
                     poolCalls := 0
                     snapshotPoolHeight := 0 } : Exec σ) (Event.getPoolInfo poolId))
                  (Event.startBlockCollector c p.targetHeight
                    (decide (p.snapshotInterval = 0))))
              split at h
              · simp at h
              · rename_i x7 hx7
                simp only [Sum.inr.injEq, Prod.mk.injEq] at h
                obtain ⟨hv, hy⟩ := h
                subst hv
                subst hy
                refine ⟨rfl, rfl, rfl, rfl, ?_, ?_⟩
                · simp [resolveRuntime, hpool, hinfo]
                · change Quiet _ (initialBackpressure env k p c fuel _).exec at hq
                  simp only [startupCalls, Exec.emit, List.cons_append, List.nil_append]
                    at hx7 hq
                  rw [hx7] at hq
                  obtain ⟨added, hadd, ha1, ha2⟩ := hq
                  refine ⟨Event.getPoolInfo poolId :: Event.startBlockCollector c p.targetHeight
                    (decide (p.snapshotInterval = 0)) :: added, ?_, ?_, ?_⟩
                  · rw [Wait.exec] at hadd
                    rw [hadd]
                    simp [startupCalls]
                  · change applyHeights ([_, _] ++ added) = []
                    rw [applyHeights_append, ha1]
                    rfl
                  · change stopCalls ([_, _] ++ added) = 0
                    rw [stopCalls_append, ha2]
                    rfl

/-- A run that ended before the main loop did not return `nil` and called neither
`ApplyBlock` nor `StopProxyApp`. -/
theorem startup_inl (ops : EngineOps σ) (env : Collaborators) (k : Constants) (p : Params)
    (fuel : Nat) (engine : σ) (o : Outcome) (y : Exec σ)
    (h : startup ops env k p fuel engine = .inl (o, y)) :
    o ≠ .returned none ∧ o ≠ .awaitingItem ∧ applyHeights y.trace = [] ∧
      stopCalls y.trace = 0 := by
  unfold startup at h
  simp only [] at h
  cases h1 : (ops.GetContinuationHeight engine).1 with
  | error e =>
    simp only [h1, Sum.inl.injEq, Prod.mk.injEq] at h
    obtain ⟨ho, hy⟩ := h
    subst ho
    subst hy
    exact ⟨by simp, by simp, rfl, rfl⟩
  | ok c =>
    simp only [h1] at h
    cases h2 : (ops.GetAppHeight (ops.GetContinuationHeight engine).2).1 with
    | error e =>
      simp only [h2, Sum.inl.injEq, Prod.mk.injEq] at h
      obtain ⟨ho, hy⟩ := h
      subst ho
      subst hy
      exact ⟨by simp, by simp, rfl, rfl⟩
    | ok a =>
      simp only [h2] at h
      cases h3 : (ops.StartProxyApp (ops.GetAppHeight (ops.GetContinuationHeight engine).2).2).1 with
      | some e =>
        simp only [h3, Sum.inl.injEq, Prod.mk.injEq] at h
        obtain ⟨ho, hy⟩ := h
        subst ho
        subst hy
        exact ⟨by simp, by simp, rfl, rfl⟩
      | none =>
        simp only [h3] at h
        cases h4 : (ops.DoHandshake (ops.StartProxyApp
            (ops.GetAppHeight (ops.GetContinuationHeight engine).2).2).2).1 with
        | some e =>
          simp only [h4, Sum.inl.injEq, Prod.mk.injEq] at h
          obtain ⟨ho, hy⟩ := h
          subst ho
          subst hy
          exact ⟨by simp, by simp, rfl, rfl⟩
        | none =>
          simp only [h4] at h
          cases hpool : p.blockPoolId with
          | none =>
            simp only [hpool] at h
            have hq := quiet_initialBackpressure env k p c fuel
              (Exec.emit
                ({ engine := (ops.DoHandshake (ops.StartProxyApp
                      (ops.GetAppHeight (ops.GetContinuationHeight engine).2).2).2).2
                   trace := startupCalls
                   poolCalls := 0
                   snapshotPoolHeight := 0 } : Exec σ)
                (Event.startBlockCollector c p.targetHeight (decide (p.snapshotInterval = 0))))
            split at h
            · rename_i x7 hx7
              simp only [Sum.inl.injEq, Prod.mk.injEq] at h
              obtain ⟨ho, hy⟩ := h
              subst ho
              subst hy
              change Quiet _ (initialBackpressure env k p c fuel _).exec at hq
              simp only [startupCalls, Exec.emit, List.cons_append, List.nil_append] at hx7 hq
              rw [hx7] at hq
              refine ⟨by simp, by simp, ?_, ?_⟩
              · exact (quiet_applyHeights_eq hq).trans rfl
              · exact (quiet_stopCalls_eq hq).trans rfl
            · simp at h
          | some poolId =>
            simp only [hpool] at h
            cases hinfo : env.GetPoolInfo poolId with
            | error e =>
              simp only [hinfo, Sum.inl.injEq, Prod.mk.injEq] at h
              obtain ⟨ho, hy⟩ := h
              subst ho
              subst hy
              exact ⟨by simp, by simp, rfl, rfl⟩
            | ok rt =>
              simp only [hinfo] at h
              have hq := quiet_initialBackpressure env k p c fuel
                (Exec.emit (Exec.emit
                  ({ engine := (ops.DoHandshake (ops.StartProxyApp
                        (ops.GetAppHeight (ops.GetContinuationHeight engine).2).2).2).2
                     trace := startupCalls
                     poolCalls := 0
                     snapshotPoolHeight := 0 } : Exec σ) (Event.getPoolInfo poolId))
                  (Event.startBlockCollector c p.targetHeight
                    (decide (p.snapshotInterval = 0))))
              split at h
              · rename_i x7 hx7
                simp only [Sum.inl.injEq, Prod.mk.injEq] at h
                obtain ⟨ho, hy⟩ := h
                subst ho
                subst hy
                change Quiet _ (initialBackpressure env k p c fuel _).exec at hq
                simp only [startupCalls, Exec.emit, List.cons_append, List.nil_append]
                  at hx7 hq
                rw [hx7] at hq
                refine ⟨by simp, by simp, ?_, ?_⟩
                · exact (quiet_applyHeights_eq hq).trans rfl
                · exact (quiet_stopCalls_eq hq).trans rfl
              · simp at h

/-- Feeding more to a loop that is waiting for its next item continues from where it
waits. -/
theorem mainLoop_append (ops : EngineOps σ) (env : Collaborators) (k : Constants)
    (p : Params) (v : LoopVars) (fuel : Nat) (pre evs : List SourceEvent) (x y : Exec σ)
    (h : mainLoop ops env k p v fuel pre x = (.awaitingItem, y)) :
    mainLoop ops env k p v fuel (pre ++ evs) x = mainLoop ops env k p v fuel evs y := by
  induction pre generalizing x with
  | nil =>
    simp only [mainLoop, Prod.mk.injEq, true_and] at h
    subst h
    rfl
  | cons ev rest ih =>
    cases ev with
    | error e => simp [mainLoop] at h
    | item item =>
      simp only [List.cons_append, mainLoop] at h ⊢
      cases hstep : processItem ops env k p v fuel item x with
      | next x1 =>
        rw [hstep] at h
        exact ih x1 h
      | done err x1 =>
        rw [hstep] at h
        simp at h
      | waiting x1 =>
        rw [hstep] at h
        simp at h

/-- The main loop calls `StopProxyApp` only as its last call, on the target-height exit,
and returns `nil` only there. -/
theorem mainLoop_stop (ops : EngineOps σ) (env : Collaborators) (k : Constants)
    (p : Params) (v : LoopVars) (fuel : Nat) (evs : List SourceEvent) (x : Exec σ) :
    (NoStop x (mainLoop ops env k p v fuel evs x).2 ∧
      (mainLoop ops env k p v fuel evs x).1 ≠ .returned none) ∨
    (∃ y, NoStop x y ∧
      mainLoop ops env k p v fuel evs x = (.returned (stopResult ops y), afterStop ops y)) := by
  induction evs generalizing x with
  | nil => exact Or.inl ⟨noStop_refl x, by simp [mainLoop]⟩
  | cons ev rest ih =>
    cases ev with
    | error e => exact Or.inl ⟨noStop_refl x, by simp [mainLoop]⟩
    | item item =>
      simp only [mainLoop]
      rcases processItem_cases ops env k p v fuel item x with
        ⟨e, _, hres⟩ | ⟨h, _, ⟨e, _, hres⟩ | ⟨_, ⟨y, hq, hres⟩ | ⟨y, hq, hres⟩ |
          ⟨y, hq, hres⟩ | ⟨y, hq, _, _, hres⟩⟩⟩
      · rw [hres]
        exact Or.inl ⟨noStop_refl x, by simp⟩
      · rw [hres]
        exact Or.inl ⟨noStop_afterApply ops v h item x, by simp⟩
      · rw [hres]
        have hxy := noStop_trans (noStop_afterApply ops v h item x) (quiet_noStop hq)
        rcases ih y with ⟨h1, h2⟩ | ⟨z, h1, h2⟩
        · exact Or.inl ⟨noStop_trans hxy h1, h2⟩
        · exact Or.inr ⟨z, noStop_trans hxy h1, h2⟩
      · rw [hres]
        exact Or.inl ⟨noStop_trans (noStop_afterApply ops v h item x) (quiet_noStop hq), by simp⟩
      · rw [hres]
        exact Or.inl ⟨noStop_trans (noStop_afterApply ops v h item x) (quiet_noStop hq), by simp⟩
      · rw [hres]
        exact Or.inr ⟨y, noStop_trans (noStop_afterApply ops v h item x) (quiet_noStop hq), rfl⟩

/-- If the keys of the delivered items parse to `h`, `h + 1`, ..., the main loop passes
exactly an initial run of these heights to `ApplyBlock`, each once and in order. -/
theorem mainLoop_heights (ops : EngineOps σ) (env : Collaborators) (k : Constants)
    (p : Params) (v : LoopVars) (fuel : Nat) (evs : List SourceEvent) (x : Exec σ) (h : Int)
    (hsrc : SourceOrdered env h (itemsOf evs)) :
    ∃ n : Nat, applyHeights (mainLoop ops env k p v fuel evs x).2.trace =
      applyHeights x.trace ++ (List.range n).map (fun i : Nat => h + (i : Int)) := by
  induction evs generalizing x h with
  | nil => exact ⟨0, by simp [mainLoop]⟩
  | cons ev rest ih =>
    cases ev with
    | error e => exact ⟨0, by simp [mainLoop]⟩
    | item item =>
      simp only [itemsOf, SourceOrdered] at hsrc
      obtain ⟨hkey, hrest⟩ := hsrc
      simp only [mainLoop]
      have hone : ∀ y : Exec σ, applyHeights y.trace = applyHeights x.trace ++ [h] →
          ∃ n : Nat, applyHeights y.trace =
            applyHeights x.trace ++ (List.range n).map (fun i : Nat => h + (i : Int)) := by
        intro y hy
        exact ⟨1, by rw [hy]; simp [List.range_succ]⟩
      rcases processItem_cases ops env k p v fuel item x with
        ⟨e, hp, _⟩ | ⟨h2, hp, ⟨e, _, hres⟩ | ⟨_, ⟨y, hq, hres⟩ | ⟨y, hq, hres⟩ |
          ⟨y, hq, hres⟩ | ⟨y, hq, _, _, hres⟩⟩⟩
      · rw [hkey] at hp
        cases hp
      all_goals
        rw [hkey] at hp
        cases hp
        rw [hres]
      · exact hone _ (applyHeights_afterApply ops v h item x)
      · obtain ⟨n, hn⟩ := ih y (h + 1) hrest
        refine ⟨n + 1, ?_⟩
        rw [hn, (quiet_applyHeights_eq hq), applyHeights_afterApply, List.append_assoc]
        congr 1
        rw [List.range_succ_eq_map]
        simp only [List.map_cons, List.map_map, List.singleton_append, Nat.cast_zero, add_zero,
          List.cons.injEq, true_and]
        apply List.map_congr_left
        intro i _
        simp only [Function.comp, Nat.succ_eq_add_one, Nat.cast_add, Nat.cast_one]
        omega
      · exact hone _ (by rw [(quiet_applyHeights_eq hq), applyHeights_afterApply])
      · exact hone _ (by rw [(quiet_applyHeights_eq hq), applyHeights_afterApply])
      · exact hone _ (by
          rw [applyHeights_afterStop, (quiet_applyHeights_eq hq), applyHeights_afterApply])

/-- The main loop only appends to the trace. -/
theorem mainLoop_extends (ops : EngineOps σ) (env : Collaborators) (k : Constants)
    (p : Params) (v : LoopVars) (fuel : Nat) (evs : List SourceEvent) (x : Exec σ) :
    ∃ added, (mainLoop ops env k p v fuel evs x).2.trace = x.trace ++ added := by
  rcases mainLoop_stop ops env k p v fuel evs x with ⟨⟨added, h, _⟩, _⟩ | ⟨y, ⟨added, h, _⟩, hres⟩
  · exact ⟨added, h⟩
  · refine ⟨added ++ [Event.stopProxyApp], ?_⟩
    rw [hres]
    simp only [afterStop]
    rw [h, List.append_assoc]

/-- A run that waits for its next item has entered the main loop. -/
theorem run_awaiting (ops : EngineOps σ) (env : Collaborators) (k : Constants) (p : Params)
    (fuel : Nat) (pre : List SourceEvent) (engine : σ) (y : Exec σ)
    (h : StartBlockSyncExecutor ops env k p fuel pre engine = (.awaitingItem, y)) :
    ∃ v x, startup ops env k p fuel engine = .inr (v, x) ∧
      mainLoop ops env k p v fuel pre x = (.awaitingItem, y) := by
  unfold StartBlockSyncExecutor at h
  cases hs : startup ops env k p fuel engine with
  | inl r =>
    obtain ⟨o, z⟩ := r
    rw [hs] at h
    simp only [Prod.mk.injEq] at h
    have := (startup_inl ops env k p fuel engine o z hs).2.1
    exact absurd h.1 this
  | inr r =>
    obtain ⟨v, x⟩ := r
    rw [hs] at h
    exact ⟨v, x, rfl, h⟩

/-- What a run does with the next delivery once it waits for an item. -/
theorem run_continue (ops : EngineOps σ) (env : Collaborators) (k : Constants) (p : Params)
    (fuel : Nat) (pre evs : List SourceEvent) (engine : σ) (y : Exec σ)
    (h : StartBlockSyncExecutor ops env k p fuel pre engine = (.awaitingItem, y)) :
    ∃ v, v.runtime = resolveRuntime env p ∧
      StartBlockSyncExecutor ops env k p fuel (pre ++ evs) engine =
        mainLoop ops env k p v fuel evs y := by
  obtain ⟨v, x, hs, hl⟩ := run_awaiting ops env k p fuel pre engine y h
  refine ⟨v, (startup_inr ops env k p fuel engine v x hs).2.2.2.2.1, ?_⟩
  unfold StartBlockSyncExecutor
  rw [hs]
  exact mainLoop_append ops env k p v fuel pre evs x y hl

theorem run_source_error (ops : EngineOps σ) (env : Collaborators) (k : Constants)
    (p : Params) (fuel : Nat) (pre rest : List SourceEvent) (engine : σ) (y : Exec σ)
    (h : StartBlockSyncExecutor ops env k p fuel pre engine = (.awaitingItem, y)) (e : Err) :
    StartBlockSyncExecutor ops env k p fuel (pre ++ SourceEvent.error e :: rest) engine =
      (.returned (some (Err.wrap "error in block collector" e)), y) := by
  obtain ⟨v, _, hrun⟩ := run_continue ops env k p fuel pre (SourceEvent.error e :: rest) engine y h
  rw [hrun]
  rfl

theorem run_parse_error (ops : EngineOps σ) (env : Collaborators) (k : Constants)
    (p : Params) (fuel : Nat) (pre rest : List SourceEvent) (engine : σ) (y : Exec σ)
    (h : StartBlockSyncExecutor ops env k p fuel pre engine = (.awaitingItem, y))
    (item : DataItem) (e : Err) (hkey : env.ParseBlockHeightFromKey item.Key = .error e) :
    StartBlockSyncExecutor ops env k p fuel (pre ++ SourceEvent.item item :: rest) engine =
      (.returned (some (Err.wrap ("failed parse block height from key " ++ item.Key) e)), y) := by
  obtain ⟨v, _, hrun⟩ := run_continue ops env k p fuel pre (SourceEvent.item item :: rest) engine y h
  rw [hrun]
  simp only [mainLoop, processItem, hkey]

theorem run_apply_error (ops : EngineOps σ) (env : Collaborators) (k : Constants)
    (p : Params) (fuel : Nat) (pre rest : List SourceEvent) (engine : σ) (y : Exec σ)
    (h : StartBlockSyncExecutor ops env k p fuel pre engine = (.awaitingItem, y))
    (item : DataItem) (height : Int) (e : Err)
    (hkey : env.ParseBlockHeightFromKey item.Key = .ok height)
    (happ : (ops.ApplyBlock (resolveRuntime env p) item.Value y.engine).1 = some e) :
    StartBlockSyncExecutor ops env k p fuel (pre ++ SourceEvent.item item :: rest) engine =
      (.returned (some (Err.wrap "failed to apply block in engine" e)),
        { y with
          engine := (ops.ApplyBlock (resolveRuntime env p) item.Value y.engine).2
          trace := y.trace ++ [Event.applyBlock height (resolveRuntime env p) item.Value] }) := by
  obtain ⟨v, hv, hrun⟩ :=
    run_continue ops env k p fuel pre (SourceEvent.item item :: rest) engine y h
  rw [hrun]
  simp only [mainLoop, processItem, hkey, hv, happ]

/-- A failing handshake ends the run after the four startup calls. -/
theorem run_failed_handshake (ops : EngineOps σ) (env : Collaborators)
    (k : Constants) (p : Params) (fuel : Nat) (events : List SourceEvent) (engine : σ)
    (c a : Int) (e : Err)
    (h1 : (ops.GetContinuationHeight engine).1 = .ok c)
    (h2 : (ops.GetAppHeight (engineAfterContinuationHeight ops engine)).1 = .ok a)
    (h3 : (ops.StartProxyApp (engineAfterAppHeight ops engine)).1 = none)
    (h4 : (ops.DoHandshake (engineAfterStartProxyApp ops engine)).1 = some e) :
    StartBlockSyncExecutor ops env k p fuel events engine =
      (.returned (some (Err.wrap "failed to do handshake" e)),
        ⟨engineAfterHandshake ops engine, startupCalls, 0, 0⟩) := by
  simp only [engineAfterStartProxyApp, engineAfterAppHeight, engineAfterContinuationHeight]
    at h2 h3 h4
  simp only [StartBlockSyncExecutor, startup, h1, h2, h3, h4, engineAfterAppHeight,
    engineAfterContinuationHeight, engineAfterStartProxyApp, engineAfterHandshake,
    startupCalls, List.singleton_append, List.cons_append, List.nil_append]

theorem add64_small (a : Int) (h1 : -9223372036854775808 ≤ a + 1) (h2 : a + 1 < 9223372036854775808) :
    add64 a 1 = a + 1 := by
  unfold add64 wrapInt64
  omega

theorem sourceOrdered_append (env : Collaborators) (a b : List DataItem) (h : Int) :
    SourceOrdered env h (a ++ b) ↔
      SourceOrdered env h a ∧ SourceOrdered env (h + (a.length : Int)) b := by
  induction a generalizing h with
  | nil => simp [SourceOrdered]
  | cons it rest ih =>
    have hlen : h + 1 + (rest.length : Int) = h + ((rest.length + 1 : Nat) : Int) := by
      push_cast
      omega
    change (env.ParseBlockHeightFromKey it.Key = .ok h ∧ SourceOrdered env (h + 1) (rest ++ b)) ↔
      (env.ParseBlockHeightFromKey it.Key = .ok h ∧ SourceOrdered env (h + 1) rest) ∧
        SourceOrdered env (h + ((rest.length + 1 : Nat) : Int)) b
    rw [ih (h + 1), hlen]
    tauto

theorem backupPhase_ok (ops : EngineOps σ) (env : Collaborators) (p : Params)
    (prevHeight : Int) (x : Exec σ)
    (hchain : ∀ engine, ∃ chainId, (ops.GetChainId engine).1 = .ok chainId) :
    (backupPhase ops env p prevHeight x).1 = none := by
  unfold backupPhase
  split
  · rfl
  · split
    · simp only []
      obtain ⟨id, hid⟩ := hchain (x.emit (Event.sleep 15)).engine
      rw [hid]
      simp only []
      split <;> rfl
    · rfl

theorem heights_cons (h : Int) (n : Nat) :
    h :: (List.range n).map (fun i : Nat => h + 1 + (i : Int)) =
      (List.range (n + 1)).map (fun i : Nat => h + (i : Int)) := by
  rw [List.range_succ_eq_map]
  simp only [List.map_cons, List.map_map, Nat.cast_zero, add_zero, List.cons.injEq, true_and]
  apply List.map_congr_left
  intro i _
  simp only [Function.comp, Nat.succ_eq_add_one, Nat.cast_add, Nat.cast_one]
  omega

/-! ## Executor: claims -/

/-- C4: when the keys of the items delivered by the bundle source parse to the
continuation height `c`, `c + 1`, ... in order of delivery (its ordering guarantee), the
heights of the items passed to `ApplyBlock`, in call order, are `c`, `c + 1`, ...,
`c + n - 1` for some `n`: each once, without repeats or gaps; in every run, and so in
every run that returns `nil`. -/
theorem applyBlock_heights_consecutive (ops : EngineOps σ) (env : Collaborators)
    (k : Constants) (p : Params) (fuel : Nat) (events : List SourceEvent) (engine : σ) (c : Int)
    (hc : (ops.GetContinuationHeight engine).1 = .ok c)
    (hsrc : SourceOrdered env c (itemsOf events)) :
    ∃ n : Nat,
      applyHeights (StartBlockSyncExecutor ops env k p fuel events engine).2.trace =
        (List.range n).map (fun i : Nat => c + (i : Int)) := by
  unfold StartBlockSyncExecutor
  cases hs : startup ops env k p fuel engine with
  | inl r =>
    obtain ⟨o, z⟩ := r
    exact ⟨0, by simpa using (startup_inl ops env k p fuel engine o z hs).2.2.1⟩
  | inr r =>
    obtain ⟨v, x⟩ := r
    obtain ⟨hv, _, _, _, _, added, hadd, ha1, _⟩ := startup_inr ops env k p fuel engine v x hs
    rw [hc] at hv
    cases hv
    obtain ⟨n, hn⟩ := mainLoop_heights ops env k p v fuel events x v.continuationHeight hsrc
    refine ⟨n, ?_⟩
    simp only []
    rw [hn, hadd, applyHeights_append, ha1]
    simp [startupCalls, applyHeights]

/-- Witness for C4: from store height 2 to the target 5, the source delivers the items 3
to 6; the run returns `nil` and `ApplyBlock` got the heights 3, 4, 5, 6. -/
theorem applyBlock_heights_consecutive_witness :
    (StartBlockSyncExecutor (Demo.ops Demo.noFaults) Demo.env Demo.constants
      (Demo.snapshotParams 5) 1
      [.item (Demo.item "3"), .item (Demo.item "4"), .item (Demo.item "5"),
       .item (Demo.item "6")] (Demo.stubAt 2)).1 = .returned none ∧
    applyHeights (StartBlockSyncExecutor (Demo.ops Demo.noFaults) Demo.env Demo.constants
      (Demo.snapshotParams 5) 1
      [.item (Demo.item "3"), .item (Demo.item "4"), .item (Demo.item "5"),
       .item (Demo.item "6")] (Demo.stubAt 2)).2.trace = [3, 4, 5, 6] ∧
    ∃ n : Nat,
      applyHeights (StartBlockSyncExecutor (Demo.ops Demo.noFaults) Demo.env Demo.constants
        (Demo.snapshotParams 5) 1
        [.item (Demo.item "3"), .item (Demo.item "4"), .item (Demo.item "5"),
         .item (Demo.item "6")] (Demo.stubAt 2)).2.trace =
        (List.range n).map (fun i : Nat => (3 : Int) + (i : Int)) :=
  ⟨by decide, by decide,
    applyBlock_heights_consecutive (Demo.ops Demo.noFaults) Demo.env Demo.constants
      (Demo.snapshotParams 5) 1
      [.item (Demo.item "3"), .item (Demo.item "4"), .item (Demo.item "5"),
       .item (Demo.item "6")] (Demo.stubAt 2) 3 (by decide)
      ⟨by decide, by decide, by decide, by decide, trivial⟩⟩

/-- C5: once the executor waits for its next item, an error published by the source, an
item whose key does not parse, and an item on which `ApplyBlock` fails each make it return
an error wrapping the cause; nothing delivered later is looked at, `ApplyBlock` is not
called again, and on a key that does not parse it is not called at all. -/
theorem executor_fails_fast (ops : EngineOps σ) (env : Collaborators) (k : Constants)
    (p : Params) (fuel : Nat) (pre rest : List SourceEvent) (engine : σ) (y : Exec σ)
    (h : StartBlockSyncExecutor ops env k p fuel pre engine = (.awaitingItem, y)) :
    (∀ e, StartBlockSyncExecutor ops env k p fuel (pre ++ SourceEvent.error e :: rest) engine =
      (.returned (some (Err.wrap "error in block collector" e)), y)) ∧
    (∀ item e, env.ParseBlockHeightFromKey item.Key = .error e →
      StartBlockSyncExecutor ops env k p fuel (pre ++ SourceEvent.item item :: rest) engine =
        (.returned (some (Err.wrap ("failed parse block height from key " ++ item.Key) e)),
          y)) ∧
    (∀ item height e, env.ParseBlockHeightFromKey item.Key = .ok height →
      (ops.ApplyBlock (resolveRuntime env p) item.Value y.engine).1 = some e →
      StartBlockSyncExecutor ops env k p fuel (pre ++ SourceEvent.item item :: rest) engine =
        (.returned (some (Err.wrap "failed to apply block in engine" e)),
          { y with
            engine := (ops.ApplyBlock (resolveRuntime env p) item.Value y.engine).2
            trace := y.trace ++
              [Event.applyBlock height (resolveRuntime env p) item.Value] })) :=
  ⟨run_source_error ops env k p fuel pre rest engine y h,
   run_parse_error ops env k p fuel pre rest engine y h,
   run_apply_error ops env k p fuel pre rest engine y h⟩

/-- Witness for C5: after the item at height 5 the executor waits; a source error, the
key "x", and a block 6 that fails commit verification each end the run with an error,
and the item at height 7 delivered afterwards is never applied. -/
theorem executor_fails_fast_witness :
    StartBlockSyncExecutor (Demo.ops ⟨false, some "6"⟩) Demo.env Demo.constants (Demo.params 0)
        1 [.item (Demo.item "5")] (Demo.stubAt 4) =
      (.awaitingItem,
        ⟨⟨4, some "5", true⟩,
          startupCalls ++ [Event.startBlockCollector 5 0 true, Event.applyBlock 5 none "5"],
          0, 0⟩) ∧
    (StartBlockSyncExecutor (Demo.ops ⟨false, some "6"⟩) Demo.env Demo.constants (Demo.params 0)
        1 ([.item (Demo.item "5")] ++ .error (Err.msg "bundle not found") ::
          [.item (Demo.item "6")]) (Demo.stubAt 4)).1 =
      .returned (some (Err.wrap "error in block collector" (Err.msg "bundle not found"))) ∧
    applyHeights (StartBlockSyncExecutor (Demo.ops ⟨false, some "6"⟩) Demo.env Demo.constants
        (Demo.params 0) 1 ([.item (Demo.item "5")] ++ .item (Demo.item "x") ::
          [.item (Demo.item "6")]) (Demo.stubAt 4)).2.trace = [5] ∧
    applyHeights (StartBlockSyncExecutor (Demo.ops ⟨false, some "6"⟩) Demo.env Demo.constants
        (Demo.params 0) 1 ([.item (Demo.item "5")] ++ .item (Demo.item "6") ::
          [.item (Demo.item "7")]) (Demo.stubAt 4)).2.trace = [5, 6] := by
  have hpre : StartBlockSyncExecutor (Demo.ops ⟨false, some "6"⟩) Demo.env Demo.constants
      (Demo.params 0) 1 [.item (Demo.item "5")] (Demo.stubAt 4) =
      (.awaitingItem,
        ⟨⟨4, some "5", true⟩,
          startupCalls ++ [Event.startBlockCollector 5 0 true, Event.applyBlock 5 none "5"],
          0, 0⟩) := by decide
  have h := executor_fails_fast (Demo.ops ⟨false, some "6"⟩) Demo.env Demo.constants
    (Demo.params 0) 1 [.item (Demo.item "5")] [.item (Demo.item "6")] (Demo.stubAt 4) _ hpre
  have h7 := executor_fails_fast (Demo.ops ⟨false, some "6"⟩) Demo.env Demo.constants
    (Demo.params 0) 1 [.item (Demo.item "5")] [.item (Demo.item "7")] (Demo.stubAt 4) _ hpre
  refine ⟨hpre, ?_, ?_, ?_⟩
  · rw [h.1 (Err.msg "bundle not found")]
  · rw [h.2.1 (Demo.item "x") (Err.msg "invalid syntax") (by decide)]
    decide
  · rw [h7.2.2 (Demo.item "6") 6 (Err.msg "light commit verification failed") (by decide)
      (by decide)]
    decide

/-- C9: every run begins with `GetContinuationHeight`, `GetAppHeight`, `StartProxyApp`,
`DoHandshake`, in this order; when one of them fails the run returns the wrapped error and
nothing after the failing call is done; and when `ApplyBlock` is called at all, the four
calls have succeeded and stand in the trace before every `ApplyBlock`. -/
theorem startup_calls_precede_applyBlock (ops : EngineOps σ) (env : Collaborators)
    (k : Constants) (p : Params) (fuel : Nat) (events : List SourceEvent) (engine : σ) :
    (∀ e, (ops.GetContinuationHeight engine).1 = .error e →
      StartBlockSyncExecutor ops env k p fuel events engine =
        (.returned (some (Err.wrap "failed to get continuation height from engine" e)),
          ⟨engineAfterContinuationHeight ops engine, [Event.getContinuationHeight], 0, 0⟩)) ∧
    (∀ c e, (ops.GetContinuationHeight engine).1 = .ok c →
      (ops.GetAppHeight (engineAfterContinuationHeight ops engine)).1 = .error e →
      StartBlockSyncExecutor ops env k p fuel events engine =
        (.returned (some (Err.wrap "failed to get app height from engine" e)),
          ⟨engineAfterAppHeight ops engine,
            [Event.getContinuationHeight, Event.getAppHeight], 0, 0⟩)) ∧
    (∀ c a e, (ops.GetContinuationHeight engine).1 = .ok c →
      (ops.GetAppHeight (engineAfterContinuationHeight ops engine)).1 = .ok a →
      (ops.StartProxyApp (engineAfterAppHeight ops engine)).1 = some e →
      StartBlockSyncExecutor ops env k p fuel events engine =
        (.returned (some (Err.wrap "failed to start proxy app" e)),
          ⟨engineAfterStartProxyApp ops engine,
            [Event.getContinuationHeight, Event.getAppHeight, Event.startProxyApp], 0, 0⟩)) ∧
    (∀ c a e, (ops.GetContinuationHeight engine).1 = .ok c →
      (ops.GetAppHeight (engineAfterContinuationHeight ops engine)).1 = .ok a →
      (ops.StartProxyApp (engineAfterAppHeight ops engine)).1 = none →
      (ops.DoHandshake (engineAfterStartProxyApp ops engine)).1 = some e →
      StartBlockSyncExecutor ops env k p fuel events engine =
        (.returned (some (Err.wrap "failed to do handshake" e)),
          ⟨engineAfterHandshake ops engine, startupCalls, 0, 0⟩)) ∧
    (applyHeights (StartBlockSyncExecutor ops env k p fuel events engine).2.trace ≠ [] →
      (∃ c, (ops.GetContinuationHeight engine).1 = .ok c) ∧
      (∃ a, (ops.GetAppHeight (engineAfterContinuationHeight ops engine)).1 = .ok a) ∧
      (ops.StartProxyApp (engineAfterAppHeight ops engine)).1 = none ∧
      (ops.DoHandshake (engineAfterStartProxyApp ops engine)).1 = none ∧
      ∃ added, (StartBlockSyncExecutor ops env k p fuel events engine).2.trace =
        startupCalls ++ added) := by
  refine ⟨?_, ?_, ?_, ?_, ?_⟩
  · intro e h1
    simp only [StartBlockSyncExecutor, startup, h1, engineAfterContinuationHeight]
  · intro c e h1 h2
    simp only [engineAfterContinuationHeight] at h2
    simp only [StartBlockSyncExecutor, startup, h1, h2, engineAfterAppHeight,
      engineAfterContinuationHeight, List.singleton_append]
  · intro c a e h1 h2 h3
    simp only [engineAfterAppHeight, engineAfterContinuationHeight] at h2 h3
    simp only [StartBlockSyncExecutor, startup, h1, h2, h3, engineAfterAppHeight,
      engineAfterContinuationHeight, engineAfterStartProxyApp, List.singleton_append,
      List.cons_append, List.nil_append]
  · intro c a e h1 h2 h3 h4
    exact run_failed_handshake ops env k p fuel events engine c a e h1 h2 h3 h4
  · intro hne
    unfold StartBlockSyncExecutor at hne ⊢
    cases hs : startup ops env k p fuel engine with
    | inl r =>
      obtain ⟨o, z⟩ := r
      rw [hs] at hne
      exact absurd (startup_inl ops env k p fuel engine o z hs).2.2.1 hne
    | inr r =>
      obtain ⟨v, x⟩ := r
      obtain ⟨h1, h2, h3, h4, _, added, hadd, _, _⟩ := startup_inr ops env k p fuel engine v x hs
      refine ⟨⟨_, h1⟩, ⟨_, h2⟩, h3, h4, ?_⟩
      obtain ⟨more, hmore⟩ := mainLoop_extends ops env k p v fuel events x
      refine ⟨added ++ more, ?_⟩
      simp only []
      rw [hmore, hadd, List.append_assoc]

/-- Witness for C9: a failing handshake ends the run after the four startup calls, with no
`ApplyBlock`, although an item is ready; with a working handshake the item is applied after
them. -/
theorem startup_calls_precede_applyBlock_witness :
    StartBlockSyncExecutor (Demo.ops ⟨true, none⟩) Demo.env Demo.constants (Demo.params 0) 1
        [.item (Demo.item "5")] (Demo.stubAt 4) =
      (.returned (some (Err.wrap "failed to do handshake" (Err.msg "state divergence"))),
        ⟨⟨4, none, true⟩, startupCalls, 0, 0⟩) ∧
    applyHeights (StartBlockSyncExecutor (Demo.ops Demo.noFaults) Demo.env Demo.constants
        (Demo.params 0) 1 [.item (Demo.item "5")] (Demo.stubAt 4)).2.trace ≠ [] ∧
    ∃ added, (StartBlockSyncExecutor (Demo.ops Demo.noFaults) Demo.env Demo.constants
        (Demo.params 0) 1 [.item (Demo.item "5")] (Demo.stubAt 4)).2.trace =
      startupCalls ++ added :=
  ⟨(startup_calls_precede_applyBlock (Demo.ops ⟨true, none⟩) Demo.env Demo.constants
      (Demo.params 0) 1 [.item (Demo.item "5")] (Demo.stubAt 4)).2.2.2.1 5 4
      (Err.msg "state divergence") (by decide) (by decide) (by decide) (by decide),
   by decide,
   ((startup_calls_precede_applyBlock (Demo.ops Demo.noFaults) Demo.env Demo.constants
      (Demo.params 0) 1 [.item (Demo.item "5")] (Demo.stubAt 4)).2.2.2.2 (by decide)).2.2.2.2⟩

/-- C10, as the claim states it, fails: the proxy app is started, the handshake fails, and
the executor returns the error without having called `StopProxyApp`. -/
theorem stopProxyApp_missing_after_failed_handshake :
    (Demo.ops ⟨true, none⟩).StartProxyApp
        (engineAfterAppHeight (Demo.ops ⟨true, none⟩) (Demo.stubAt 4)) =
      (none, ⟨4, none, true⟩) ∧
    StartBlockSyncExecutor (Demo.ops ⟨true, none⟩) Demo.env Demo.constants (Demo.params 5) 1
        [.item (Demo.item "5")] (Demo.stubAt 4) =
      (.returned (some (Err.wrap "failed to do handshake" (Err.msg "state divergence"))),
        ⟨⟨4, none, true⟩,
          [Event.getContinuationHeight, Event.getAppHeight, Event.startProxyApp,
           Event.doHandshake], 0, 0⟩) ∧
    stopCalls (StartBlockSyncExecutor (Demo.ops ⟨true, none⟩) Demo.env Demo.constants
        (Demo.params 5) 1 [.item (Demo.item "5")] (Demo.stubAt 4)).2.trace = 0 := by
  decide

/-- C10, amended: `StopProxyApp` is called at most once in a run, as the last call of the
target-height exit: a run that returns `nil` has called it exactly once, successfully and
last; a run that returns an error has not called it, unless the error is the failure of
that very call. In particular a failing handshake, an error of the source and a failing
`ApplyBlock` end the run without any `StopProxyApp` call. -/
theorem stopProxyApp_only_on_target_exit (ops : EngineOps σ) (env : Collaborators)
    (k : Constants) (p : Params) (fuel : Nat) (events : List SourceEvent) (engine : σ) :
    stopCalls (StartBlockSyncExecutor ops env k p fuel events engine).2.trace ≤ 1 ∧
    ((StartBlockSyncExecutor ops env k p fuel events engine).1 = .returned none →
      ∃ y, (StartBlockSyncExecutor ops env k p fuel events engine).2 = afterStop ops y ∧
        stopCalls y.trace = 0 ∧ (ops.StopProxyApp y.engine).1 = none) ∧
    (∀ e, (StartBlockSyncExecutor ops env k p fuel events engine).1 = .returned (some e) →
      stopCalls (StartBlockSyncExecutor ops env k p fuel events engine).2.trace = 0 ∨
      ∃ y cause, (StartBlockSyncExecutor ops env k p fuel events engine).2 = afterStop ops y ∧
        stopCalls y.trace = 0 ∧ (ops.StopProxyApp y.engine).1 = some cause ∧
        e = Err.wrap "failed to stop proxy app" cause) ∧
    (∀ c a e, (ops.GetContinuationHeight engine).1 = .ok c →
      (ops.GetAppHeight (engineAfterContinuationHeight ops engine)).1 = .ok a →
      (ops.StartProxyApp (engineAfterAppHeight ops engine)).1 = none →
      (ops.DoHandshake (engineAfterStartProxyApp ops engine)).1 = some e →
      (StartBlockSyncExecutor ops env k p fuel events engine).1 =
        .returned (some (Err.wrap "failed to do handshake" e)) ∧
      stopCalls (StartBlockSyncExecutor ops env k p fuel events engine).2.trace = 0) ∧
    (∀ pre rest y, StartBlockSyncExecutor ops env k p fuel pre engine = (.awaitingItem, y) →
      (∀ e, stopCalls (StartBlockSyncExecutor ops env k p fuel
        (pre ++ SourceEvent.error e :: rest) engine).2.trace = 0) ∧
      (∀ item height e, env.ParseBlockHeightFromKey item.Key = .ok height →
        (ops.ApplyBlock (resolveRuntime env p) item.Value y.engine).1 = some e →
        stopCalls (StartBlockSyncExecutor ops env k p fuel
          (pre ++ SourceEvent.item item :: rest) engine).2.trace = 0)) := by
  have hshape : ∀ evs : List SourceEvent,
      (stopCalls (StartBlockSyncExecutor ops env k p fuel evs engine).2.trace = 0 ∧
        (StartBlockSyncExecutor ops env k p fuel evs engine).1 ≠ .returned none) ∨
      (∃ y, stopCalls y.trace = 0 ∧
        StartBlockSyncExecutor ops env k p fuel evs engine =
          (.returned (stopResult ops y), afterStop ops y)) := by
    intro evs
    unfold StartBlockSyncExecutor
    cases hs : startup ops env k p fuel engine with
    | inl r =>
      obtain ⟨o, z⟩ := r
      obtain ⟨h1, _, _, h4⟩ := startup_inl ops env k p fuel engine o z hs
      exact Or.inl ⟨h4, h1⟩
    | inr r =>
      obtain ⟨v, x⟩ := r
      obtain ⟨_, _, _, _, _, added, hadd, _, hstop⟩ := startup_inr ops env k p fuel engine v x hs
      have hx : stopCalls x.trace = 0 := by
        rw [hadd, stopCalls_append, hstop]
        rfl
      simp only []
      rcases mainLoop_stop ops env k p v fuel evs x with ⟨h1, h2⟩ | ⟨y, h1, h2⟩
      · exact Or.inl ⟨by rw [(noStop_stopCalls_eq h1), hx], h2⟩
      · exact Or.inr ⟨y, by rw [(noStop_stopCalls_eq h1), hx], h2⟩
  refine ⟨?_, ?_, ?_, ?_, ?_⟩
  · rcases hshape events with ⟨h1, _⟩ | ⟨y, h1, h2⟩
    · rw [h1]
      exact Nat.zero_le 1
    · rw [h2]
      simp only []
      rw [stopCalls_afterStop, h1]
  · intro hnil
    rcases hshape events with ⟨_, h2⟩ | ⟨y, h1, h2⟩
    · exact absurd hnil h2
    · refine ⟨y, by rw [h2], h1, ?_⟩
      rw [h2] at hnil
      simp only [Outcome.returned.injEq, stopResult] at hnil
      cases hr : (ops.StopProxyApp y.engine).1 with
      | none => rfl
      | some cause => simp [hr] at hnil
  · intro e he
    rcases hshape events with ⟨h1, _⟩ | ⟨y, h1, h2⟩
    · exact Or.inl h1
    · right
      rw [h2] at he
      simp only [Outcome.returned.injEq, stopResult] at he
      cases hr : (ops.StopProxyApp y.engine).1 with
      | none => simp [hr] at he
      | some cause =>
        have he2 : Err.wrap "failed to stop proxy app" cause = e := by simpa [hr] using he
        exact ⟨y, cause, by rw [h2], h1, hr, he2.symm⟩
  · intro c a e h1 h2 h3 h4
    have h := (run_failed_handshake ops env k p fuel events engine c a e
      h1 h2 h3 h4)
    rw [h]
    exact ⟨rfl, rfl⟩
  · intro pre rest y hpre
    constructor
    · intro e
      rw [run_source_error ops env k p fuel pre rest engine y hpre e]
      rcases hshape pre with ⟨h1, _⟩ | ⟨z, _, h2⟩
      · rw [hpre] at h1
        exact h1
      · rw [hpre] at h2
        simp at h2
    · intro item height e hkey happ
      rw [run_apply_error ops env k p fuel pre rest engine y hpre item height e hkey happ]
      simp only []
      rw [stopCalls_append]
      rcases hshape pre with ⟨h1, _⟩ | ⟨z, _, h2⟩
      · rw [hpre] at h1
        simp only [] at h1
        rw [h1]
        rfl
      · rw [hpre] at h2
        simp at h2

/-! ## Runs to the target height -/

/-- C7, as the claim states it, fails: with target 5 and the engine at height 5
(continuation height 6), the executor has not returned after the single item at height 6
but waits for the next item; it returns `nil` after the item at height 7, and the engine
is then at height 6. -/
theorem at_target_single_item_does_not_return :
    (Demo.ops Demo.noFaults).GetContinuationHeight (Demo.stubAt 5) = (.ok 6, Demo.stubAt 5) ∧
    StartBlockSyncExecutor (Demo.ops Demo.noFaults) Demo.env Demo.constants (Demo.params 5) 1
        [.item (Demo.item "6")] (Demo.stubAt 5) =
      (.awaitingItem,
        ⟨⟨5, some "6", true⟩,
          startupCalls ++ [Event.startBlockCollector 6 5 true, Event.applyBlock 6 none "6"],
          0, 0⟩) ∧
    StartBlockSyncExecutor (Demo.ops Demo.noFaults) Demo.env Demo.constants (Demo.params 5) 1
        [.item (Demo.item "6"), .item (Demo.item "7")] (Demo.stubAt 5) =
      (.returned none,
        ⟨⟨6, some "7", false⟩,
          startupCalls ++ [Event.startBlockCollector 6 5 true, Event.applyBlock 6 none "6",
            Event.applyBlock 7 none "7", Event.stopProxyApp], 0, 0⟩) := by
  decide

/-- Witness for the amended C10: a run to the target calls `StopProxyApp` once, last; a run
that ends on an error of the source has not called it. -/
theorem stopProxyApp_only_on_target_exit_witness :
    (StartBlockSyncExecutor (Demo.ops Demo.noFaults) Demo.env Demo.constants (Demo.params 5) 1
      [.item (Demo.item "5"), .item (Demo.item "6")] (Demo.stubAt 4)).1 = .returned none ∧
    (∃ y, (StartBlockSyncExecutor (Demo.ops Demo.noFaults) Demo.env Demo.constants
        (Demo.params 5) 1 [.item (Demo.item "5"), .item (Demo.item "6")] (Demo.stubAt 4)).2 =
        afterStop (Demo.ops Demo.noFaults) y ∧
      stopCalls y.trace = 0 ∧ ((Demo.ops Demo.noFaults).StopProxyApp y.engine).1 = none) ∧
    StartBlockSyncExecutor (Demo.ops Demo.noFaults) Demo.env Demo.constants (Demo.params 5) 1
        [.item (Demo.item "5")] (Demo.stubAt 4) =
      (.awaitingItem,
        ⟨⟨4, some "5", true⟩,
          startupCalls ++ [Event.startBlockCollector 5 5 true, Event.applyBlock 5 none "5"],
          0, 0⟩) ∧
    stopCalls (StartBlockSyncExecutor (Demo.ops Demo.noFaults) Demo.env Demo.constants
      (Demo.params 5) 1 ([.item (Demo.item "5")] ++ .error (Err.msg "bundle not found") :: [])
      (Demo.stubAt 4)).2.trace = 0 :=
  ⟨by decide,
   (stopProxyApp_only_on_target_exit (Demo.ops Demo.noFaults) Demo.env Demo.constants
      (Demo.params 5) 1 [.item (Demo.item "5"), .item (Demo.item "6")] (Demo.stubAt 4)).2.1
      (by decide),
   by decide,
   ((stopProxyApp_only_on_target_exit (Demo.ops Demo.noFaults) Demo.env Demo.constants
      (Demo.params 5) 1 [] (Demo.stubAt 4)).2.2.2.2 [.item (Demo.item "5")] []
      ⟨⟨4, some "5", true⟩,
        startupCalls ++ [Event.startBlockCollector 5 5 true, Event.applyBlock 5 none "5"],
        0, 0⟩
      (by decide)).1 (Err.msg "bundle not found")⟩
/-! ## Executor: which calls each step adds -/

theorem newCalls_eq {x y : Exec σ} (added : List Event) (h : y.trace = x.trace ++ added) :
    newCalls x y = added := by
  unfold newCalls
  rw [h]
  exact List.drop_left _ _

theorem snapshotChecks_append (a b : List Event) :
    snapshotChecks (a ++ b) = snapshotChecks a ++ snapshotChecks b := by
  simp [snapshotChecks, List.filterMap_append]

theorem poolFetches_append (a b : List Event) :
    poolFetches (a ++ b) = poolFetches a + poolFetches b := by
  simp [poolFetches, List.count_append]

theorem pruneTargets_append (a b : List Event) :
    pruneTargets (a ++ b) = pruneTargets a ++ pruneTargets b := by
  simp [pruneTargets, List.filterMap_append]

theorem backupCalls_append (a b : List Event) :
    backupCalls (a ++ b) = backupCalls a ++ backupCalls b := by
  simp [backupCalls, List.filterMap_append]

theorem adds_refl (allowed : Event → Bool) (x : Exec σ) : Adds allowed x x :=
  ⟨[], by simp, by simp⟩

theorem adds_trans {allowed : Event → Bool} {x y z : Exec σ} (h1 : Adds allowed x y)
    (h2 : Adds allowed y z) : Adds allowed x z := by
  obtain ⟨a, ha, ha1⟩ := h1
  obtain ⟨b, hb, hb1⟩ := h2
  refine ⟨a ++ b, by rw [hb, ha, List.append_assoc], ?_⟩
  intro ev hev
  rcases List.mem_append.1 hev with h | h
  · exact ha1 ev h
  · exact hb1 ev h

theorem adds_mono {a b : Event → Bool} {x y : Exec σ} (hab : ∀ ev, a ev = true → b ev = true)
    (h : Adds a x y) : Adds b x y := by
  obtain ⟨added, hadd, hall⟩ := h
  exact ⟨added, hadd, fun ev hev => hab ev (hall ev hev)⟩

theorem adds_step (allowed : Event → Bool) (x y : Exec σ) (ev : Event)
    (h : y.trace = x.trace ++ [ev]) (ha : allowed ev = true) : Adds allowed x y :=
  ⟨[ev], h, by simpa using ha⟩

theorem adds_refresh (env : Collaborators) (x : Exec σ) :
    Adds Event.inBackpressure x (refreshSnapshotPoolHeight env x) :=
  adds_step _ x _ Event.getSnapshotPoolHeight rfl rfl

theorem adds_waitForSnapshotPool (env : Collaborators) (k : Constants) (p : Params)
    (height : Int) (fuel : Nat) (x : Exec σ) :
    Adds Event.inBackpressure x (waitForSnapshotPool env k p height fuel x).exec := by
  induction fuel generalizing x with
  | zero =>
    unfold waitForSnapshotPool
    split <;> exact adds_refl _ x
  | succ n ih =>
    unfold waitForSnapshotPool
    split
    · refine adds_trans ?_ (ih _)
      exact adds_trans (adds_step _ x (x.emit (Event.sleep 10)) (Event.sleep 10) rfl rfl)
        (adds_refresh env _)
    · exact adds_refl _ x

theorem adds_waitForSnapshot (ops : EngineOps σ) (prevHeight : Int) (fuel : Nat) (x : Exec σ) :
    Adds Event.inSnapshotWait x (waitForSnapshot ops prevHeight fuel x).exec := by
  induction fuel generalizing x with
  | zero => exact adds_refl _ x
  | succ n ih =>
    unfold waitForSnapshot
    simp only []
    have h1 : Adds Event.inSnapshotWait x
        ({ x with
            engine := (ops.IsSnapshotAvailable prevHeight x.engine).2
            trace := x.trace ++ [Event.isSnapshotAvailable prevHeight] } : Exec σ) :=
      adds_step _ x _ (Event.isSnapshotAvailable prevHeight) rfl rfl
    split
    · refine adds_trans (adds_trans h1 ?_) (ih _)
      exact adds_trans (adds_step _ _ _ (Event.logError _) rfl rfl)
        (adds_step _ _ _ (Event.sleep 10) rfl rfl)
    · refine adds_trans (adds_trans h1 ?_) (ih _)
      exact adds_step _ _ _ (Event.sleep 10) rfl rfl
    · exact h1

theorem adds_snapshotPhase (ops : EngineOps σ) (env : Collaborators) (p : Params)
    (v : LoopVars) (fuel : Nat) (prevHeight : Int) (x : Exec σ) :
    Adds Event.inSnapshotStep x (snapshotPhase ops env p v fuel prevHeight x).exec := by
  unfold snapshotPhase
  split
  · have h : Adds Event.inSnapshotStep x (waitForSnapshot ops prevHeight fuel x).exec :=
      adds_mono (by intro ev; cases ev <;> simp [Event.inSnapshotWait, Event.inSnapshotStep])
        (adds_waitForSnapshot ops prevHeight fuel x)
    cases hw : waitForSnapshot ops prevHeight fuel x with
    | finished x1 =>
      rw [hw] at h
      exact adds_trans h (adds_step _ x1 _ Event.getSnapshotPoolHeight rfl rfl)
    | pending x1 =>
      rw [hw] at h
      exact h
  · exact adds_refl _ x

theorem adds_prunePhase (ops : EngineOps σ) (k : Constants) (p : Params) (prevHeight : Int)
    (x : Exec σ) : Adds Event.inPrune x (prunePhase ops k p prevHeight x) := by
  unfold prunePhase
  split
  · simp only []
    split
    · exact adds_trans (adds_step _ x _ (Event.pruneBlocks _) rfl rfl)
        (adds_step _ _ _ (Event.logError _) rfl rfl)
    · exact adds_step _ x _ (Event.pruneBlocks _) rfl rfl
  · exact adds_refl _ x

theorem adds_backupPhase (ops : EngineOps σ) (env : Collaborators) (p : Params)
    (prevHeight : Int) (x : Exec σ) :
    Adds Event.inBackup x (backupPhase ops env p prevHeight x).2 := by
  unfold backupPhase
  split
  · exact adds_refl _ x
  · split
    · simp only []
      have h2 : Adds Event.inBackup x
          ({ x.emit (Event.sleep 15) with
              engine := (ops.GetChainId (x.emit (Event.sleep 15)).engine).2
              trace := (x.emit (Event.sleep 15)).trace ++ [Event.getChainId] } : Exec σ) :=
        adds_trans (adds_step _ x (x.emit (Event.sleep 15)) (Event.sleep 15) rfl rfl)
          (adds_step _ _ _ Event.getChainId rfl rfl)
      split
      · exact h2
      · split
        · exact adds_trans h2
            (adds_trans (adds_step _ _ _ (Event.createBackup _ _ _) rfl rfl)
              (adds_step _ _ _ (Event.logError _) rfl rfl))
        · exact adds_trans h2 (adds_step _ _ _ (Event.createBackup _ _ _) rfl rfl)
    · exact adds_refl _ x

theorem adds_backpressurePhase (env : Collaborators) (k : Constants) (p : Params)
    (fuel : Nat) (height : Int) (x : Exec σ) :
    Adds Event.inBackpressure x (backpressurePhase env k p fuel height x).exec := by
  unfold backpressurePhase
  split
  · exact adds_waitForSnapshotPool env k p height fuel x
  · exact adds_refl _ x

theorem adds_targetPhase (ops : EngineOps σ) (p : Params) (height : Int) (x : Exec σ) :
    Adds Event.inTail x (targetPhase ops p height x).exec := by
  unfold targetPhase
  split
  · simp only []
    split <;> exact adds_step _ x _ Event.stopProxyApp rfl rfl
  · exact adds_refl _ x

theorem adds_afterBackup (ops : EngineOps σ) (env : Collaborators) (k : Constants)
    (p : Params) (fuel : Nat) (height : Int) (x : Exec σ) :
    Adds Event.inTail x (afterBackup ops env k p fuel height x).exec := by
  unfold afterBackup
  have h : Adds Event.inTail x (backpressurePhase env k p fuel height x).exec :=
    adds_mono (by intro ev; cases ev <;> simp [Event.inBackpressure, Event.inTail])
      (adds_backpressurePhase env k p fuel height x)
  cases hb : backpressurePhase env k p fuel height x with
  | pending y =>
    rw [hb] at h
    exact h
  | finished y =>
    rw [hb] at h
    exact adds_trans h (adds_targetPhase ops p height y)

/-- One iteration of the main loop on an item whose key parses and whose `ApplyBlock`
succeeds: the snapshot step, then for an item past the first the pruning step and what
follows it. -/
theorem processItem_apply_ok (ops : EngineOps σ) (env : Collaborators) (k : Constants)
    (p : Params) (v : LoopVars) (fuel : Nat) (item : DataItem) (x : Exec σ) (h : Int)
    (hkey : env.ParseBlockHeightFromKey item.Key = .ok h)
    (happ : (ops.ApplyBlock v.runtime item.Value x.engine).1 = none) :
    processItem ops env k p v fuel item x =
      match snapshotPhase ops env p v fuel (sub64 h 1) (afterApply ops v h item x) with
      | .pending y => .waiting y
      | .finished y =>
        if h = v.continuationHeight then .next y
        else afterPrune ops env k p fuel h (prunePhase ops k p (sub64 h 1) y) := by
  unfold processItem afterPrune afterBackup afterApply
  rw [hkey]
  simp only [happ]

/-- The calls after the snapshot step of an item: pruning, backup, backpressure, stop. -/
theorem adds_afterPrune (ops : EngineOps σ) (env : Collaborators) (k : Constants)
    (p : Params) (fuel : Nat) (height : Int) (x : Exec σ) :
    Adds (fun ev => ev.inBackup || ev.inTail) x (afterPrune ops env k p fuel height x).exec := by
  unfold afterPrune
  have h : Adds (fun ev => ev.inBackup || ev.inTail) x
      (backupPhase ops env p (sub64 height 1) x).2 :=
    adds_mono (by intro ev hev; simp [hev]) (adds_backupPhase ops env p (sub64 height 1) x)
  cases hb : backupPhase ops env p (sub64 height 1) x with
  | mk e y =>
    rw [hb] at h
    cases e with
    | some err => exact h
    | none =>
      exact adds_trans h (adds_mono (by intro ev hev; simp [hev])
        (adds_afterBackup ops env k p fuel height y))

theorem snapshotPhase_skip (ops : EngineOps σ) (env : Collaborators) (p : Params)
    (v : LoopVars) (fuel : Nat) (a : Int) (x : Exec σ) (h : ¬ snapshotDue p v a) :
    snapshotPhase ops env p v fuel a x = .finished x := by
  unfold snapshotPhase
  unfold snapshotDue at h
  rw [if_neg h]

theorem snapshotPhase_enter (ops : EngineOps σ) (env : Collaborators) (p : Params)
    (v : LoopVars) (fuel : Nat) (a : Int) (x : Exec σ) (h : snapshotDue p v a) :
    snapshotPhase ops env p v fuel a x =
      match waitForSnapshot ops a fuel x with
      | .finished y => .finished (refreshSnapshotPoolHeight env y)
      | .pending y => .pending y := by
  unfold snapshotPhase
  unfold snapshotDue at h
  rw [if_pos h]

/-- A wait for a snapshot with at least one round begins with a check. -/
theorem waitForSnapshot_first (ops : EngineOps σ) (a : Int) (fuel : Nat) (x : Exec σ) :
    ∃ more, (waitForSnapshot ops a (fuel + 1) x).exec.trace =
      x.trace ++ Event.isSnapshotAvailable a :: more := by
  unfold waitForSnapshot
  simp only []
  split
  · obtain ⟨more, hmore, _⟩ := adds_waitForSnapshot ops a fuel
      (((({ x with
            engine := (ops.IsSnapshotAvailable a x.engine).2
            trace := x.trace ++ [Event.isSnapshotAvailable a] } : Exec σ).emit
          (Event.logError "check snapshot availability failed")).emit (Event.sleep 10)))
    exact ⟨_, by rw [hmore]; simp [Exec.emit]; rfl⟩
  · obtain ⟨more, hmore, _⟩ := adds_waitForSnapshot ops a fuel
      ((({ x with
            engine := (ops.IsSnapshotAvailable a x.engine).2
            trace := x.trace ++ [Event.isSnapshotAvailable a] } : Exec σ).emit
          (Event.sleep 10)))
    exact ⟨_, by rw [hmore]; simp [Exec.emit]; rfl⟩
  · exact ⟨[], rfl⟩

theorem snapshotChecks_eq_nil (allowed : Event → Bool) (added : List Event)
    (hall : ∀ ev ∈ added, allowed ev = true)
    (hex : ∀ ev a, allowed ev = true → ev ≠ Event.isSnapshotAvailable a) :
    snapshotChecks added = [] := by
  unfold snapshotChecks
  rw [List.filterMap_eq_nil_iff]
  intro ev hev
  cases ev with
  | isSnapshotAvailable a => exact absurd rfl (hex _ a (hall _ hev))
  | _ => rfl

/-- After the snapshot step of an item come only the calls of pruning, backup, backpressure
and the stop at the target height. -/
theorem processItem_after_snapshot (ops : EngineOps σ) (env : Collaborators) (k : Constants)
    (p : Params) (v : LoopVars) (fuel : Nat) (item : DataItem) (x : Exec σ) (h : Int)
    (hkey : env.ParseBlockHeightFromKey item.Key = .ok h)
    (happ : (ops.ApplyBlock v.runtime item.Value x.engine).1 = none) :
    Adds (fun ev => ev.inPrune || (ev.inBackup || ev.inTail))
      (snapshotPhase ops env p v fuel (sub64 h 1) (afterApply ops v h item x)).exec
      (processItem ops env k p v fuel item x).exec := by
  rw [processItem_apply_ok ops env k p v fuel item x h hkey happ]
  cases snapshotPhase ops env p v fuel (sub64 h 1) (afterApply ops v h item x) with
  | pending y => exact adds_refl _ y
  | finished y =>
    simp only []
    by_cases hc : h = v.continuationHeight
    · rw [if_pos hc]
      exact adds_refl _ y
    · rw [if_neg hc]
      exact adds_trans
        (adds_mono (by intro ev hev; simp [hev]) (adds_prunePhase ops k p (sub64 h 1) y))
        (adds_mono (by intro ev hev; simp only [Bool.or_eq_true] at hev ⊢; exact Or.inr hev)
          (adds_afterPrune ops env k p fuel h (prunePhase ops k p (sub64 h 1) y)))

/-- C11, amended: for every item whose key parses to `h` and whose `ApplyBlock` succeeds,
the first item of the run included, the executor enters the snapshot wait (it calls
`IsSnapshotAvailable` for the applied height `h - 1`) if and only if
`snapshot_interval > 0`, `(h - 1) % snapshot_interval = 0` and the engine's initial
`app_height < h - 1`; the applied height is not compared with the continuation height.
When the condition fails, `IsSnapshotAvailable` is not called for any height. -/
theorem snapshot_wait_entered_iff_due (ops : EngineOps σ) (env : Collaborators)
    (k : Constants) (p : Params) (v : LoopVars) (fuel : Nat) (item : DataItem) (x : Exec σ)
    (h : Int) (hkey : env.ParseBlockHeightFromKey item.Key = .ok h)
    (happ : (ops.ApplyBlock v.runtime item.Value x.engine).1 = none) :
    (Event.isSnapshotAvailable (sub64 h 1) ∈
        newCalls x (processItem ops env k p v (fuel + 1) item x).exec ↔
      snapshotDue p v (sub64 h 1)) ∧
    (¬ snapshotDue p v (sub64 h 1) →
      snapshotChecks (newCalls x (processItem ops env k p v (fuel + 1) item x).exec) = []) := by
  obtain ⟨rest, hrest, hall⟩ :=
    processItem_after_snapshot ops env k p v (fuel + 1) item x h hkey happ
  have hno : ¬ snapshotDue p v (sub64 h 1) →
      snapshotChecks (newCalls x (processItem ops env k p v (fuel + 1) item x).exec) = [] := by
    intro hdue
    rw [snapshotPhase_skip ops env p v (fuel + 1) (sub64 h 1) _ hdue] at hrest
    have htr : (processItem ops env k p v (fuel + 1) item x).exec.trace =
        x.trace ++ (Event.applyBlock h v.runtime item.Value :: rest) := by
      rw [hrest]
      simp [Wait.exec, afterApply]
    rw [newCalls_eq _ htr]
    change snapshotChecks ([Event.applyBlock h v.runtime item.Value] ++ rest) = []
    rw [snapshotChecks_append, snapshotChecks_eq_nil _ rest hall]
    · rfl
    · intro ev a hev
      cases ev <;> simp_all [Event.inPrune, Event.inBackup, Event.inTail]
  refine ⟨⟨?_, ?_⟩, hno⟩
  · intro hmem
    by_contra hdue
    have hnil := hno hdue
    have : sub64 h 1 ∈
        snapshotChecks (newCalls x (processItem ops env k p v (fuel + 1) item x).exec) := by
      unfold snapshotChecks
      rw [List.mem_filterMap]
      exact ⟨_, hmem, rfl⟩
    rw [hnil] at this
    simp at this
  · intro hdue
    obtain ⟨more, hmore⟩ := waitForSnapshot_first ops (sub64 h 1) fuel (afterApply ops v h item x)
    have hsnap : ∃ more2, (snapshotPhase ops env p v (fuel + 1) (sub64 h 1)
        (afterApply ops v h item x)).exec.trace =
        (afterApply ops v h item x).trace ++ Event.isSnapshotAvailable (sub64 h 1) :: more2 := by
      rw [snapshotPhase_enter ops env p v (fuel + 1) (sub64 h 1) _ hdue]
      cases hw : waitForSnapshot ops (sub64 h 1) (fuel + 1) (afterApply ops v h item x) with
      | pending y =>
        rw [hw] at hmore
        exact ⟨more, hmore⟩
      | finished y =>
        rw [hw] at hmore
        refine ⟨more ++ [Event.getSnapshotPoolHeight], ?_⟩
        simp only [Wait.exec, refreshSnapshotPoolHeight] at hmore ⊢
        rw [hmore]
        simp
    obtain ⟨more2, hmore2⟩ := hsnap
    have htr : (processItem ops env k p v (fuel + 1) item x).exec.trace =
        x.trace ++ (Event.applyBlock h v.runtime item.Value ::
          Event.isSnapshotAvailable (sub64 h 1) :: (more2 ++ rest)) := by
      rw [hrest, hmore2]
      simp [afterApply]
    rw [newCalls_eq _ htr]
    simp

/-- The state after one `IsSnapshotAvailable` call of the wait for height `a`. -/
theorem waitForSnapshot_finished (ops : EngineOps σ) (a : Int) (fuel : Nat) (x y : Exec σ)
    (h : waitForSnapshot ops a fuel x = .finished y) :
    ∃ z, Adds Event.inSnapshotWait x z ∧ (ops.IsSnapshotAvailable a z.engine).1 = .ok true ∧
      y = { z with
            engine := (ops.IsSnapshotAvailable a z.engine).2
            trace := z.trace ++ [Event.isSnapshotAvailable a] } := by
  induction fuel generalizing x with
  | zero => simp [waitForSnapshot] at h
  | succ n ih =>
    unfold waitForSnapshot at h
    simp only [] at h
    have h1 : Adds Event.inSnapshotWait x
        ({ x with
            engine := (ops.IsSnapshotAvailable a x.engine).2
            trace := x.trace ++ [Event.isSnapshotAvailable a] } : Exec σ) :=
      adds_step _ x _ (Event.isSnapshotAvailable a) rfl rfl
    split at h
    · obtain ⟨z, hz, hrest⟩ := ih _ h
      refine ⟨z, adds_trans (adds_trans h1 ?_) hz, hrest⟩
      exact adds_trans (adds_step _ _ _ (Event.logError _) rfl rfl)
        (adds_step _ _ _ (Event.sleep 10) rfl rfl)
    · obtain ⟨z, hz, hrest⟩ := ih _ h
      refine ⟨z, adds_trans (adds_trans h1 ?_) hz, hrest⟩
      exact adds_step _ _ _ (Event.sleep 10) rfl rfl
    · rename_i hok
      simp only [Wait.finished.injEq] at h
      exact ⟨x, adds_refl _ x, hok, h.symm⟩

theorem waitForSnapshot_never (ops : EngineOps σ) (a : Int) (fuel : Nat) (x : Exec σ)
    (hnever : ∀ s, (ops.IsSnapshotAvailable a s).1 ≠ .ok true) :
    ∃ y, waitForSnapshot ops a fuel x = .pending y := by
  induction fuel generalizing x with
  | zero => exact ⟨x, rfl⟩
  | succ n ih =>
    unfold waitForSnapshot
    simp only []
    split
    · exact ih _
    · exact ih _
    · rename_i hok
      exact absurd hok (hnever x.engine)

theorem poolFetches_eq_of_adds (allowed : Event → Bool) {x y : Exec σ} (h : Adds allowed x y)
    (hex : allowed Event.getSnapshotPoolHeight = false) :
    poolFetches y.trace = poolFetches x.trace := by
  obtain ⟨added, hadd, hall⟩ := h
  rw [hadd, poolFetches_append]
  have : poolFetches added = 0 := by
    unfold poolFetches
    rw [List.count_eq_zero]
    intro hmem
    have := hall _ hmem
    rw [hex] at this
    exact Bool.noConfusion this
  rw [this, Nat.add_zero]

/-- C12: once the wait for the snapshot of height `a` is entered, a check that returns
`true` ends it, a check that returns `false` or an error is followed by a sleep and another
check; a wait that has ended has ended on a check that returned `true`, and when no check
returns `true` the wait goes on for any number of rounds; while it goes on no `ApplyBlock`
is called, the snapshot pool height is not fetched, and the executor does not return; when
it has ended, the snapshot pool height is fetched exactly once. -/
theorem snapshot_wait_ends_only_on_success (ops : EngineOps σ) (env : Collaborators)
    (k : Constants) (p : Params) (v : LoopVars) (fuel : Nat) (a : Int) (x : Exec σ) :
    (∀ e, ops.IsSnapshotAvailable a x.engine = (.ok true, e) →
      waitForSnapshot ops a (fuel + 1) x =
        .finished { x with engine := e, trace := x.trace ++ [Event.isSnapshotAvailable a] }) ∧
    (∀ e, ops.IsSnapshotAvailable a x.engine = (.ok false, e) →
      waitForSnapshot ops a (fuel + 1) x =
        waitForSnapshot ops a fuel
          (({ x with engine := e, trace := x.trace ++ [Event.isSnapshotAvailable a] } :
            Exec σ).emit (Event.sleep 10))) ∧
    (∀ err e, ops.IsSnapshotAvailable a x.engine = (.error err, e) →
      waitForSnapshot ops a (fuel + 1) x =
        waitForSnapshot ops a fuel
          ((({ x with engine := e, trace := x.trace ++ [Event.isSnapshotAvailable a] } :
            Exec σ).emit (Event.logError "check snapshot availability failed")).emit
              (Event.sleep 10))) ∧
    (∀ y, waitForSnapshot ops a fuel x = .finished y →
      ∃ z, Adds Event.inSnapshotWait x z ∧
        (ops.IsSnapshotAvailable a z.engine).1 = .ok true ∧
        y = { z with
              engine := (ops.IsSnapshotAvailable a z.engine).2
              trace := z.trace ++ [Event.isSnapshotAvailable a] }) ∧
    ((∀ s, (ops.IsSnapshotAvailable a s).1 ≠ .ok true) →
      ∃ y, waitForSnapshot ops a fuel x = .pending y) ∧
    (applyHeights (waitForSnapshot ops a fuel x).exec.trace = applyHeights x.trace ∧
      stopCalls (waitForSnapshot ops a fuel x).exec.trace = stopCalls x.trace ∧
      poolFetches (waitForSnapshot ops a fuel x).exec.trace = poolFetches x.trace) ∧
    (∀ item h rest y, env.ParseBlockHeightFromKey item.Key = .ok h →
      (ops.ApplyBlock v.runtime item.Value x.engine).1 = none →
      sub64 h 1 = a → snapshotDue p v a →
      waitForSnapshot ops a fuel (afterApply ops v h item x) = .pending y →
      processItem ops env k p v fuel item x = .waiting y ∧
      mainLoop ops env k p v fuel (SourceEvent.item item :: rest) x = (.stillWaiting, y)) ∧
    (snapshotDue p v a → ∀ y, waitForSnapshot ops a fuel x = .finished y →
      snapshotPhase ops env p v fuel a x = .finished (refreshSnapshotPoolHeight env y) ∧
      poolFetches (refreshSnapshotPoolHeight env y).trace = poolFetches x.trace + 1) := by
  refine ⟨?_, ?_, ?_, waitForSnapshot_finished ops a fuel x, waitForSnapshot_never ops a fuel x,
    ⟨?_, ?_, ?_⟩, ?_, ?_⟩
  · intro e he
    simp only [waitForSnapshot, he]
  · intro e he
    simp only [waitForSnapshot, he]
  · intro err e he
    simp only [waitForSnapshot, he]
  · exact quiet_applyHeights_eq (quiet_waitForSnapshot ops a fuel x)
  · exact quiet_stopCalls_eq (quiet_waitForSnapshot ops a fuel x)
  · exact poolFetches_eq_of_adds _ (adds_waitForSnapshot ops a fuel x) rfl
  · intro item h rest y hkey happ ha hdue hw
    subst ha
    have hstep : processItem ops env k p v fuel item x = .waiting y := by
      rw [processItem_apply_ok ops env k p v fuel item x h hkey happ,
        snapshotPhase_enter ops env p v fuel _ _ hdue, hw]
    exact ⟨hstep, by simp only [mainLoop, hstep]⟩
  · intro hdue y hw
    refine ⟨by rw [snapshotPhase_enter ops env p v fuel a x hdue, hw], ?_⟩
    have h1 := poolFetches_eq_of_adds _ (adds_waitForSnapshot ops a fuel x) rfl
    rw [hw] at h1
    simp only [Wait.exec] at h1
    simp only [refreshSnapshotPoolHeight]
    rw [poolFetches_append, h1]
    rfl

/-- C11, as the claim states it, fails: the store is at height 4 (continuation height 5),
the application at height 3, and a snapshot is due every second block. For the first item,
at height 5, the applied height 4 is below the continuation height, and the executor
enters the snapshot wait for height 4 all the same. -/
theorem snapshot_wait_on_first_item :
    ¬ ((5 : Int) - 1 ≥ 5) ∧
    StartBlockSyncExecutor (Demo.countingOps 1 (fun _ => .ok true)) Demo.env Demo.constants
        (Demo.snapshotParams 0) 1 [.item (Demo.item "5")] (Demo.stubAt 4, 0) =
      (.awaitingItem,
        ⟨(⟨4, some "5", true⟩, 1),
          startupCalls ++ [Event.getPoolInfo 0, Event.startBlockCollector 5 0 false,
            Event.applyBlock 5 (some "@kyvejs/tendermint-bsync") "5",
            Event.isSnapshotAvailable 4, Event.getSnapshotPoolHeight], 1, 0⟩) := by
  decide

/-- Witness for the amended C11: in the same run the condition holds for the first item,
and the check for height 4 is among the calls made for it. -/
theorem snapshot_wait_entered_iff_due_witness :
    snapshotDue (Demo.snapshotParams 0) ⟨5, 3, some "@kyvejs/tendermint-bsync"⟩ (sub64 5 1) ∧
    Event.isSnapshotAvailable (sub64 5 1) ∈
      newCalls
        (⟨(⟨4, none, true⟩, 0),
          startupCalls ++ [Event.getPoolInfo 0, Event.startBlockCollector 5 0 false], 0, 0⟩ :
          Exec (Demo.StubEngine × Nat))
        (processItem (Demo.countingOps 1 (fun _ => .ok true)) Demo.env Demo.constants
          (Demo.snapshotParams 0) ⟨5, 3, some "@kyvejs/tendermint-bsync"⟩ (0 + 1)
          (Demo.item "5")
          ⟨(⟨4, none, true⟩, 0),
            startupCalls ++ [Event.getPoolInfo 0, Event.startBlockCollector 5 0 false],
            0, 0⟩).exec := by
  have hdue : snapshotDue (Demo.snapshotParams 0) ⟨5, 3, some "@kyvejs/tendermint-bsync"⟩
      (sub64 5 1) := by
    unfold snapshotDue
    decide
  exact ⟨hdue,
    (snapshot_wait_entered_iff_due (Demo.countingOps 1 (fun _ => .ok true)) Demo.env
      Demo.constants (Demo.snapshotParams 0) ⟨5, 3, some "@kyvejs/tendermint-bsync"⟩ 0
      (Demo.item "5")
      ⟨(⟨4, none, true⟩, 0),
        startupCalls ++ [Event.getPoolInfo 0, Event.startBlockCollector 5 0 false], 0, 0⟩
      5 (by decide) (by decide)).1.2 hdue⟩

/-- Witness for C12: the first check fails, the second finds nothing, the third finds the
snapshot; the wait ends there, on a check that returned `true`, and the snapshot pool
height is then fetched once. -/
theorem snapshot_wait_ends_only_on_success_witness :
    waitForSnapshot (Demo.countingOps 0 Demo.thirdTime) 4 3
        (⟨(⟨4, some "5", true⟩, 0), [], 0, 0⟩ : Exec (Demo.StubEngine × Nat)) =
      .finished ⟨(⟨4, some "5", true⟩, 3),
        [Event.isSnapshotAvailable 4, Event.logError "check snapshot availability failed",
         Event.sleep 10, Event.isSnapshotAvailable 4, Event.sleep 10,
         Event.isSnapshotAvailable 4], 0, 0⟩ ∧
    (∃ z, Adds Event.inSnapshotWait
        (⟨(⟨4, some "5", true⟩, 0), [], 0, 0⟩ : Exec (Demo.StubEngine × Nat)) z ∧
      ((Demo.countingOps 0 Demo.thirdTime).IsSnapshotAvailable 4 z.engine).1 = .ok true) ∧
    poolFetches (refreshSnapshotPoolHeight Demo.env
      (⟨(⟨4, some "5", true⟩, 3),
        [Event.isSnapshotAvailable 4, Event.logError "check snapshot availability failed",
         Event.sleep 10, Event.isSnapshotAvailable 4, Event.sleep 10,
         Event.isSnapshotAvailable 4], 0, 0⟩ : Exec (Demo.StubEngine × Nat))).trace = 0 + 1 := by
  have h := snapshot_wait_ends_only_on_success (Demo.countingOps 0 Demo.thirdTime) Demo.env
    Demo.constants (Demo.snapshotParams 0) ⟨4, 3, none⟩ 3 4
    (⟨(⟨4, some "5", true⟩, 0), [], 0, 0⟩ : Exec (Demo.StubEngine × Nat))
  have hw : waitForSnapshot (Demo.countingOps 0 Demo.thirdTime) 4 3
      (⟨(⟨4, some "5", true⟩, 0), [], 0, 0⟩ : Exec (Demo.StubEngine × Nat)) =
      .finished ⟨(⟨4, some "5", true⟩, 3),
        [Event.isSnapshotAvailable 4, Event.logError "check snapshot availability failed",
         Event.sleep 10, Event.isSnapshotAvailable 4, Event.sleep 10,
         Event.isSnapshotAvailable 4], 0, 0⟩ := by decide
  have hdue : snapshotDue (Demo.snapshotParams 0) ⟨4, 3, none⟩ 4 := by
    unfold snapshotDue
    decide
  refine ⟨hw, ?_, ?_⟩
  · obtain ⟨z, hz, hz1, _⟩ := h.2.2.2.1 _ hw
    exact ⟨z, hz, hz1⟩
  · exact (h.2.2.2.2.2.2.2 hdue _ hw).2

/-! ## Executor: backpressure -/

theorem waitForSnapshotPool_done (env : Collaborators) (k : Constants) (p : Params)
    (height : Int) (fuel : Nat) (x : Exec σ) (h : ¬ aheadOfSnapshotPool k p height x) :
    waitForSnapshotPool env k p height fuel x = .finished x := by
  unfold aheadOfSnapshotPool at h
  cases fuel <;> simp only [waitForSnapshotPool, if_neg h]

theorem waitForSnapshotPool_round (env : Collaborators) (k : Constants) (p : Params)
    (height : Int) (fuel : Nat) (x : Exec σ) (h : aheadOfSnapshotPool k p height x) :
    waitForSnapshotPool env k p height (fuel + 1) x =
      waitForSnapshotPool env k p height fuel
        (refreshSnapshotPoolHeight env (x.emit (Event.sleep 10))) := by
  unfold aheadOfSnapshotPool at h
  simp only [waitForSnapshotPool, if_pos h]

theorem waitForSnapshotPool_finished (env : Collaborators) (k : Constants) (p : Params)
    (height : Int) (fuel : Nat) (x y : Exec σ)
    (h : waitForSnapshotPool env k p height fuel x = .finished y) :
    ¬ aheadOfSnapshotPool k p height y := by
  induction fuel generalizing x with
  | zero =>
    unfold waitForSnapshotPool at h
    split at h
    · simp at h
    · rename_i hn
      simp only [Wait.finished.injEq] at h
      subst h
      exact hn
  | succ n ih =>
    unfold waitForSnapshotPool at h
    split at h
    · exact ih _ h
    · rename_i hn
      simp only [Wait.finished.injEq] at h
      subst h
      exact hn

theorem waitForSnapshotPool_pending (env : Collaborators) (k : Constants) (p : Params)
    (height : Int) (fuel : Nat) (x y : Exec σ)
    (h : waitForSnapshotPool env k p height fuel x = .pending y) :
    aheadOfSnapshotPool k p height y := by
  induction fuel generalizing x with
  | zero =>
    unfold waitForSnapshotPool at h
    split at h
    · rename_i hn
      simp only [Wait.pending.injEq] at h
      subst h
      exact hn
    · simp at h
  | succ n ih =>
    unfold waitForSnapshotPool at h
    split at h
    · exact ih _ h
    · simp at h

theorem backpressurePhase_on (env : Collaborators) (k : Constants) (p : Params)
    (fuel : Nat) (height : Int) (x : Exec σ) (hi : p.snapshotInterval > 0)
    (hs : p.skipWaiting = false) :
    backpressurePhase env k p fuel height x = waitForSnapshotPool env k p height fuel x := by
  unfold backpressurePhase
  rw [if_pos ⟨hi, hs⟩]

/-- An item past the first whose `ApplyBlock` succeeds, whose snapshot step has ended and
whose backup step returned no error goes on to the backpressure step for its own height. -/
theorem processItem_reaches_backpressure (ops : EngineOps σ) (env : Collaborators)
    (k : Constants) (p : Params) (v : LoopVars) (fuel : Nat) (item : DataItem)
    (x y z : Exec σ) (h : Int)
    (hkey : env.ParseBlockHeightFromKey item.Key = .ok h) (hne : h ≠ v.continuationHeight)
    (happ : (ops.ApplyBlock v.runtime item.Value x.engine).1 = none)
    (hsnap : snapshotPhase ops env p v fuel (sub64 h 1) (afterApply ops v h item x) =
      .finished y)
    (hbackup : backupPhase ops env p (sub64 h 1) (prunePhase ops k p (sub64 h 1) y) =
      (none, z)) :
    processItem ops env k p v fuel item x = afterBackup ops env k p fuel h z := by
  rw [processItem_apply_ok ops env k p v fuel item x h hkey happ, hsnap]
  simp only []
  rw [if_neg hne]
  unfold afterPrune
  rw [hbackup]

/-- C13, amended: with `snapshot_interval > 0` and `skip_waiting` false, the backpressure
step of an item past the first compares the height `h` of the item itself (not `h - 1`)
with `snapshot_pool_height + SnapshotPruningAheadFactor * snapshot_interval`, in `int64`
arithmetic: while `h` is greater, each round sleeps, fetches the snapshot pool height again
and applies no block; as soon as `h` is not greater the step is left. -/
theorem backpressure_compares_item_height (ops : EngineOps σ) (env : Collaborators)
    (k : Constants) (p : Params) (v : LoopVars) (fuel : Nat) (h : Int) (x : Exec σ)
    (hi : p.snapshotInterval > 0) (hs : p.skipWaiting = false) :
    (¬ aheadOfSnapshotPool k p h x → backpressurePhase env k p fuel h x = .finished x) ∧
    (aheadOfSnapshotPool k p h x →
      backpressurePhase env k p (fuel + 1) h x =
        backpressurePhase env k p fuel h
          (refreshSnapshotPoolHeight env (x.emit (Event.sleep 10)))) ∧
    (∀ y, backpressurePhase env k p fuel h x = .finished y → ¬ aheadOfSnapshotPool k p h y) ∧
    (∀ y, backpressurePhase env k p fuel h x = .pending y → aheadOfSnapshotPool k p h y) ∧
    (applyHeights (backpressurePhase env k p fuel h x).exec.trace = applyHeights x.trace ∧
      stopCalls (backpressurePhase env k p fuel h x).exec.trace = stopCalls x.trace) ∧
    (∀ item x0 y, env.ParseBlockHeightFromKey item.Key = .ok h → h ≠ v.continuationHeight →
      (ops.ApplyBlock v.runtime item.Value x0.engine).1 = none →
      snapshotPhase ops env p v fuel (sub64 h 1) (afterApply ops v h item x0) = .finished y →
      backupPhase ops env p (sub64 h 1) (prunePhase ops k p (sub64 h 1) y) = (none, x) →
      processItem ops env k p v fuel item x0 =
        match backpressurePhase env k p fuel h x with
        | .pending w => .waiting w
        | .finished w => targetPhase ops p h w) := by
  refine ⟨?_, ?_, ?_, ?_, ⟨?_, ?_⟩, ?_⟩
  · intro hn
    rw [backpressurePhase_on env k p fuel h x hi hs]
    exact waitForSnapshotPool_done env k p h fuel x hn
  · intro ha
    rw [backpressurePhase_on env k p (fuel + 1) h x hi hs,
      backpressurePhase_on env k p fuel h _ hi hs]
    exact waitForSnapshotPool_round env k p h fuel x ha
  · intro y hy
    rw [backpressurePhase_on env k p fuel h x hi hs] at hy
    exact waitForSnapshotPool_finished env k p h fuel x y hy
  · intro y hy
    rw [backpressurePhase_on env k p fuel h x hi hs] at hy
    exact waitForSnapshotPool_pending env k p h fuel x y hy
  · exact quiet_applyHeights_eq (quiet_backpressurePhase env k p fuel h x)
  · exact quiet_stopCalls_eq (quiet_backpressurePhase env k p fuel h x)
  · intro item x0 y hkey hne happ hsnap hbackup
    rw [processItem_reaches_backpressure ops env k p v fuel item x0 y x h hkey hne happ hsnap
      hbackup]
    rfl

/-- C13, as the claim states it, fails: the snapshot pool is at height 0 and the limit is
`3 * 2 = 6` blocks. After the item at height 7 the engine height just applied is 6, which
is not greater than `0 + 6`, and the executor stays in the backpressure step all the same
(7 is greater): after two rounds it is still waiting. -/
theorem backpressure_waits_at_applied_limit :
    ¬ ((7 : Int) - 1 > 0 + 3 * 2) ∧
    StartBlockSyncExecutor (Demo.ops Demo.noFaults) Demo.env Demo.constants
        (Demo.backpressureParams 0) 2 [.item (Demo.item "6"), .item (Demo.item "7")]
        (Demo.stubAt 5) =
      (.stillWaiting,
        ⟨⟨6, some "7", true⟩,
          startupCalls ++ [Event.startBlockCollector 6 0 false, Event.getSnapshotPoolHeight,
            Event.applyBlock 6 none "6", Event.applyBlock 7 none "7",
            Event.isSnapshotAvailable 6, Event.getSnapshotPoolHeight,
            Event.sleep 10, Event.getSnapshotPoolHeight,
            Event.sleep 10, Event.getSnapshotPoolHeight], 4, 0⟩) := by
  decide

/-- Witness for the amended C13: at pool height 0 the item height 7 is ahead of the limit
6, so a round is made; the item height 6 is not, so the step is left at once. -/
theorem backpressure_compares_item_height_witness :
    aheadOfSnapshotPool Demo.constants (Demo.backpressureParams 0) 7
      (⟨Demo.stubAt 6, [], 2, 0⟩ : Exec Demo.StubEngine) ∧
    backpressurePhase Demo.env Demo.constants (Demo.backpressureParams 0) (1 + 1) 7
        (⟨Demo.stubAt 6, [], 2, 0⟩ : Exec Demo.StubEngine) =
      backpressurePhase Demo.env Demo.constants (Demo.backpressureParams 0) 1 7
        (refreshSnapshotPoolHeight Demo.env
          ((⟨Demo.stubAt 6, [], 2, 0⟩ : Exec Demo.StubEngine).emit (Event.sleep 10))) ∧
    backpressurePhase Demo.env Demo.constants (Demo.backpressureParams 0) 1 6
        (⟨Demo.stubAt 5, [], 2, 0⟩ : Exec Demo.StubEngine) =
      .finished ⟨Demo.stubAt 5, [], 2, 0⟩ := by
  have ha : aheadOfSnapshotPool Demo.constants (Demo.backpressureParams 0) 7
      (⟨Demo.stubAt 6, [], 2, 0⟩ : Exec Demo.StubEngine) := by
    unfold aheadOfSnapshotPool
    decide
  have hn : ¬ aheadOfSnapshotPool Demo.constants (Demo.backpressureParams 0) 6
      (⟨Demo.stubAt 5, [], 2, 0⟩ : Exec Demo.StubEngine) := by
    unfold aheadOfSnapshotPool
    decide
  exact ⟨ha,
    (backpressure_compares_item_height (Demo.ops Demo.noFaults) Demo.env Demo.constants
      (Demo.backpressureParams 0) ⟨6, 5, none⟩ 1 7 ⟨Demo.stubAt 6, [], 2, 0⟩ (by decide)
      rfl).2.1 ha,
    (backpressure_compares_item_height (Demo.ops Demo.noFaults) Demo.env Demo.constants
      (Demo.backpressureParams 0) ⟨6, 5, none⟩ 1 6 ⟨Demo.stubAt 5, [], 2, 0⟩ (by decide)
      rfl).1 hn⟩

/-- A run that entered the main loop has left the backpressure evaluated before it. -/
theorem startup_entry (ops : EngineOps σ) (env : Collaborators) (k : Constants) (p : Params)
    (fuel : Nat) (engine : σ) (v : LoopVars) (y : Exec σ)
    (h : startup ops env k p fuel engine = .inr (v, y)) :
    initialBackpressure env k p v.continuationHeight fuel
      (loopEntry ops p engine v.continuationHeight) = .finished y := by
  unfold startup at h
  simp only [] at h
  cases h1 : (ops.GetContinuationHeight engine).1 with
  | error e => simp [h1] at h
  | ok c =>
    simp only [h1] at h
    cases h2 : (ops.GetAppHeight (ops.GetContinuationHeight engine).2).1 with
    | error e => simp [h2] at h
    | ok a =>
      simp only [h2] at h
      cases h3 : (ops.StartProxyApp (ops.GetAppHeight (ops.GetContinuationHeight engine).2).2).1 with
      | some e => simp [h3] at h
      | none =>
        simp only [h3] at h
        cases h4 : (ops.DoHandshake (ops.StartProxyApp
            (ops.GetAppHeight (ops.GetContinuationHeight engine).2).2).2).1 with
        | some e => simp [h4] at h
        | none =>
          simp only [h4] at h
          cases hpool : p.blockPoolId with
          | none =>
            simp only [hpool] at h
            split at h
            · simp at h
            · rename_i x7 hx7
              simp only [Sum.inr.injEq, Prod.mk.injEq] at h
              obtain ⟨hv, hy⟩ := h
              subst hv
              subst hy
              simp only [loopEntry, hpool, engineAfterHandshake, engineAfterStartProxyApp,
                engineAfterAppHeight, engineAfterContinuationHeight, startupCalls]
              simp only [Exec.emit, List.cons_append, List.nil_append] at hx7
              exact hx7
          | some poolId =>
            simp only [hpool] at h
            cases hinfo : env.GetPoolInfo poolId with
            | error e => simp [hinfo] at h
            | ok rt =>
              simp only [hinfo] at h
              split at h
              · simp at h
              · rename_i x7 hx7
                simp only [Sum.inr.injEq, Prod.mk.injEq] at h
                obtain ⟨hv, hy⟩ := h
                subst hv
                subst hy
                simp only [loopEntry, hpool, engineAfterHandshake, engineAfterStartProxyApp,
                  engineAfterAppHeight, engineAfterContinuationHeight, startupCalls]
                simp only [Exec.emit, List.cons_append, List.nil_append] at hx7
                exact hx7

theorem loopEntry_quiet (ops : EngineOps σ) (p : Params) (engine : σ) (c : Int) :
    applyHeights (loopEntry ops p engine c).trace = [] ∧
      stopCalls (loopEntry ops p engine c).trace = 0 ∧
      poolFetches (loopEntry ops p engine c).trace = 0 := by
  unfold loopEntry
  cases p.blockPoolId <;> exact ⟨rfl, rfl, rfl⟩

theorem ahead_of_math (P m c : Int) (hP : -9223372036854775808 ≤ P) (hm : 0 ≤ m)
    (h : c > P + m) : c > add64 P (wrapInt64 m) := by
  unfold add64 wrapInt64
  omega

theorem math_of_not_ahead (P m c : Int) (hP : -9223372036854775808 ≤ P) (hm : 0 ≤ m)
    (h : ¬ c > add64 P (wrapInt64 m)) : c ≤ P + m := by
  unfold add64 wrapInt64 at h
  omega

theorem waitForSnapshotPool_fixed (env : Collaborators) (k : Constants) (p : Params)
    (c P : Int) (hfix : ∀ n, env.GetSnapshotPoolHeight n = P)
    (hahead : c > add64 P (mul64 k.SnapshotPruningAheadFactor p.snapshotInterval))
    (fuel : Nat) (x : Exec σ) (hx : x.snapshotPoolHeight = P) :
    ∃ y, waitForSnapshotPool env k p c fuel x = .pending y := by
  induction fuel generalizing x with
  | zero =>
    unfold waitForSnapshotPool
    rw [hx, if_pos hahead]
    exact ⟨x, rfl⟩
  | succ n ih =>
    unfold waitForSnapshotPool
    rw [hx, if_pos hahead]
    exact ih _ (hfix _)

theorem waitForSnapshotPool_fetched (env : Collaborators) (k : Constants) (p : Params)
    (c : Int) (fuel : Nat) (x : Exec σ)
    (hx : ∃ n, x.snapshotPoolHeight = env.GetSnapshotPoolHeight n) :
    ∃ n, (waitForSnapshotPool env k p c fuel x).exec.snapshotPoolHeight =
      env.GetSnapshotPoolHeight n := by
  induction fuel generalizing x with
  | zero =>
    unfold waitForSnapshotPool
    split <;> exact hx
  | succ n ih =>
    unfold waitForSnapshotPool
    split
    · exact ih _ ⟨_, rfl⟩
    · exact hx

/-- C14: with `snapshot_interval > 0` and `skip_waiting` false (the factor is not negative
and the fetched pool heights are `int64` values): if every fetch of the snapshot pool
height yields `P` and `continuation_height > P + SnapshotPruningAheadFactor *
snapshot_interval`, the run makes no `ApplyBlock` call and does not return `nil`, for any
number of rounds; and in every run with an `ApplyBlock` call, a pool height `P'` with
`continuation_height <= P' + SnapshotPruningAheadFactor * snapshot_interval` was fetched
before the first of these calls. -/
theorem initial_backpressure_holds_applyBlock (ops : EngineOps σ) (env : Collaborators)
    (k : Constants) (p : Params) (fuel : Nat) (events : List SourceEvent) (engine : σ) (c : Int)
    (hi : p.snapshotInterval > 0) (hs : p.skipWaiting = false)
    (hc : (ops.GetContinuationHeight engine).1 = .ok c)
    (hF : 0 ≤ k.SnapshotPruningAheadFactor)
    (hrange : ∀ n, -9223372036854775808 ≤ env.GetSnapshotPoolHeight n) :
    (∀ P, (∀ n, env.GetSnapshotPoolHeight n = P) →
      c > P + k.SnapshotPruningAheadFactor * p.snapshotInterval →
      applyHeights (StartBlockSyncExecutor ops env k p fuel events engine).2.trace = [] ∧
      (StartBlockSyncExecutor ops env k p fuel events engine).1 ≠ .returned none) ∧
    (applyHeights (StartBlockSyncExecutor ops env k p fuel events engine).2.trace ≠ [] →
      ∃ (y : Exec σ) (added : List Event) (n : Nat),
        (StartBlockSyncExecutor ops env k p fuel events engine).2.trace = y.trace ++ added ∧
        applyHeights y.trace = [] ∧
        Event.getSnapshotPoolHeight ∈ y.trace ∧
        y.snapshotPoolHeight = env.GetSnapshotPoolHeight n ∧
        c ≤ env.GetSnapshotPoolHeight n +
          k.SnapshotPruningAheadFactor * p.snapshotInterval) := by
  have hm : 0 ≤ k.SnapshotPruningAheadFactor * p.snapshotInterval :=
    Int.mul_nonneg hF (le_of_lt hi)
  have hinit : ∀ x : Exec σ, initialBackpressure env k p c fuel x =
      waitForSnapshotPool env k p c fuel (refreshSnapshotPoolHeight env x) := by
    intro x
    unfold initialBackpressure
    rw [if_pos ⟨hi, hs⟩]
  constructor
  · intro P hfix hgt
    have hahead : c > add64 P (mul64 k.SnapshotPruningAheadFactor p.snapshotInterval) := by
      have hP := hrange 0
      rw [hfix 0] at hP
      exact ahead_of_math P _ c hP hm hgt
    unfold StartBlockSyncExecutor
    cases hstart : startup ops env k p fuel engine with
    | inl r =>
      obtain ⟨o, z⟩ := r
      obtain ⟨h1, _, h3, _⟩ := startup_inl ops env k p fuel engine o z hstart
      exact ⟨h3, h1⟩
    | inr r =>
      obtain ⟨v, y⟩ := r
      exfalso
      have hentry := startup_entry ops env k p fuel engine v y hstart
      have hv := (startup_inr ops env k p fuel engine v y hstart).1
      rw [hc] at hv
      cases hv
      rw [hinit] at hentry
      obtain ⟨z, hz⟩ := waitForSnapshotPool_fixed env k p v.continuationHeight P hfix hahead
        fuel (refreshSnapshotPoolHeight env (loopEntry ops p engine v.continuationHeight))
        (hfix _)
      rw [hz] at hentry
      cases hentry
  · intro hne
    unfold StartBlockSyncExecutor at hne ⊢
    cases hstart : startup ops env k p fuel engine with
    | inl r =>
      obtain ⟨o, z⟩ := r
      rw [hstart] at hne
      exact absurd (startup_inl ops env k p fuel engine o z hstart).2.2.1 hne
    | inr r =>
      obtain ⟨v, y⟩ := r
      have hentry := startup_entry ops env k p fuel engine v y hstart
      obtain ⟨hv, _, _, _, _, sadded, hsadd, hsa, _⟩ := startup_inr ops env k p fuel engine v y hstart
      rw [hc] at hv
      cases hv
      rw [hinit] at hentry
      have hnot := waitForSnapshotPool_finished env k p v.continuationHeight fuel _ y hentry
      obtain ⟨n, hn⟩ := waitForSnapshotPool_fetched env k p v.continuationHeight fuel
        (refreshSnapshotPoolHeight env (loopEntry ops p engine v.continuationHeight))
        ⟨_, rfl⟩
      rw [hentry] at hn
      simp only [Wait.exec] at hn
      obtain ⟨added, hadded⟩ := mainLoop_extends ops env k p v fuel events y
      refine ⟨y, added, n, hadded, ?_, ?_, hn, ?_⟩
      · rw [hsadd, applyHeights_append, hsa]
        rfl
      · obtain ⟨more, hmore, _⟩ := adds_waitForSnapshotPool env k p v.continuationHeight fuel
          (refreshSnapshotPoolHeight env (loopEntry ops p engine v.continuationHeight))
        rw [hentry] at hmore
        simp only [Wait.exec] at hmore
        rw [hmore]
        simp [refreshSnapshotPoolHeight]
      · unfold aheadOfSnapshotPool at hnot
        rw [hn] at hnot
        exact math_of_not_ahead _ _ _ (hrange n) hm hnot

/-- Witness for C14: the engine continues at height 8, the snapshot pool stays at height 0
and the limit is `3 * 2 = 6` blocks, so the block of the item at hand is never applied. -/
theorem initial_backpressure_holds_applyBlock_witness :
    (8 : Int) > 0 + Demo.constants.SnapshotPruningAheadFactor *
      (Demo.backpressureParams 0).snapshotInterval ∧
    applyHeights (StartBlockSyncExecutor (Demo.ops Demo.noFaults) Demo.env Demo.constants
      (Demo.backpressureParams 0) 2 [.item (Demo.item "8")] (Demo.stubAt 7)).2.trace = [] ∧
    (StartBlockSyncExecutor (Demo.ops Demo.noFaults) Demo.env Demo.constants
      (Demo.backpressureParams 0) 2 [.item (Demo.item "8")] (Demo.stubAt 7)).1 ≠
        .returned none :=
  ⟨by decide,
    (initial_backpressure_holds_applyBlock (Demo.ops Demo.noFaults) Demo.env Demo.constants
      (Demo.backpressureParams 0) 2 [.item (Demo.item "8")] (Demo.stubAt 7) 8 (by decide) rfl
      rfl (by decide) (fun _ => show (-9223372036854775808 : Int) ≤ 0 by decide)).1 0
      (fun _ => rfl) (by decide)⟩

/-! ## The switches `snapshot_interval = 0` and `skip_waiting` -/

theorem snapshotPhase_off (ops : EngineOps σ) (env : Collaborators) (p : Params)
    (v : LoopVars) (fuel : Nat) (a : Int) (x : Exec σ) (h0 : p.snapshotInterval = 0) :
    snapshotPhase ops env p v fuel a x = .finished x := by
  unfold snapshotPhase
  rw [if_neg]
  rw [h0]
  intro h
  exact absurd h.1 (by decide)

theorem backpressurePhase_off (env : Collaborators) (k : Constants) (p : Params)
    (fuel : Nat) (height : Int) (x : Exec σ)
    (h0 : p.snapshotInterval = 0 ∨ p.skipWaiting = true) :
    backpressurePhase env k p fuel height x = (.finished x : Wait σ) := by
  unfold backpressurePhase
  rw [if_neg]
  intro h
  cases h0 with
  | inl h0 =>
    rw [h0] at h
    exact absurd h.1 (by decide)
  | inr h0 =>
    rw [h0] at h
    exact absurd h.2 (by decide)

theorem initialBackpressure_off (env : Collaborators) (k : Constants) (p : Params)
    (c : Int) (fuel : Nat) (x : Exec σ)
    (h0 : p.snapshotInterval = 0 ∨ p.skipWaiting = true) :
    initialBackpressure env k p c fuel x = (.finished x : Wait σ) := by
  unfold initialBackpressure
  rw [if_neg]
  intro h
  cases h0 with
  | inl h0 =>
    rw [h0] at h
    exact absurd h.1 (by decide)
  | inr h0 =>
    rw [h0] at h
    exact absurd h.2 (by decide)

/-- With `snapshot_interval = 0` one iteration of the main loop makes no call of a wait and
is never left inside a wait. -/
theorem processItem_no_wait (ops : EngineOps σ) (env : Collaborators) (k : Constants)
    (p : Params) (v : LoopVars) (fuel : Nat) (item : DataItem) (x : Exec σ)
    (h0 : p.snapshotInterval = 0) :
    Adds (fun ev => !ev.isWaitCall) x (processItem ops env k p v fuel item x).exec ∧
    ∀ y, processItem ops env k p v fuel item x ≠ .waiting y := by
  cases hkey : env.ParseBlockHeightFromKey item.Key with
  | error e =>
    unfold processItem
    rw [hkey]
    exact ⟨adds_refl _ x, by intro y h; cases h⟩
  | ok h =>
    cases happ : (ops.ApplyBlock v.runtime item.Value x.engine).1 with
    | some e =>
      unfold processItem
      rw [hkey]
      simp only [happ]
      exact ⟨adds_step _ x _ (Event.applyBlock h v.runtime item.Value) rfl rfl,
        by intro y h; cases h⟩
    | none =>
      rw [processItem_apply_ok ops env k p v fuel item x h hkey happ,
        snapshotPhase_off ops env p v fuel _ _ h0]
      simp only []
      have ha : Adds (fun ev => !ev.isWaitCall) x (afterApply ops v h item x) :=
        adds_step _ x _ (Event.applyBlock h v.runtime item.Value) rfl rfl
      split
      · exact ⟨ha, by intro y h; cases h⟩
      · have hp : Adds (fun ev => !ev.isWaitCall) (afterApply ops v h item x)
            (prunePhase ops k p (sub64 h 1) (afterApply ops v h item x)) :=
          adds_mono (by intro ev; cases ev <;> simp [Event.inPrune, Event.isWaitCall])
            (adds_prunePhase ops k p (sub64 h 1) (afterApply ops v h item x))
        have hb : Adds (fun ev => !ev.isWaitCall)
            (prunePhase ops k p (sub64 h 1) (afterApply ops v h item x))
            (backupPhase ops env p (sub64 h 1)
              (prunePhase ops k p (sub64 h 1) (afterApply ops v h item x))).2 :=
          adds_mono (by
              intro ev
              cases ev <;> simp [Event.inBackup, Event.isWaitCall]
              intro hs
              omega)
            (adds_backupPhase ops env p (sub64 h 1) _)
        unfold afterPrune
        cases hbk : backupPhase ops env p (sub64 h 1)
            (prunePhase ops k p (sub64 h 1) (afterApply ops v h item x)) with
        | mk e y =>
          rw [hbk] at hb
          cases e with
          | some err => exact ⟨adds_trans ha (adds_trans hp hb), by intro y h; cases h⟩
          | none =>
            simp only []
            unfold afterBackup
            rw [backpressurePhase_off env k p fuel h y (Or.inl h0)]
            simp only []
            unfold targetPhase
            split
            · simp only []
              split
              · exact ⟨adds_trans ha (adds_trans hp (adds_trans hb
                  (adds_step _ y _ Event.stopProxyApp rfl rfl))), by intro y h; cases h⟩
              · exact ⟨adds_trans ha (adds_trans hp (adds_trans hb
                  (adds_step _ y _ Event.stopProxyApp rfl rfl))), by intro y h; cases h⟩
            · exact ⟨adds_trans ha (adds_trans hp hb), by intro y h; cases h⟩

theorem mainLoop_no_wait (ops : EngineOps σ) (env : Collaborators) (k : Constants)
    (p : Params) (v : LoopVars) (fuel : Nat) (events : List SourceEvent) (x : Exec σ)
    (h0 : p.snapshotInterval = 0) :
    Adds (fun ev => !ev.isWaitCall) x (mainLoop ops env k p v fuel events x).2 ∧
    (mainLoop ops env k p v fuel events x).1 ≠ .stillWaiting := by
  induction events generalizing x with
  | nil => exact ⟨adds_refl _ x, by simp [mainLoop]⟩
  | cons e rest ih =>
    cases e with
    | error err => exact ⟨adds_refl _ x, by simp [mainLoop]⟩
    | item item =>
      obtain ⟨hadd, hnw⟩ := processItem_no_wait ops env k p v fuel item x h0
      unfold mainLoop
      cases hstep : processItem ops env k p v fuel item x with
      | next y =>
        rw [hstep] at hadd
        simp only []
        exact ⟨adds_trans hadd (ih y).1, (ih y).2⟩
      | done err y =>
        rw [hstep] at hadd
        exact ⟨hadd, by simp⟩
      | waiting y => exact absurd hstep (hnw y)

theorem startup_no_wait (ops : EngineOps σ) (env : Collaborators) (k : Constants)
    (p : Params) (fuel : Nat) (engine : σ) (h0 : p.snapshotInterval = 0) :
    match startup ops env k p fuel engine with
    | .inl r => r.1 ≠ .stillWaiting ∧ ∀ ev ∈ r.2.trace, (!ev.isWaitCall) = true
    | .inr r => ∀ ev ∈ r.2.trace, (!ev.isWaitCall) = true := by
  unfold startup
  simp only [initialBackpressure_off env k p _ fuel _ (Or.inl h0)]
  cases (ops.GetContinuationHeight engine).1 with
  | error e => simp [Event.isWaitCall]
  | ok c =>
    simp only []
    cases (ops.GetAppHeight (ops.GetContinuationHeight engine).2).1 with
    | error e => simp [Event.isWaitCall]
    | ok a =>
      simp only []
      cases (ops.StartProxyApp (ops.GetAppHeight (ops.GetContinuationHeight engine).2).2).1 with
      | some e => simp [Event.isWaitCall]
      | none =>
        simp only []
        cases (ops.DoHandshake (ops.StartProxyApp
            (ops.GetAppHeight (ops.GetContinuationHeight engine).2).2).2).1 with
        | some e => simp [Event.isWaitCall]
        | none =>
          simp only []
          cases p.blockPoolId with
          | none => simp [Exec.emit, Event.isWaitCall]
          | some poolId =>
            simp only []
            cases env.GetPoolInfo poolId with
            | error e => simp [Exec.emit, Event.isWaitCall]
            | ok runtime => simp [Exec.emit, Event.isWaitCall]

/-- C15: with `snapshot_interval = 0`, whatever the channels deliver and whatever
`skip_waiting` is, a run never calls `IsSnapshotAvailable`, never fetches the snapshot pool
height, never sleeps the ten seconds of a wait round and never ends inside a wait. With
`skip_waiting = true` the backpressure before the main loop and the backpressure after an
item are left at once without a call, and the snapshot step does not depend on
`skip_waiting`: its condition and its course are those of the same run with any other
value of the switch, so the snapshot wait is entered exactly when that condition holds. -/
theorem waits_disabled_by_switches (ops : EngineOps σ) (env : Collaborators)
    (k : Constants) (p : Params) (fuel : Nat) (events : List SourceEvent) (engine : σ) :
    (p.snapshotInterval = 0 →
      snapshotChecks (StartBlockSyncExecutor ops env k p fuel events engine).2.trace = [] ∧
      poolFetches (StartBlockSyncExecutor ops env k p fuel events engine).2.trace = 0 ∧
      Event.sleep 10 ∉ (StartBlockSyncExecutor ops env k p fuel events engine).2.trace ∧
      (StartBlockSyncExecutor ops env k p fuel events engine).1 ≠ .stillWaiting) ∧
    (p.skipWaiting = true →
      (∀ (c : Int) (x : Exec σ), initialBackpressure env k p c fuel x = .finished x) ∧
      (∀ (h : Int) (x : Exec σ), backpressurePhase env k p fuel h x = .finished x)) ∧
    (∀ (b : Bool) (v : LoopVars) (a : Int) (x : Exec σ),
      (snapshotDue { p with skipWaiting := b } v a ↔ snapshotDue p v a) ∧
      snapshotPhase ops env { p with skipWaiting := b } v fuel a x =
        snapshotPhase ops env p v fuel a x ∧
      (snapshotDue p v a →
        snapshotPhase ops env { p with skipWaiting := b } v fuel a x =
          match waitForSnapshot ops a fuel x with
          | .finished y => .finished (refreshSnapshotPoolHeight env y)
          | .pending y => .pending y) ∧
      (¬ snapshotDue p v a →
        snapshotPhase ops env { p with skipWaiting := b } v fuel a x = .finished x)) := by
  refine ⟨?_, ?_, ?_⟩
  · intro h0
    have hall : (∀ ev ∈ (StartBlockSyncExecutor ops env k p fuel events engine).2.trace,
        (!ev.isWaitCall) = true) ∧
        (StartBlockSyncExecutor ops env k p fuel events engine).1 ≠ .stillWaiting := by
      have hs := startup_no_wait ops env k p fuel engine h0
      unfold StartBlockSyncExecutor
      cases hstart : startup ops env k p fuel engine with
      | inl r =>
        rw [hstart] at hs
        exact ⟨hs.2, hs.1⟩
      | inr r =>
        obtain ⟨v, y⟩ := r
        rw [hstart] at hs
        obtain ⟨⟨added, hadded, hev⟩, hout⟩ := mainLoop_no_wait ops env k p v fuel events y h0
        refine ⟨?_, hout⟩
        intro ev hmem
        simp only [] at hmem
        rw [hadded] at hmem
        cases List.mem_append.mp hmem with
        | inl h => exact hs ev h
        | inr h => exact hev ev h
    obtain ⟨hev, hout⟩ := hall
    refine ⟨?_, ?_, ?_, hout⟩
    · unfold snapshotChecks
      rw [List.filterMap_eq_nil_iff]
      intro ev hmem
      have := hev ev hmem
      cases ev <;> simp_all [Event.isWaitCall]
    · unfold poolFetches
      rw [List.count_eq_zero]
      intro hmem
      have := hev _ hmem
      simp [Event.isWaitCall] at this
    · intro hmem
      have := hev _ hmem
      simp [Event.isWaitCall] at this
  · intro hs
    exact ⟨fun c x => initialBackpressure_off env k p c fuel x (Or.inr hs),
      fun h x => backpressurePhase_off env k p fuel h x (Or.inr hs)⟩
  · intro b v a x
    have heq : snapshotPhase ops env { p with skipWaiting := b } v fuel a x =
        snapshotPhase ops env p v fuel a x := rfl
    refine ⟨Iff.rfl, heq, ?_, ?_⟩
    · intro hdue
      rw [heq]
      exact snapshotPhase_enter ops env p v fuel a x hdue
    · intro hdue
      rw [heq]
      exact snapshotPhase_skip ops env p v fuel a x hdue

/-- Witness for C15: a run without snapshots over three items, with no round allowed to
any wait, ends at its target height; and with `skip_waiting = true` the backpressure after
the item at height 8 is left at once although the snapshot pool is at height 0. -/
theorem waits_disabled_by_switches_witness :
    (snapshotChecks (StartBlockSyncExecutor (Demo.ops Demo.noFaults) Demo.env Demo.constants
        (Demo.params 6) 0 [.item (Demo.item "5"), .item (Demo.item "6"), .item (Demo.item "7")]
        (Demo.stubAt 4)).2.trace = [] ∧
      poolFetches (StartBlockSyncExecutor (Demo.ops Demo.noFaults) Demo.env Demo.constants
        (Demo.params 6) 0 [.item (Demo.item "5"), .item (Demo.item "6"), .item (Demo.item "7")]
        (Demo.stubAt 4)).2.trace = 0 ∧
      Event.sleep 10 ∉ (StartBlockSyncExecutor (Demo.ops Demo.noFaults) Demo.env
        Demo.constants (Demo.params 6) 0
        [.item (Demo.item "5"), .item (Demo.item "6"), .item (Demo.item "7")]
        (Demo.stubAt 4)).2.trace ∧
      (StartBlockSyncExecutor (Demo.ops Demo.noFaults) Demo.env Demo.constants
        (Demo.params 6) 0 [.item (Demo.item "5"), .item (Demo.item "6"), .item (Demo.item "7")]
        (Demo.stubAt 4)).1 ≠ .stillWaiting) ∧
    backpressurePhase Demo.env Demo.constants (Demo.snapshotParams 0) 0 8
        (⟨Demo.stubAt 7, [], 0, 0⟩ : Exec Demo.StubEngine) =
      .finished ⟨Demo.stubAt 7, [], 0, 0⟩ :=
  ⟨(waits_disabled_by_switches (Demo.ops Demo.noFaults) Demo.env Demo.constants
      (Demo.params 6) 0 [.item (Demo.item "5"), .item (Demo.item "6"), .item (Demo.item "7")]
      (Demo.stubAt 4)).1 rfl,
    ((waits_disabled_by_switches (Demo.ops Demo.noFaults) Demo.env Demo.constants
      (Demo.snapshotParams 0) 0 [] (Demo.stubAt 7)).2.1 rfl).2 8 ⟨Demo.stubAt 7, [], 0, 0⟩⟩

/-! ## The pruning step -/

theorem pruneTargets_eq_nil (allowed : Event → Bool) (added : List Event)
    (hall : ∀ ev ∈ added, allowed ev = true)
    (hex : ∀ ev t, allowed ev = true → ev ≠ Event.pruneBlocks t) :
    pruneTargets added = [] := by
  unfold pruneTargets
  rw [List.filterMap_eq_nil_iff]
  intro ev hev
  cases ev with
  | pruneBlocks t => exact absurd rfl (hex _ t (hall _ hev))
  | _ => rfl

theorem backupCalls_eq_nil (allowed : Event → Bool) (added : List Event)
    (hall : ∀ ev ∈ added, allowed ev = true)
    (hex : ∀ ev c a b, allowed ev = true → ev ≠ Event.createBackup c a b) :
    backupCalls added = [] := by
  unfold backupCalls
  rw [List.filterMap_eq_nil_iff]
  intro ev hev
  cases ev with
  | createBackup c a b => exact absurd rfl (hex _ c a b (hall _ hev))
  | _ => rfl

theorem prunePhase_skip (ops : EngineOps σ) (k : Constants) (p : Params) (a : Int)
    (x : Exec σ) (h : ¬ pruneDue k p a) : prunePhase ops k p a x = x := by
  unfold prunePhase
  unfold pruneDue at h
  rw [if_neg h]

/-- The pruning step when it is due: one `PruneBlocks` call with the target of lines
132-136, followed by a log line when the call failed. -/
theorem prunePhase_due (ops : EngineOps σ) (k : Constants) (p : Params) (a : Int)
    (x : Exec σ) (h : pruneDue k p a) :
    prunePhase ops k p a x =
      match (ops.PruneBlocks
        (pruneTarget k p (ops.GetHeight x.engine) (ops.GetBaseHeight x.engine)) x.engine).1 with
      | some _ =>
        { x with
          engine := (ops.PruneBlocks
            (pruneTarget k p (ops.GetHeight x.engine) (ops.GetBaseHeight x.engine)) x.engine).2
          trace := x.trace ++
            [Event.pruneBlocks
              (pruneTarget k p (ops.GetHeight x.engine) (ops.GetBaseHeight x.engine)),
             Event.logError "failed to prune blocks"] }
      | none =>
        { x with
          engine := (ops.PruneBlocks
            (pruneTarget k p (ops.GetHeight x.engine) (ops.GetBaseHeight x.engine)) x.engine).2
          trace := x.trace ++
            [Event.pruneBlocks
              (pruneTarget k p (ops.GetHeight x.engine) (ops.GetBaseHeight x.engine))] } := by
  unfold prunePhase
  unfold pruneDue at h
  rw [if_pos h]
  simp only [pruneTarget]
  split <;> simp [Exec.emit]

theorem pruneTargets_prunePhase (ops : EngineOps σ) (k : Constants) (p : Params) (a : Int)
    (x : Exec σ) :
    ∃ added, (prunePhase ops k p a x).trace = x.trace ++ added ∧
      (∀ ev ∈ added, ev.inPrune = true) ∧
      (pruneDue k p a → pruneTargets added =
        [pruneTarget k p (ops.GetHeight x.engine) (ops.GetBaseHeight x.engine)]) ∧
      (¬ pruneDue k p a → pruneTargets added = []) := by
  by_cases h : pruneDue k p a
  · rw [prunePhase_due ops k p a x h]
    split
    · exact ⟨_, rfl, by simp [Event.inPrune], fun _ => rfl, fun hn => absurd h hn⟩
    · exact ⟨_, rfl, by simp [Event.inPrune], fun _ => rfl, fun hn => absurd h hn⟩
  · rw [prunePhase_skip ops k p a x h]
    exact ⟨[], by simp, by simp, fun hd => absurd hd h, fun _ => rfl⟩

theorem pruneTarget_eq_max (k : Constants) (p : Params) (H B : Int) :
    pruneTarget k p H B =
      max (sub64 H (mul64 k.SnapshotPruningWindowFactor p.snapshotInterval)) B := by
  unfold pruneTarget
  split
  · rw [max_eq_right (by omega)]
  · rw [max_eq_left (by omega)]

/-- The calls of an item past the first whose snapshot step ended in the state `y`: the
`ApplyBlock` call, the calls of the snapshot step, those of the pruning step, and those of
backup, backpressure and stop. -/
theorem processItem_calls (ops : EngineOps σ) (env : Collaborators) (k : Constants)
    (p : Params) (v : LoopVars) (fuel : Nat) (item : DataItem) (x y : Exec σ) (h : Int)
    (hkey : env.ParseBlockHeightFromKey item.Key = .ok h)
    (hne : h ≠ v.continuationHeight)
    (happ : (ops.ApplyBlock v.runtime item.Value x.engine).1 = none)
    (hsnap : snapshotPhase ops env p v fuel (sub64 h 1) (afterApply ops v h item x) =
      .finished y) :
    processItem ops env k p v fuel item x =
      afterPrune ops env k p fuel h (prunePhase ops k p (sub64 h 1) y) ∧
    ∃ snap pruned rest,
      y.trace = x.trace ++ Event.applyBlock h v.runtime item.Value :: snap ∧
      (prunePhase ops k p (sub64 h 1) y).trace = y.trace ++ pruned ∧
      (processItem ops env k p v fuel item x).exec.trace =
        (prunePhase ops k p (sub64 h 1) y).trace ++ rest ∧
      newCalls x (processItem ops env k p v fuel item x).exec =
        Event.applyBlock h v.runtime item.Value :: (snap ++ (pruned ++ rest)) ∧
      (∀ ev ∈ snap, ev.inSnapshotStep = true) ∧
      (∀ ev ∈ pruned, ev.inPrune = true) ∧
      (∀ ev ∈ rest, (ev.inBackup || ev.inTail) = true) ∧
      (pruneDue k p (sub64 h 1) → pruneTargets pruned =
        [pruneTarget k p (ops.GetHeight y.engine) (ops.GetBaseHeight y.engine)]) ∧
      (¬ pruneDue k p (sub64 h 1) → pruneTargets pruned = []) := by
  have hproc : processItem ops env k p v fuel item x =
      afterPrune ops env k p fuel h (prunePhase ops k p (sub64 h 1) y) := by
    rw [processItem_apply_ok ops env k p v fuel item x h hkey happ, hsnap]
    simp only []
    rw [if_neg hne]
  refine ⟨hproc, ?_⟩
  obtain ⟨snap, hsnapTr, hsnapAll⟩ :=
    adds_snapshotPhase ops env p v fuel (sub64 h 1) (afterApply ops v h item x)
  rw [hsnap] at hsnapTr
  simp only [Wait.exec] at hsnapTr
  obtain ⟨pruned, hprunedTr, hprunedAll, hdue, hnot⟩ :=
    pruneTargets_prunePhase ops k p (sub64 h 1) y
  obtain ⟨rest, hrestTr, hrestAll⟩ :=
    adds_afterPrune ops env k p fuel h (prunePhase ops k p (sub64 h 1) y)
  rw [← hproc] at hrestTr
  have hy : y.trace = x.trace ++ Event.applyBlock h v.runtime item.Value :: snap := by
    rw [hsnapTr]
    simp [afterApply]
  refine ⟨snap, pruned, rest, hy, hprunedTr, hrestTr, ?_, hsnapAll, hprunedAll, hrestAll,
    hdue, hnot⟩
  apply newCalls_eq
  rw [hrestTr, hprunedTr, hy]
  simp

/-- C16: for every item past the first (its key parses to `h`, `h` is not the
continuation height, `ApplyBlock` succeeds and the snapshot step has ended in the state
`y`), the executor calls `PruneBlocks` if and only if pruning is enabled and
`(h - 1) % PruningInterval = 0`; it then calls it exactly once, with the target
`max(GetHeight() - SnapshotPruningWindowFactor * snapshot_interval, GetBaseHeight())`
computed on `int64` from the engine as the snapshot step left it. Whether `PruneBlocks`
fails or not, the item continues with the backup step; a failure adds a log line only. -/
theorem pruneBlocks_called_iff_due (ops : EngineOps σ) (env : Collaborators)
    (k : Constants) (p : Params) (v : LoopVars) (fuel : Nat) (item : DataItem)
    (x y : Exec σ) (h : Int)
    (hkey : env.ParseBlockHeightFromKey item.Key = .ok h)
    (hne : h ≠ v.continuationHeight)
    (happ : (ops.ApplyBlock v.runtime item.Value x.engine).1 = none)
    (hsnap : snapshotPhase ops env p v fuel (sub64 h 1) (afterApply ops v h item x) =
      .finished y) :
    (pruneTargets (newCalls x (processItem ops env k p v fuel item x).exec) ≠ [] ↔
      (p.pruning = true ∧ rem64 (sub64 h 1) k.PruningInterval = 0)) ∧
    (p.pruning = true ∧ rem64 (sub64 h 1) k.PruningInterval = 0 →
      pruneTargets (newCalls x (processItem ops env k p v fuel item x).exec) =
        [max (sub64 (ops.GetHeight y.engine)
            (mul64 k.SnapshotPruningWindowFactor p.snapshotInterval))
          (ops.GetBaseHeight y.engine)]) ∧
    processItem ops env k p v fuel item x =
      afterPrune ops env k p fuel h (prunePhase ops k p (sub64 h 1) y) ∧
    (p.pruning = true ∧ rem64 (sub64 h 1) k.PruningInterval = 0 →
      ∀ err,
        (ops.PruneBlocks
          (pruneTarget k p (ops.GetHeight y.engine) (ops.GetBaseHeight y.engine))
          y.engine).1 = some err →
        processItem ops env k p v fuel item x =
          afterPrune ops env k p fuel h
            { y with
              engine := (ops.PruneBlocks
                (pruneTarget k p (ops.GetHeight y.engine) (ops.GetBaseHeight y.engine))
                y.engine).2
              trace := y.trace ++
                [Event.pruneBlocks
                  (pruneTarget k p (ops.GetHeight y.engine) (ops.GetBaseHeight y.engine)),
                 Event.logError "failed to prune blocks"] }) := by
  obtain ⟨hproc, snap, pruned, rest, _, _, _, hnew, hsnapAll, _, hrestAll, hdue, hnot⟩ :=
    processItem_calls ops env k p v fuel item x y h hkey hne happ hsnap
  have hsplit : pruneTargets (newCalls x (processItem ops env k p v fuel item x).exec) =
      pruneTargets pruned := by
    rw [hnew]
    change pruneTargets ([Event.applyBlock h v.runtime item.Value] ++ (snap ++ (pruned ++ rest)))
      = pruneTargets pruned
    rw [pruneTargets_append, pruneTargets_append, pruneTargets_append,
      pruneTargets_eq_nil _ snap hsnapAll, pruneTargets_eq_nil _ rest hrestAll]
    · simp [pruneTargets]
    · intro ev t hev
      cases ev <;> simp_all [Event.inBackup, Event.inTail]
    · intro ev t hev
      cases ev <;> simp_all [Event.inSnapshotStep]
  refine ⟨⟨?_, ?_⟩, ?_, hproc, ?_⟩
  · intro hcall
    by_contra hd
    exact hcall (by rw [hsplit]; exact hnot hd)
  · intro hd
    rw [hsplit, hdue hd]
    simp
  · intro hd
    rw [hsplit, hdue hd, pruneTarget_eq_max]
  · intro hd err herr
    rw [hproc, prunePhase_due ops k p (sub64 h 1) y hd, herr]

/-- Witness for C16: the item at height 101 is applied on an engine at store height 99
with block 100 buffered, so the applied height is 100 and `100 % 100 = 0`: `PruneBlocks`
is called once with `max(100 - 6 * 7, 1) = 58`. The call fails, and the run goes on to
apply the next block. -/
theorem pruneBlocks_called_iff_due_witness :
    pruneTargets (newCalls (⟨⟨99, some "100", true⟩, [], 0, 0⟩ : Exec Demo.StubEngine)
      (processItem (Demo.faultyOps true false) Demo.lateEnv Demo.constants (Demo.pruneParams 7)
        ⟨100, 99, none⟩ 0 (Demo.item "101") ⟨⟨99, some "100", true⟩, [], 0, 0⟩).exec) = [58] ∧
    StartBlockSyncExecutor (Demo.faultyOps true false) Demo.lateEnv Demo.constants
        (Demo.pruneParams 7) 0
        [.item (Demo.item "100"), .item (Demo.item "101"), .item (Demo.item "102")]
        (Demo.stubAt 99) =
      (.awaitingItem,
        ⟨⟨101, some "102", true⟩,
          startupCalls ++ [Event.startBlockCollector 100 0 false,
            Event.applyBlock 100 none "100", Event.applyBlock 101 none "101",
            Event.pruneBlocks 58, Event.logError "failed to prune blocks",
            Event.applyBlock 102 none "102"], 0, 0⟩) :=
  ⟨((pruneBlocks_called_iff_due (Demo.faultyOps true false) Demo.lateEnv Demo.constants
      (Demo.pruneParams 7) ⟨100, 99, none⟩ 0 (Demo.item "101")
      ⟨⟨99, some "100", true⟩, [], 0, 0⟩
      ⟨⟨100, some "101", true⟩, [Event.applyBlock 101 none "101"], 0, 0⟩ 101
      rfl (by decide) rfl (by decide)).2.1 ⟨rfl, by decide⟩).trans (by decide),
    by decide⟩

theorem wrap_sub_wrap (a b : Int) : wrapInt64 (a - wrapInt64 b) = wrapInt64 (a - b) := by
  unfold wrapInt64
  omega

theorem wrapInt64_id (a : Int) (h1 : -9223372036854775808 ≤ a) (h2 : a < 9223372036854775808) :
    wrapInt64 a = a := by
  unfold wrapInt64
  omega

/-- The target of a prune when its computation stays within `int64`. -/
theorem pruneTarget_in_range (k : Constants) (p : Params) (H B : Int)
    (hlow : -9223372036854775808 ≤ H - k.SnapshotPruningWindowFactor * p.snapshotInterval)
    (hhigh : H - k.SnapshotPruningWindowFactor * p.snapshotInterval < 9223372036854775808) :
    pruneTarget k p H B = max (H - k.SnapshotPruningWindowFactor * p.snapshotInterval) B := by
  rw [pruneTarget_eq_max]
  unfold sub64 mul64
  rw [wrap_sub_wrap, wrapInt64_id _ hlow hhigh]

/-- A successful `PruneBlocks` of the cometbft-v38 adapter leaves the block store that the
library returned. -/
theorem cometbft_pruneBlocks_ok (plib : CometbftV38.PruneLib) (t : Int) (engine : Engine)
    (h : (CometbftV38.PruneBlocks plib t engine).1 = none) :
    ∃ n bs, plib.PruneBlocks engine.blockStore t engine.state = .ok (n, bs) ∧
      (CometbftV38.PruneBlocks plib t engine).2.blockStore = bs := by
  unfold CometbftV38.PruneBlocks at h ⊢
  cases hp : plib.PruneBlocks engine.blockStore t engine.state with
  | error e =>
    rw [hp] at h
    simp at h
  | ok r =>
    obtain ⟨n, bs⟩ := r
    refine ⟨n, bs, rfl, ?_⟩
    simp only []
    split
    · split <;> rfl
    · rfl

/-- C17, as the claim states it, fails: with `snapshot_interval = 2^61` the product
`6 * snapshot_interval` leaves the `int64` range and wraps to `-2^62`. At engine height
`H = 100` with base height `B = 1` the executor passes the target
`100 + 2^62 = 4611686018427388004` to `PruneBlocks`, which is greater than `H`. -/
theorem prune_target_above_engine_height :
    StartBlockSyncExecutor (Demo.ops Demo.noFaults) Demo.lateEnv Demo.constants
        (Demo.pruneParams 2305843009213693952) 0
        [.item (Demo.item "100"), .item (Demo.item "101")] (Demo.stubAt 99) =
      (.awaitingItem,
        ⟨⟨100, some "101", true⟩,
          startupCalls ++ [Event.startBlockCollector 100 0 false,
            Event.applyBlock 100 none "100", Event.applyBlock 101 none "101",
            Event.pruneBlocks 4611686018427388004], 0, 0⟩) ∧
    (Demo.ops Demo.noFaults).GetHeight ⟨100, some "101", true⟩ = 100 ∧
    (Demo.ops Demo.noFaults).GetBaseHeight ⟨100, some "101", true⟩ = 1 ∧
    (0 : Int) ≤ (Demo.pruneParams 2305843009213693952).snapshotInterval ∧
    ¬ ((4611686018427388004 : Int) ≤ 100) := by
  decide

/-- C17, amended: for every prune the executor issues at engine height `H` (an `int64`)
with base height `B <= H` and `snapshot_interval >= 0`, provided
`H - 6 * snapshot_interval` is not below the least `int64` value, `PruneBlocks` is called
once, with the target `t = max(H - 6 * snapshot_interval, B)`, and
`max(H - 6 * snapshot_interval, B) <= t <= H`. With the cometbft-v38 adapter, whose block
store library sets the base to the height it pruned to, a successful prune leaves the base
height `t`: at least `max(H - 6 * snapshot_interval, old_base)` and at most `H`. -/
theorem prune_target_within_window (k : Constants) (p : Params) (a : Int)
    (hdue : pruneDue k p a) (hW : k.SnapshotPruningWindowFactor = 6)
    (hi : 0 ≤ p.snapshotInterval) :
    (∀ (τ : Type) (ops : EngineOps τ) (x : Exec τ),
      ops.GetBaseHeight x.engine ≤ ops.GetHeight x.engine →
      ops.GetHeight x.engine < 9223372036854775808 →
      -9223372036854775808 ≤ ops.GetHeight x.engine - 6 * p.snapshotInterval →
      pruneTargets (newCalls x (prunePhase ops k p a x)) =
        [max (ops.GetHeight x.engine - 6 * p.snapshotInterval) (ops.GetBaseHeight x.engine)] ∧
      max (ops.GetHeight x.engine - 6 * p.snapshotInterval) (ops.GetBaseHeight x.engine) ≤
        pruneTarget k p (ops.GetHeight x.engine) (ops.GetBaseHeight x.engine) ∧
      pruneTarget k p (ops.GetHeight x.engine) (ops.GetBaseHeight x.engine) ≤
        ops.GetHeight x.engine) ∧
    (∀ (lib : CometbftV38.CometLib) (plib : CometbftV38.PruneLib)
      (query : Int → Engine → SnapshotQuery) (rest : EngineOps Engine) (x : Exec Engine),
      CometbftV38.GetBaseHeight x.engine ≤ CometbftV38.GetHeight x.engine →
      CometbftV38.GetHeight x.engine < 9223372036854775808 →
      -9223372036854775808 ≤ CometbftV38.GetHeight x.engine - 6 * p.snapshotInterval →
      (∀ bs t st n bs2, plib.PruneBlocks bs t st = .ok (n, bs2) → bs2.base = t) →
      (CometbftV38.PruneBlocks plib
        (pruneTarget k p (CometbftV38.GetHeight x.engine) (CometbftV38.GetBaseHeight x.engine))
        x.engine).1 = none →
      CometbftV38.GetBaseHeight
          (prunePhase (CometbftV38.engineOps lib plib k query rest) k p a x).engine =
        max (CometbftV38.GetHeight x.engine - 6 * p.snapshotInterval)
          (CometbftV38.GetBaseHeight x.engine) ∧
      max (CometbftV38.GetHeight x.engine - 6 * p.snapshotInterval)
          (CometbftV38.GetBaseHeight x.engine) ≤
        CometbftV38.GetBaseHeight
          (prunePhase (CometbftV38.engineOps lib plib k query rest) k p a x).engine ∧
      CometbftV38.GetBaseHeight
          (prunePhase (CometbftV38.engineOps lib plib k query rest) k p a x).engine ≤
        CometbftV38.GetHeight x.engine) := by
  have htarget : ∀ H B : Int, H < 9223372036854775808 →
      -9223372036854775808 ≤ H - 6 * p.snapshotInterval →
      pruneTarget k p H B = max (H - 6 * p.snapshotInterval) B := by
    intro H B hH hlow
    have := pruneTarget_in_range k p H B (by rw [hW]; exact hlow) (by rw [hW]; omega)
    rw [hW] at this
    exact this
  constructor
  · intro τ ops x hB hH hlow
    have ht := htarget (ops.GetHeight x.engine) (ops.GetBaseHeight x.engine) hH hlow
    obtain ⟨added, hadded, _, hd, _⟩ := pruneTargets_prunePhase ops k p a x
    refine ⟨?_, ?_, ?_⟩
    · rw [newCalls_eq _ hadded, hd hdue, ht]
    · rw [ht]
    · rw [ht]
      exact max_le (by omega) hB
  · intro lib plib query rest x hB hH hlow hlib hok
    have ht := htarget (CometbftV38.GetHeight x.engine) (CometbftV38.GetBaseHeight x.engine)
      hH hlow
    have hbase : CometbftV38.GetBaseHeight
        (prunePhase (CometbftV38.engineOps lib plib k query rest) k p a x).engine =
        pruneTarget k p (CometbftV38.GetHeight x.engine)
          (CometbftV38.GetBaseHeight x.engine) := by
      rw [prunePhase_due _ k p a x hdue]
      have hok2 : ((CometbftV38.engineOps lib plib k query rest).PruneBlocks
          (pruneTarget k p ((CometbftV38.engineOps lib plib k query rest).GetHeight x.engine)
            ((CometbftV38.engineOps lib plib k query rest).GetBaseHeight x.engine))
          x.engine).1 = none := hok
      rw [hok2]
      simp only []
      obtain ⟨n, bs, hp, hbs⟩ := cometbft_pruneBlocks_ok plib _ x.engine hok
      have hb2 : (CometbftV38.PruneBlocks plib
          (pruneTarget k p (CometbftV38.GetHeight x.engine)
            (CometbftV38.GetBaseHeight x.engine)) x.engine).2.blockStore.base =
          pruneTarget k p (CometbftV38.GetHeight x.engine)
            (CometbftV38.GetBaseHeight x.engine) := by
        rw [hbs]
        exact hlib _ _ _ _ _ hp
      exact hb2
    rw [hbase, ht]
    exact ⟨rfl, le_refl _, max_le (by omega) hB⟩

theorem Demo.pruneLib_base (bs : BlockStore) (t : Int) (st : State) (n : Nat)
    (bs2 : BlockStore) (h : Demo.pruneLib.PruneBlocks bs t st = .ok (n, bs2)) :
    bs2.base = t := by
  simp only [Demo.pruneLib] at h
  split_ifs at h
  cases h
  rfl

/-- Witness for the amended C17: at store height 100 with base 1 and a snapshot every 7
blocks the target is `max(100 - 42, 1) = 58`, and the successful prune of the cometbft-v38
adapter leaves the base height 58. -/
theorem prune_target_within_window_witness :
    pruneDue Demo.constants (Demo.pruneParams 7) 100 ∧
    pruneTargets (newCalls (⟨Demo.engineAt100, [], 0, 0⟩ : Exec Engine)
      (prunePhase (CometbftV38.engineOps Demo.cometLib Demo.pruneLib Demo.constants
        Demo.noSnapshots Demo.restOps) Demo.constants (Demo.pruneParams 7) 100
        ⟨Demo.engineAt100, [], 0, 0⟩)) = [58] ∧
    CometbftV38.GetBaseHeight
      (prunePhase (CometbftV38.engineOps Demo.cometLib Demo.pruneLib Demo.constants
        Demo.noSnapshots Demo.restOps) Demo.constants (Demo.pruneParams 7) 100
        ⟨Demo.engineAt100, [], 0, 0⟩).engine = 58 :=
  ⟨⟨rfl, by decide⟩,
    ((prune_target_within_window Demo.constants (Demo.pruneParams 7) 100 ⟨rfl, by decide⟩ rfl
      (by decide)).1 Engine
      (CometbftV38.engineOps Demo.cometLib Demo.pruneLib Demo.constants Demo.noSnapshots
        Demo.restOps) ⟨Demo.engineAt100, [], 0, 0⟩ (by decide) (by decide)
      (by decide)).1.trans (by decide),
    ((prune_target_within_window Demo.constants (Demo.pruneParams 7) 100 ⟨rfl, by decide⟩ rfl
      (by decide)).2 Demo.cometLib Demo.pruneLib Demo.noSnapshots Demo.restOps
      ⟨Demo.engineAt100, [], 0, 0⟩ (by decide) (by decide) (by decide) Demo.pruneLib_base
      rfl).1.trans (by decide)⟩

/-! ## The backup step -/

theorem backupPhase_skip (ops : EngineOps σ) (env : Collaborators) (p : Params) (a : Int)
    (x : Exec σ) (h : ¬ backupDue p a) : backupPhase ops env p a x = (none, x) := by
  unfold backupPhase
  cases hcfg : p.backupCfg with
  | none => rfl
  | some cfg =>
    simp only []
    rw [if_neg]
    intro hc
    exact h ⟨cfg, hcfg, hc⟩

/-- The backup step when it is due and the chain id cannot be obtained: after the grace
period and the `GetChainId` call the executor returns an error. -/
theorem backupPhase_chainId_error (ops : EngineOps σ) (env : Collaborators) (p : Params)
    (a : Int) (x : Exec σ) (e : Err) (h : backupDue p a)
    (herr : (ops.GetChainId x.engine).1 = .error e) :
    backupPhase ops env p a x =
      (some (Err.msg "failed to get chain id from genesis: %!w(MISSING)"),
        { x with
          engine := (ops.GetChainId x.engine).2
          trace := x.trace ++ [Event.sleep 15, Event.getChainId] }) := by
  obtain ⟨cfg, hcfg, hc⟩ := h
  unfold backupPhase
  rw [hcfg]
  simp only []
  rw [if_pos hc]
  simp only [Exec.emit]
  rw [herr]
  simp

/-- The backup step when it is due and the chain id is obtained: after the grace period
and the `GetChainId` call, `CreateBackup` is called once; its failure adds a log line. -/
theorem backupPhase_made (ops : EngineOps σ) (env : Collaborators) (p : Params)
    (a : Int) (x : Exec σ) (chainId : String) (h : backupDue p a)
    (hok : (ops.GetChainId x.engine).1 = .ok chainId) :
    backupPhase ops env p a x =
      (none,
        match env.CreateBackup chainId a false with
        | some _ =>
          { x with
            engine := (ops.GetChainId x.engine).2
            trace := x.trace ++ [Event.sleep 15, Event.getChainId,
              Event.createBackup chainId a false, Event.logError "failed to create backup"] }
        | none =>
          { x with
            engine := (ops.GetChainId x.engine).2
            trace := x.trace ++ [Event.sleep 15, Event.getChainId,
              Event.createBackup chainId a false] }) := by
  obtain ⟨cfg, hcfg, hc⟩ := h
  unfold backupPhase
  rw [hcfg]
  simp only []
  rw [if_pos hc]
  simp only [Exec.emit]
  rw [hok]
  simp only []
  split <;> simp

/-- The calls of an item past the first, split at the backup step: what precedes it (the
`ApplyBlock` call, the snapshot step and the pruning step), its own calls, and what follows
it (backpressure and the stop at the target height). -/
theorem processItem_backup_calls (ops : EngineOps σ) (env : Collaborators) (k : Constants)
    (p : Params) (v : LoopVars) (fuel : Nat) (item : DataItem) (x y : Exec σ) (h : Int)
    (hkey : env.ParseBlockHeightFromKey item.Key = .ok h)
    (hne : h ≠ v.continuationHeight)
    (happ : (ops.ApplyBlock v.runtime item.Value x.engine).1 = none)
    (hsnap : snapshotPhase ops env p v fuel (sub64 h 1) (afterApply ops v h item x) =
      .finished y) :
    ∃ before made tail,
      (prunePhase ops k p (sub64 h 1) y).trace = x.trace ++ before ∧
      backupCalls before = [] ∧
      (backupPhase ops env p (sub64 h 1) (prunePhase ops k p (sub64 h 1) y)).2.trace =
        (prunePhase ops k p (sub64 h 1) y).trace ++ made ∧
      newCalls x (processItem ops env k p v fuel item x).exec = before ++ (made ++ tail) ∧
      backupCalls tail = [] ∧
      (∀ ev ∈ tail, ev.inTail = true) ∧
      ((backupPhase ops env p (sub64 h 1) (prunePhase ops k p (sub64 h 1) y)).1 = none →
        processItem ops env k p v fuel item x =
          afterBackup ops env k p fuel h
            (backupPhase ops env p (sub64 h 1) (prunePhase ops k p (sub64 h 1) y)).2) ∧
      (∀ err,
        (backupPhase ops env p (sub64 h 1) (prunePhase ops k p (sub64 h 1) y)).1 = some err →
        processItem ops env k p v fuel item x =
          .done (some err)
            (backupPhase ops env p (sub64 h 1) (prunePhase ops k p (sub64 h 1) y)).2) := by
  obtain ⟨hproc, snap, pruned, _, hy, hz, _, _, hsnapAll, hprunedAll, _, _, _⟩ :=
    processItem_calls ops env k p v fuel item x y h hkey hne happ hsnap
  obtain ⟨made, hmade, _⟩ :=
    adds_backupPhase ops env p (sub64 h 1) (prunePhase ops k p (sub64 h 1) y)
  have hbefore : (prunePhase ops k p (sub64 h 1) y).trace =
      x.trace ++ (Event.applyBlock h v.runtime item.Value :: (snap ++ pruned)) := by
    rw [hz, hy]
    simp
  have hnone : backupCalls (Event.applyBlock h v.runtime item.Value :: (snap ++ pruned)) = [] := by
    change backupCalls ([Event.applyBlock h v.runtime item.Value] ++ (snap ++ pruned)) = []
    rw [backupCalls_append, backupCalls_append, backupCalls_eq_nil _ snap hsnapAll,
      backupCalls_eq_nil _ pruned hprunedAll]
    · rfl
    · intro ev c a b hev
      cases ev <;> simp_all [Event.inPrune]
    · intro ev c a b hev
      cases ev <;> simp_all [Event.inSnapshotStep]
  unfold afterPrune at hproc
  generalize backupPhase ops env p (sub64 h 1) (prunePhase ops k p (sub64 h 1) y) = bw
    at hmade hproc ⊢
  obtain ⟨r, w⟩ := bw
  simp only [] at hmade
  cases r with
  | some err =>
    simp only [] at hproc
    refine ⟨_, made, [], hbefore, hnone, hmade, ?_, rfl, by simp, ?_, ?_⟩
    · apply newCalls_eq
      rw [hproc]
      simp only [Step.exec]
      rw [hmade, hbefore]
      simp
    · intro hcontra
      simp at hcontra
    · intro err2 herr2
      simp only [Option.some.injEq] at herr2
      rw [← herr2]
      exact hproc
  | none =>
    simp only [] at hproc
    obtain ⟨tail, htail, htailAll⟩ := adds_afterBackup ops env k p fuel h w
    refine ⟨_, made, tail, hbefore, hnone, hmade, ?_, ?_, htailAll, fun _ => hproc, ?_⟩
    · apply newCalls_eq
      rw [hproc, htail, hmade, hbefore]
      simp
    · apply backupCalls_eq_nil _ tail htailAll
      intro ev c a b hev
      cases ev <;> simp_all [Event.inTail]
    · intro err herr
      simp at herr

/-- C18, as the claim states it, fails: a backup is configured for every third block and
the item at height 4 applies height 3, so the condition of the claim holds; the chain id
cannot be obtained, and `CreateBackup` is not invoked. -/
theorem createBackup_missing_without_chain_id :
    backupDue Demo.backupParams (4 - 1) ∧
    backupCalls (StartBlockSyncExecutor (Demo.faultyOps false true) Demo.env Demo.constants
      Demo.backupParams 0 [.item (Demo.item "3"), .item (Demo.item "4")]
      (Demo.stubAt 2)).2.trace = [] ∧
    (StartBlockSyncExecutor (Demo.faultyOps false true) Demo.env Demo.constants
      Demo.backupParams 0 [.item (Demo.item "3"), .item (Demo.item "4")]
      (Demo.stubAt 2)).2.trace =
      startupCalls ++ [Event.startBlockCollector 3 0 true, Event.applyBlock 3 none "3",
        Event.applyBlock 4 none "4", Event.sleep 15, Event.getChainId] :=
  ⟨⟨⟨3⟩, rfl, by decide, by decide⟩, by decide, by decide⟩

/-- C18, amended: for every item at height `h` past the first (its key parses to `h`, `h`
is not the continuation height, `ApplyBlock` succeeds and the snapshot step has ended),
`CreateBackup` is invoked if and only if a backup configuration is present with
`interval > 0`, `(h - 1) % interval = 0` and `GetChainId` succeeds. It is then invoked
exactly once, with the chain id that `GetChainId` returned, the height `h - 1` and
`is_final = false`: its call follows the calls of the pruning step, the grace period and
`GetChainId`, and the backpressure check of the item starts from the state the backup step
left. When the condition fails or `GetChainId` fails, `CreateBackup` is not invoked. -/
theorem createBackup_called_iff_due_and_chain_id (ops : EngineOps σ) (env : Collaborators)
    (k : Constants) (p : Params) (v : LoopVars) (fuel : Nat) (item : DataItem)
    (x y : Exec σ) (h : Int)
    (hkey : env.ParseBlockHeightFromKey item.Key = .ok h)
    (hne : h ≠ v.continuationHeight)
    (happ : (ops.ApplyBlock v.runtime item.Value x.engine).1 = none)
    (hsnap : snapshotPhase ops env p v fuel (sub64 h 1) (afterApply ops v h item x) =
      .finished y) :
    (¬ backupDue p (sub64 h 1) →
      backupCalls (newCalls x (processItem ops env k p v fuel item x).exec) = []) ∧
    (∀ e, (ops.GetChainId (prunePhase ops k p (sub64 h 1) y).engine).1 = .error e →
      backupCalls (newCalls x (processItem ops env k p v fuel item x).exec) = []) ∧
    (backupDue p (sub64 h 1) →
      ∀ chainId, (ops.GetChainId (prunePhase ops k p (sub64 h 1) y).engine).1 = .ok chainId →
        backupCalls (newCalls x (processItem ops env k p v fuel item x).exec) =
          [(chainId, sub64 h 1, false)] ∧
        (∃ log tail,
          newCalls x (processItem ops env k p v fuel item x).exec =
            newCalls x (prunePhase ops k p (sub64 h 1) y) ++
              ([Event.sleep 15, Event.getChainId,
                Event.createBackup chainId (sub64 h 1) false] ++ (log ++ tail)) ∧
          (∀ ev ∈ log, ev = Event.logError "failed to create backup") ∧
          (∀ ev ∈ tail, ev.inTail = true)) ∧
        processItem ops env k p v fuel item x =
          afterBackup ops env k p fuel h
            (backupPhase ops env p (sub64 h 1) (prunePhase ops k p (sub64 h 1) y)).2) := by
  obtain ⟨before, made, tail, hbefore, hbnil, hmade, hnew, htnil, htail, hnone, _⟩ :=
    processItem_backup_calls ops env k p v fuel item x y h hkey hne happ hsnap
  have hcalls : backupCalls (newCalls x (processItem ops env k p v fuel item x).exec) =
      backupCalls made := by
    rw [hnew, backupCalls_append, backupCalls_append, hbnil, htnil]
    simp
  have hskip : ¬ backupDue p (sub64 h 1) →
      backupCalls (newCalls x (processItem ops env k p v fuel item x).exec) = [] := by
    intro hd
    rw [backupPhase_skip ops env p (sub64 h 1) _ hd] at hmade
    have hm : made = [] := by
      have := List.append_cancel_left (hmade.symm.trans (List.append_nil _).symm)
      exact this
    rw [hcalls, hm]
    rfl
  refine ⟨hskip, ?_, ?_⟩
  · intro e herr
    by_cases hd : backupDue p (sub64 h 1)
    · rw [backupPhase_chainId_error ops env p (sub64 h 1) _ e hd herr] at hmade
      have hm : made = [Event.sleep 15, Event.getChainId] :=
        (List.append_cancel_left hmade).symm
      rw [hcalls, hm]
      rfl
    · exact hskip hd
  · intro hd chainId hok
    have hphase := backupPhase_made ops env p (sub64 h 1) _ chainId hd hok
    have hfst : (backupPhase ops env p (sub64 h 1) (prunePhase ops k p (sub64 h 1) y)).1 =
        none := by
      rw [hphase]
    have hm : ∃ log, made = [Event.sleep 15, Event.getChainId,
        Event.createBackup chainId (sub64 h 1) false] ++ log ∧
        ∀ ev ∈ log, ev = Event.logError "failed to create backup" := by
      rw [hphase] at hmade
      cases hcb : env.CreateBackup chainId (sub64 h 1) false with
      | some e =>
        rw [hcb] at hmade
        exact ⟨[Event.logError "failed to create backup"],
          (List.append_cancel_left hmade).symm, by simp⟩
      | none =>
        rw [hcb] at hmade
        exact ⟨[], (List.append_cancel_left hmade).symm, by simp⟩
    obtain ⟨log, hlog, hlogAll⟩ := hm
    have hlognil : backupCalls log = [] := by
      apply backupCalls_eq_nil (fun ev => decide (ev = Event.logError "failed to create backup"))
      · intro ev hev
        simp [hlogAll ev hev]
      · intro ev c a b hev
        simp only [decide_eq_true_eq] at hev
        rw [hev]
        simp
    refine ⟨?_, ⟨log, tail, ?_, hlogAll, htail⟩, hnone hfst⟩
    · rw [hcalls, hlog, backupCalls_append, hlognil]
      rfl
    · rw [hnew, newCalls_eq _ hbefore, hlog]
      simp

/-- Witness for the amended C18: with a backup every third block, the item at height 4
applies height 3 and `CreateBackup` is invoked once, with `("demo", 3, false)`. -/
theorem createBackup_called_iff_due_and_chain_id_witness :
    backupDue Demo.backupParams (sub64 4 1) ∧
    backupCalls (newCalls (⟨⟨2, some "3", true⟩, [], 0, 0⟩ : Exec Demo.StubEngine)
      (processItem (Demo.ops Demo.noFaults) Demo.env Demo.constants Demo.backupParams
        ⟨3, 2, none⟩ 0 (Demo.item "4") ⟨⟨2, some "3", true⟩, [], 0, 0⟩).exec) =
      [("demo", 3, false)] :=
  ⟨⟨⟨3⟩, rfl, by decide, by decide⟩,
    (((createBackup_called_iff_due_and_chain_id (Demo.ops Demo.noFaults) Demo.env
      Demo.constants Demo.backupParams ⟨3, 2, none⟩ 0 (Demo.item "4")
      ⟨⟨2, some "3", true⟩, [], 0, 0⟩
      ⟨⟨3, some "4", true⟩, [Event.applyBlock 4 none "4"], 0, 0⟩ 4
      rfl (by decide) rfl (by decide)).2.2 ⟨⟨3⟩, rfl, by decide, by decide⟩ "demo" rfl).1).trans
      (by decide)⟩

/-- C19, as the claim states it, fails: a backup is due after height 6, the chain id cannot
be obtained, and the executor returns an error instead of going on; the backpressure and
target-height checks of the item are not reached and the next item is not taken. -/
theorem chain_id_failure_ends_run :
    StartBlockSyncExecutor (Demo.faultyOps false true) Demo.env Demo.constants
        Demo.backupParams 0
        [.item (Demo.item "6"), .item (Demo.item "7"), .item (Demo.item "8")]
        (Demo.stubAt 5) =
      (.returned (some (Err.msg "failed to get chain id from genesis: %!w(MISSING)")),
        ⟨⟨6, some "7", true⟩,
          startupCalls ++ [Event.startBlockCollector 6 0 true, Event.applyBlock 6 none "6",
            Event.applyBlock 7 none "7", Event.sleep 15, Event.getChainId], 0, 0⟩) := by
  decide

/-- C19, amended: in the backup step of an item past the first, a failure of
`CreateBackup` is only logged: the executor continues with the backpressure and
target-height checks of the same item, from the state in which the failure was logged. A
failure of `GetChainId` is not: the executor returns an error right after that call, without
calling `CreateBackup` and without the backpressure and target-height checks. -/
theorem backup_failure_logged_chain_id_failure_returned (ops : EngineOps σ)
    (env : Collaborators) (k : Constants) (p : Params) (v : LoopVars) (fuel : Nat)
    (item : DataItem) (x y : Exec σ) (h : Int)
    (hkey : env.ParseBlockHeightFromKey item.Key = .ok h)
    (hne : h ≠ v.continuationHeight)
    (happ : (ops.ApplyBlock v.runtime item.Value x.engine).1 = none)
    (hsnap : snapshotPhase ops env p v fuel (sub64 h 1) (afterApply ops v h item x) =
      .finished y)
    (hdue : backupDue p (sub64 h 1)) :
    (∀ chainId e,
      (ops.GetChainId (prunePhase ops k p (sub64 h 1) y).engine).1 = .ok chainId →
      env.CreateBackup chainId (sub64 h 1) false = some e →
      processItem ops env k p v fuel item x =
        afterBackup ops env k p fuel h
          { prunePhase ops k p (sub64 h 1) y with
            engine := (ops.GetChainId (prunePhase ops k p (sub64 h 1) y).engine).2
            trace := (prunePhase ops k p (sub64 h 1) y).trace ++
              [Event.sleep 15, Event.getChainId,
               Event.createBackup chainId (sub64 h 1) false,
               Event.logError "failed to create backup"] }) ∧
    (∀ e, (ops.GetChainId (prunePhase ops k p (sub64 h 1) y).engine).1 = .error e →
      processItem ops env k p v fuel item x =
        .done (some (Err.msg "failed to get chain id from genesis: %!w(MISSING)"))
          { prunePhase ops k p (sub64 h 1) y with
            engine := (ops.GetChainId (prunePhase ops k p (sub64 h 1) y).engine).2
            trace := (prunePhase ops k p (sub64 h 1) y).trace ++
              [Event.sleep 15, Event.getChainId] } ∧
      ∀ rest, (mainLoop ops env k p v fuel (.item item :: rest) x).1 =
        .returned (some (Err.msg "failed to get chain id from genesis: %!w(MISSING)"))) := by
  obtain ⟨_, _, _, _, _, _, _, _, _, hnone, hsome⟩ :=
    processItem_backup_calls ops env k p v fuel item x y h hkey hne happ hsnap
  constructor
  · intro chainId e hok hfail
    have hphase := backupPhase_made ops env p (sub64 h 1) _ chainId hdue hok
    rw [hfail] at hphase
    have := hnone (by rw [hphase])
    rw [hphase] at this
    exact this
  · intro e herr
    have hphase := backupPhase_chainId_error ops env p (sub64 h 1) _ e hdue herr
    have hstep := hsome _ (by rw [hphase])
    rw [hphase] at hstep
    refine ⟨hstep, ?_⟩
    intro rest
    unfold mainLoop
    rw [hstep]

/-- Witness for the amended C19: the backup after height 3 fails; the failure is logged and
the item ends like any other, so that the next item is taken. -/
theorem backup_failure_logged_chain_id_failure_returned_witness :
    backupDue Demo.backupParams (sub64 4 1) ∧
    Demo.failingBackupEnv.CreateBackup "demo" (sub64 4 1) false =
      some (Err.msg "failed to compress directory") ∧
    processItem (Demo.ops Demo.noFaults) Demo.failingBackupEnv Demo.constants
        Demo.backupParams ⟨3, 2, none⟩ 0 (Demo.item "4") ⟨⟨2, some "3", true⟩, [], 0, 0⟩ =
      .next ⟨⟨3, some "4", true⟩,
        [Event.applyBlock 4 none "4", Event.sleep 15, Event.getChainId,
          Event.createBackup "demo" 3 false, Event.logError "failed to create backup"],
        0, 0⟩ :=
  ⟨⟨⟨3⟩, rfl, by decide, by decide⟩, rfl,
    ((backup_failure_logged_chain_id_failure_returned (Demo.ops Demo.noFaults)
      Demo.failingBackupEnv Demo.constants Demo.backupParams ⟨3, 2, none⟩ 0 (Demo.item "4")
      ⟨⟨2, some "3", true⟩, [], 0, 0⟩
      ⟨⟨3, some "4", true⟩, [Event.applyBlock 4 none "4"], 0, 0⟩ 4
      rfl (by decide) rfl (by decide) ⟨⟨3⟩, rfl, by decide, by decide⟩).1 "demo"
      (Err.msg "failed to compress directory") rfl rfl).trans (by decide)⟩

/-! ## The first item of a run -/

theorem waitForSnapshot_engine (ops : EngineOps σ) (a : Int) (fuel : Nat) (x : Exec σ)
    (hfix : ∀ height engine, (ops.IsSnapshotAvailable height engine).2 = engine) :
    (waitForSnapshot ops a fuel x).exec.engine = x.engine := by
  induction fuel generalizing x with
  | zero => rfl
  | succ n ih =>
    unfold waitForSnapshot
    simp only []
    split
    · rw [ih]
      simp [Exec.emit, hfix]
    · rw [ih]
      simp [Exec.emit, hfix]
    · simp [Wait.exec, hfix]

theorem snapshotPhase_engine (ops : EngineOps σ) (env : Collaborators) (p : Params)
    (v : LoopVars) (fuel : Nat) (a : Int) (x : Exec σ)
    (hfix : ∀ height engine, (ops.IsSnapshotAvailable height engine).2 = engine) :
    (snapshotPhase ops env p v fuel a x).exec.engine = x.engine := by
  unfold snapshotPhase
  split
  · have h := waitForSnapshot_engine ops a fuel x hfix
    cases hw : waitForSnapshot ops a fuel x with
    | finished y =>
      rw [hw] at h
      exact h
    | pending y =>
      rw [hw] at h
      exact h
  · rfl

/-- A successful `ApplyBlock` of the cometbft-v38 adapter on an empty buffer changes the
buffer only. -/
theorem cometbft_first_applyBlock (lib : CometbftV38.CometLib) (k : Constants)
    (runtime : Option String) (value : String) (engine : Engine)
    (hprev : engine.prevBlock = none)
    (hok : (CometbftV38.ApplyBlock lib k runtime value engine).err = none) :
    ∃ b, (CometbftV38.ApplyBlock lib k runtime value engine).engine =
      { engine with prevBlock := some b } := by
  unfold CometbftV38.ApplyBlock at hok ⊢
  cases hdec : CometbftV38.decodeBlock lib k runtime value with
  | error e =>
    rw [hdec] at hok
    simp at hok
  | ok b =>
    refine ⟨b, ?_⟩
    simp only [hprev]

/-- A successful `ApplyBlock` of the celestia-core-v34 adapter on an empty buffer changes
the buffer only. -/
theorem celestia_first_applyBlock (lib : CelestiaCoreV34.CelestiaLib) (k : Constants)
    (runtime : Option String) (value : String) (engine : Engine)
    (hprev : engine.prevBlock = none)
    (hok : (CelestiaCoreV34.ApplyBlock lib k runtime value engine).err = none) :
    ∃ b, (CelestiaCoreV34.ApplyBlock lib k runtime value engine).engine =
      { engine with prevBlock := some b } := by
  unfold CelestiaCoreV34.ApplyBlock at hok ⊢
  cases hdec : CelestiaCoreV34.decodeBlock lib k runtime value with
  | error e =>
    rw [hdec] at hok
    simp at hok
  | ok b =>
    refine ⟨b, ?_⟩
    simp only [hprev]

/-- The item at the continuation height: after `ApplyBlock` and the snapshot step the next
item is taken. -/
theorem processItem_first (ops : EngineOps σ) (env : Collaborators) (k : Constants)
    (p : Params) (v : LoopVars) (fuel : Nat) (item : DataItem) (x : Exec σ)
    (hkey : env.ParseBlockHeightFromKey item.Key = .ok v.continuationHeight)
    (happ : (ops.ApplyBlock v.runtime item.Value x.engine).1 = none) :
    processItem ops env k p v fuel item x =
      match snapshotPhase ops env p v fuel (sub64 v.continuationHeight 1)
        (afterApply ops v v.continuationHeight item x) with
      | .pending y => .waiting y
      | .finished y => .next y := by
  rw [processItem_apply_ok ops env k p v fuel item x v.continuationHeight hkey happ]
  cases snapshotPhase ops env p v fuel (sub64 v.continuationHeight 1)
      (afterApply ops v v.continuationHeight item x) with
  | pending y => rfl
  | finished y => simp

theorem processItem_first_exec (ops : EngineOps σ) (env : Collaborators) (k : Constants)
    (p : Params) (v : LoopVars) (fuel : Nat) (item : DataItem) (x : Exec σ)
    (hkey : env.ParseBlockHeightFromKey item.Key = .ok v.continuationHeight)
    (happ : (ops.ApplyBlock v.runtime item.Value x.engine).1 = none) :
    (processItem ops env k p v fuel item x).exec =
      (snapshotPhase ops env p v fuel (sub64 v.continuationHeight 1)
        (afterApply ops v v.continuationHeight item x)).exec := by
  rw [processItem_first ops env k p v fuel item x hkey happ]
  cases snapshotPhase ops env p v fuel (sub64 v.continuationHeight 1)
      (afterApply ops v v.continuationHeight item x) <;> rfl

/-- C20: for the item whose key parses to the continuation height and whose `ApplyBlock`
succeeds, the executor calls `ApplyBlock`, runs the snapshot step and takes the next item:
it makes no `PruneBlocks`, `GetChainId`, `CreateBackup` or `StopProxyApp` call, and neither
the backpressure check nor the target-height check is evaluated (when no snapshot is due
the `ApplyBlock` call is the only call). With either adapter as the engine and an empty
buffer, that `ApplyBlock` call changes the buffer only, and `GetHeight` after the item
equals `GetHeight` before it. -/
theorem first_item_only_buffers (env : Collaborators) (k : Constants) (p : Params)
    (v : LoopVars) (fuel : Nat) (item : DataItem)
    (hkey : env.ParseBlockHeightFromKey item.Key = .ok v.continuationHeight) :
    (∀ (τ : Type) (ops : EngineOps τ) (x : Exec τ),
      (ops.ApplyBlock v.runtime item.Value x.engine).1 = none →
      (processItem ops env k p v fuel item x =
        match snapshotPhase ops env p v fuel (sub64 v.continuationHeight 1)
          (afterApply ops v v.continuationHeight item x) with
        | .pending y => .waiting y
        | .finished y => .next y) ∧
      (∃ snap, newCalls x (processItem ops env k p v fuel item x).exec =
          Event.applyBlock v.continuationHeight v.runtime item.Value :: snap ∧
        ∀ ev ∈ snap, ev.inSnapshotStep = true) ∧
      pruneTargets (newCalls x (processItem ops env k p v fuel item x).exec) = [] ∧
      backupCalls (newCalls x (processItem ops env k p v fuel item x).exec) = [] ∧
      Event.getChainId ∉ newCalls x (processItem ops env k p v fuel item x).exec ∧
      stopCalls (newCalls x (processItem ops env k p v fuel item x).exec) = 0 ∧
      (¬ snapshotDue p v (sub64 v.continuationHeight 1) →
        processItem ops env k p v fuel item x =
          .next (afterApply ops v v.continuationHeight item x))) ∧
    (∀ (ops : EngineOps Engine) (clib : CometbftV38.CometLib) (plib : CometbftV38.PruneLib)
      (tlib : CelestiaCoreV34.CelestiaLib) (query : Int → Engine → SnapshotQuery)
      (rest : EngineOps Engine) (x : Exec Engine),
      (ops = CometbftV38.engineOps clib plib k query rest ∨
        ops = CelestiaCoreV34.engineOps tlib k query rest) →
      x.engine.prevBlock = none →
      (ops.ApplyBlock v.runtime item.Value x.engine).1 = none →
      (∃ b, (processItem ops env k p v fuel item x).exec.engine =
        { x.engine with prevBlock := some b }) ∧
      ops.GetHeight (processItem ops env k p v fuel item x).exec.engine =
        ops.GetHeight x.engine) := by
  constructor
  · intro τ ops x happ
    have hfirst := processItem_first ops env k p v fuel item x hkey happ
    have hexec := processItem_first_exec ops env k p v fuel item x hkey happ
    obtain ⟨snap, hsnap, hsnapAll⟩ := adds_snapshotPhase ops env p v fuel
      (sub64 v.continuationHeight 1) (afterApply ops v v.continuationHeight item x)
    have hnew : newCalls x (processItem ops env k p v fuel item x).exec =
        Event.applyBlock v.continuationHeight v.runtime item.Value :: snap := by
      apply newCalls_eq
      rw [hexec, hsnap]
      simp [afterApply]
    refine ⟨hfirst, ⟨snap, hnew, hsnapAll⟩, ?_, ?_, ?_, ?_, ?_⟩
    · rw [hnew]
      change pruneTargets ([Event.applyBlock v.continuationHeight v.runtime item.Value] ++ snap)
        = []
      rw [pruneTargets_append, pruneTargets_eq_nil _ snap hsnapAll]
      · rfl
      · intro ev t hev
        cases ev <;> simp_all [Event.inSnapshotStep]
    · rw [hnew]
      change backupCalls ([Event.applyBlock v.continuationHeight v.runtime item.Value] ++ snap)
        = []
      rw [backupCalls_append, backupCalls_eq_nil _ snap hsnapAll]
      · rfl
      · intro ev c a b hev
        cases ev <;> simp_all [Event.inSnapshotStep]
    · rw [hnew]
      intro hmem
      rcases List.mem_cons.1 hmem with h | h
      · cases h
      · have := hsnapAll _ h
        simp [Event.inSnapshotStep] at this
    · rw [hnew]
      unfold stopCalls
      rw [List.count_eq_zero]
      intro hmem
      rcases List.mem_cons.1 hmem with h | h
      · cases h
      · have := hsnapAll _ h
        simp [Event.inSnapshotStep] at this
    · intro hdue
      rw [hfirst, snapshotPhase_skip ops env p v fuel _ _ hdue]
  · intro ops clib plib tlib query rest x hops hprev happ
    have hexec := processItem_first_exec ops env k p v fuel item x hkey happ
    have hfix : ∀ height engine, (ops.IsSnapshotAvailable height engine).2 = engine := by
      intro height engine
      rcases hops with h | h <;> rw [h] <;> rfl
    have heng : (processItem ops env k p v fuel item x).exec.engine =
        (ops.ApplyBlock v.runtime item.Value x.engine).2 := by
      rw [hexec, snapshotPhase_engine ops env p v fuel _ _ hfix]
      rfl
    have hbuf : ∃ b, (ops.ApplyBlock v.runtime item.Value x.engine).2 =
        { x.engine with prevBlock := some b } := by
      rcases hops with h | h
      · rw [h] at happ ⊢
        exact cometbft_first_applyBlock clib k v.runtime item.Value x.engine hprev happ
      · rw [h] at happ ⊢
        exact celestia_first_applyBlock tlib k v.runtime item.Value x.engine hprev happ
    obtain ⟨b, hb⟩ := hbuf
    refine ⟨⟨b, by rw [heng, hb]⟩, ?_⟩
    rw [heng, hb]
    rcases hops with h | h <;> rw [h] <;> rfl

/-- Witness for C20: the cometbft-v38 adapter at store height 4 with an empty buffer
receives the item at the continuation height 5; afterwards its height is still 4, and the
`ApplyBlock` call was the only call. -/
theorem first_item_only_buffers_witness :
    Demo.engineAt4.prevBlock = none ∧
    (CometbftV38.engineOps Demo.cometLib Demo.pruneLib Demo.constants Demo.noSnapshots
      Demo.restOps).GetHeight
      (processItem (CometbftV38.engineOps Demo.cometLib Demo.pruneLib Demo.constants
        Demo.noSnapshots Demo.restOps) Demo.env Demo.constants (Demo.params 0) ⟨5, 4, none⟩ 0
        (Demo.item "5") ⟨Demo.engineAt4, [], 0, 0⟩).exec.engine = 4 ∧
    processItem (CometbftV38.engineOps Demo.cometLib Demo.pruneLib Demo.constants
        Demo.noSnapshots Demo.restOps) Demo.env Demo.constants (Demo.params 0) ⟨5, 4, none⟩ 0
        (Demo.item "5") ⟨Demo.engineAt4, [], 0, 0⟩ =
      .next (afterApply (CometbftV38.engineOps Demo.cometLib Demo.pruneLib Demo.constants
        Demo.noSnapshots Demo.restOps) ⟨5, 4, none⟩ 5 (Demo.item "5")
        ⟨Demo.engineAt4, [], 0, 0⟩) :=
  ⟨rfl,
    (((first_item_only_buffers Demo.env Demo.constants (Demo.params 0) ⟨5, 4, none⟩ 0
      (Demo.item "5") rfl).2
      (CometbftV38.engineOps Demo.cometLib Demo.pruneLib Demo.constants Demo.noSnapshots
        Demo.restOps) Demo.cometLib Demo.pruneLib Demo.celestiaLib Demo.noSnapshots Demo.restOps
      ⟨Demo.engineAt4, [], 0, 0⟩ (Or.inl rfl) rfl (by decide)).2).trans (by decide),
    ((first_item_only_buffers Demo.env Demo.constants (Demo.params 0) ⟨5, 4, none⟩ 0
      (Demo.item "5") rfl).1 Engine
      (CometbftV38.engineOps Demo.cometLib Demo.pruneLib Demo.constants Demo.noSnapshots
        Demo.restOps) ⟨Demo.engineAt4, [], 0, 0⟩ (by decide)).2.2.2.2.2.2
      (by unfold snapshotDue; decide)⟩

/-! ## The decoding head of ApplyBlock -/

theorem cometbft_applyBlock_of_decode (lib : CometbftV38.CometLib) (k : Constants)
    (runtime runtime2 : Option String) (value value2 : String) (engine : Engine)
    (h : CometbftV38.decodeBlock lib k runtime value =
      CometbftV38.decodeBlock lib k runtime2 value2) :
    CometbftV38.ApplyBlock lib k runtime value engine =
      CometbftV38.ApplyBlock lib k runtime2 value2 engine := by
  unfold CometbftV38.ApplyBlock
  rw [h]

theorem celestia_applyBlock_of_decode (lib : CelestiaCoreV34.CelestiaLib) (k : Constants)
    (runtime runtime2 : Option String) (value value2 : String) (engine : Engine)
    (h : CelestiaCoreV34.decodeBlock lib k runtime value =
      CelestiaCoreV34.decodeBlock lib k runtime2 value2) :
    CelestiaCoreV34.ApplyBlock lib k runtime value engine =
      CelestiaCoreV34.ApplyBlock lib k runtime2 value2 engine := by
  unfold CelestiaCoreV34.ApplyBlock
  rw [h]

/-- C21: in both adapters the decoder of `ApplyBlock` is chosen by the runtime tag alone:
for a nil tag the block of the decoded `BlockResponse`, for the Tendermint tag the block of
the decoded wrapper, for the TendermintBsync tag the value decoded as a block; every other
tag gives an error. The engine and the value enter `ApplyBlock` only through the decoded
block, and when the tag is unknown or the value fails to decode, `ApplyBlock` returns the
error, calls nothing in the consensus library and leaves the engine, with its buffer and
its state, as it was. -/
theorem applyBlock_decoder_by_runtime (clib : CometbftV38.CometLib)
    (tlib : CelestiaCoreV34.CelestiaLib) (k : Constants) (value : String) (engine : Engine)
    (hdistinct : k.KSyncRuntimeTendermint ≠ k.KSyncRuntimeTendermintBsync) :
    (CometbftV38.decodeBlock clib k none value =
        (clib.UnmarshalBlockResponse value).mapError
          (Err.wrap "failed to unmarshal block response") ∧
      CometbftV38.decodeBlock clib k (some k.KSyncRuntimeTendermint) value =
        (clib.UnmarshalTendermintValue value).mapError (Err.wrap "failed to unmarshal value") ∧
      CometbftV38.decodeBlock clib k (some k.KSyncRuntimeTendermintBsync) value =
        (clib.UnmarshalBlock value).mapError (Err.wrap "failed to unmarshal value") ∧
      (∀ tag, tag ≠ k.KSyncRuntimeTendermint → tag ≠ k.KSyncRuntimeTendermintBsync →
        ∃ e, CometbftV38.decodeBlock clib k (some tag) value = .error e) ∧
      (∀ runtime e, CometbftV38.decodeBlock clib k runtime value = .error e →
        CometbftV38.ApplyBlock clib k runtime value engine = ⟨some e, engine, []⟩) ∧
      (∀ runtime runtime2 value2,
        CometbftV38.decodeBlock clib k runtime value =
          CometbftV38.decodeBlock clib k runtime2 value2 →
        CometbftV38.ApplyBlock clib k runtime value engine =
          CometbftV38.ApplyBlock clib k runtime2 value2 engine)) ∧
    (CelestiaCoreV34.decodeBlock tlib k none value =
        (tlib.UnmarshalBlockResponse value).mapError
          (Err.wrap "failed to unmarshal block response") ∧
      CelestiaCoreV34.decodeBlock tlib k (some k.KSyncRuntimeTendermint) value =
        (tlib.UnmarshalTendermintValue value).mapError (Err.wrap "failed to unmarshal value") ∧
      CelestiaCoreV34.decodeBlock tlib k (some k.KSyncRuntimeTendermintBsync) value =
        (tlib.UnmarshalBlock value).mapError (Err.wrap "failed to unmarshal value") ∧
      (∀ tag, tag ≠ k.KSyncRuntimeTendermint → tag ≠ k.KSyncRuntimeTendermintBsync →
        ∃ e, CelestiaCoreV34.decodeBlock tlib k (some tag) value = .error e) ∧
      (∀ runtime e, CelestiaCoreV34.decodeBlock tlib k runtime value = .error e →
        CelestiaCoreV34.ApplyBlock tlib k runtime value engine = ⟨some e, engine, []⟩) ∧
      (∀ runtime runtime2 value2,
        CelestiaCoreV34.decodeBlock tlib k runtime value =
          CelestiaCoreV34.decodeBlock tlib k runtime2 value2 →
        CelestiaCoreV34.ApplyBlock tlib k runtime value engine =
          CelestiaCoreV34.ApplyBlock tlib k runtime2 value2 engine)) := by
  refine ⟨⟨?_, ?_, ?_, ?_, ?_, ?_⟩, ⟨?_, ?_, ?_, ?_, ?_, ?_⟩⟩
  · unfold CometbftV38.decodeBlock
    cases clib.UnmarshalBlockResponse value <;> rfl
  · unfold CometbftV38.decodeBlock
    simp only [if_true]
    cases clib.UnmarshalTendermintValue value <;> rfl
  · unfold CometbftV38.decodeBlock
    simp only [if_neg (Ne.symm hdistinct), if_true]
    cases clib.UnmarshalBlock value <;> rfl
  · intro tag h1 h2
    unfold CometbftV38.decodeBlock
    simp only [if_neg h1, if_neg h2]
    exact ⟨_, rfl⟩
  · intro runtime e h
    unfold CometbftV38.ApplyBlock
    rw [h]
  · intro runtime runtime2 value2 h
    exact cometbft_applyBlock_of_decode clib k runtime runtime2 value value2 engine h
  · unfold CelestiaCoreV34.decodeBlock
    cases tlib.UnmarshalBlockResponse value <;> rfl
  · unfold CelestiaCoreV34.decodeBlock
    simp only [if_true]
    cases tlib.UnmarshalTendermintValue value <;> rfl
  · unfold CelestiaCoreV34.decodeBlock
    simp only [if_neg (Ne.symm hdistinct), if_true]
    cases tlib.UnmarshalBlock value <;> rfl
  · intro tag h1 h2
    unfold CelestiaCoreV34.decodeBlock
    simp only [if_neg h1, if_neg h2]
    exact ⟨_, rfl⟩
  · intro runtime e h
    unfold CelestiaCoreV34.ApplyBlock
    rw [h]
  · intro runtime runtime2 value2 h
    exact celestia_applyBlock_of_decode tlib k runtime runtime2 value value2 engine h

/-- Witness for C21: the tag "@kyvejs/other" is unknown, and a malformed value does not
decode; both calls return an error and leave the engine with block 5 buffered as it was. -/
theorem applyBlock_decoder_by_runtime_witness :
    Demo.constants.KSyncRuntimeTendermint ≠ Demo.constants.KSyncRuntimeTendermintBsync ∧
    CometbftV38.ApplyBlock Demo.cometLib Demo.constants (some "@kyvejs/other") "6"
        Demo.engineAt4Buffered5 =
      ⟨some (Err.msg "runtime unknown"), Demo.engineAt4Buffered5, []⟩ ∧
    CelestiaCoreV34.ApplyBlock Demo.celestiaLib Demo.constants none "not a block"
        Demo.engineAt4Buffered5 =
      ⟨some (Err.wrap "failed to unmarshal block response" (Err.msg "invalid character")),
        Demo.engineAt4Buffered5, []⟩ :=
  ⟨by decide,
    (applyBlock_decoder_by_runtime Demo.cometLib Demo.celestiaLib Demo.constants "6"
      Demo.engineAt4Buffered5 (by decide)).1.2.2.2.2.1 (some "@kyvejs/other") _ (by decide),
    (applyBlock_decoder_by_runtime Demo.cometLib Demo.celestiaLib Demo.constants "not a block"
      Demo.engineAt4Buffered5 (by decide)).2.2.2.2.2.1 none _ (by decide)⟩

/-! ## ApplyBlock and the handshake -/

/-- C22, as the claim states it, fails: on an engine on which no method was called, so that
`DoHandshake` has not completed (no proxy app, no block executor, databases not open),
`ApplyBlock` with a value that decodes returns `nil` and buffers the block, in both
adapters. -/
theorem applyBlock_accepted_without_handshake :
    (newEngine (.ok 1)).blockExecutor = none ∧
    (newEngine (.ok 1)).proxyApp = none ∧
    (newEngine (.ok 1)).areDBsOpen = false ∧
    CometbftV38.ApplyBlock Demo.cometLib Demo.constants none "5" (newEngine (.ok 1)) =
      ⟨none, { newEngine (.ok 1) with prevBlock := some (Demo.block 5) }, []⟩ ∧
    CelestiaCoreV34.ApplyBlock Demo.celestiaLib Demo.constants none "5" (newEngine (.ok 1)) =
      ⟨none, { newEngine (.ok 1) with prevBlock := some (Demo.block 5) }, []⟩ := by
  refine ⟨rfl, rfl, rfl, ?_, ?_⟩
  · have h : CometbftV38.decodeBlock Demo.cometLib Demo.constants none "5" =
        .ok (Demo.block 5) := by decide
    unfold CometbftV38.ApplyBlock
    rw [h]
    rfl
  · have h : CelestiaCoreV34.decodeBlock Demo.celestiaLib Demo.constants none "5" =
        .ok (Demo.block 5) := by decide
    unfold CelestiaCoreV34.ApplyBlock
    rw [h]
    rfl

/-- What `DoHandshake` of the cometbft-v38 adapter does to the block executor and to the
buffer. -/
theorem cometbft_doHandshake_executor (hlib : CometbftV38.HandshakeLib) (engine : Engine) :
    ((CometbftV38.DoHandshake hlib engine).1 = none →
      (CometbftV38.DoHandshake hlib engine).2.blockExecutor ≠ none) ∧
    ((CometbftV38.DoHandshake hlib engine).1 ≠ none →
      (CometbftV38.DoHandshake hlib engine).2.blockExecutor = engine.blockExecutor) ∧
    (CometbftV38.DoHandshake hlib engine).2.prevBlock = engine.prevBlock := by
  unfold CometbftV38.DoHandshake
  cases hlib.LoadFromDBOrGenesisDoc engine.stateDB engine.genDoc with
  | error e => simp
  | ok st =>
    simp only []
    cases hlib.CreateAndStartEventBus with
    | error e => simp
    | ok bus =>
      simp only []
      cases hlib.DoHandshake engine.stateStore st engine.blockStore engine.genDoc bus
          engine.proxyApp with
      | mk r ss =>
        cases r with
        | some e => simp
        | none =>
          simp only []
          cases hlib.Load ss with
          | error e => simp
          | ok st2 =>
            simp only []
            cases hlib.CreateEvidenceReactor engine.config ss engine.blockStore with
            | error e => simp
            | ok pool => simp

/-- C22, amended: `ApplyBlock` makes no check of the life cycle of the engine. On every
engine with an empty buffer, whether `DoHandshake` has completed or not, a call whose
value decodes returns `nil` and buffers the block without a call into the consensus
library, and the outcome is the same whatever the fields `blockExecutor`, `proxyApp` and
`areDBsOpen` hold; in both adapters. `DoHandshake` of the cometbft-v38 adapter sets the
block executor exactly when it completes and never touches the buffer, so the order
"handshake before the first block" is kept by the caller alone. -/
theorem applyBlock_ignores_handshake (clib : CometbftV38.CometLib)
    (tlib : CelestiaCoreV34.CelestiaLib) (hlib : CometbftV38.HandshakeLib) (k : Constants)
    (runtime : Option String) (value : String) (engine : Engine)
    (hprev : engine.prevBlock = none) :
    (∀ b, CometbftV38.decodeBlock clib k runtime value = .ok b →
      ∀ (executor proxyApp : Option Nat) (areOpen : Bool),
        CometbftV38.ApplyBlock clib k runtime value
            { engine with blockExecutor := executor, proxyApp := proxyApp,
                          areDBsOpen := areOpen } =
          ⟨none,
            { engine with blockExecutor := executor, proxyApp := proxyApp,
                          areDBsOpen := areOpen, prevBlock := some b }, []⟩) ∧
    (∀ b, CelestiaCoreV34.decodeBlock tlib k runtime value = .ok b →
      ∀ (executor proxyApp : Option Nat) (areOpen : Bool),
        CelestiaCoreV34.ApplyBlock tlib k runtime value
            { engine with blockExecutor := executor, proxyApp := proxyApp,
                          areDBsOpen := areOpen } =
          ⟨none,
            { engine with blockExecutor := executor, proxyApp := proxyApp,
                          areDBsOpen := areOpen, prevBlock := some b }, []⟩) ∧
    ((CometbftV38.DoHandshake hlib engine).1 = none →
      (CometbftV38.DoHandshake hlib engine).2.blockExecutor ≠ none) ∧
    ((CometbftV38.DoHandshake hlib engine).1 ≠ none →
      (CometbftV38.DoHandshake hlib engine).2.blockExecutor = engine.blockExecutor) ∧
    (CometbftV38.DoHandshake hlib engine).2.prevBlock = none := by
  refine ⟨?_, ?_, ?_, ?_, ?_⟩
  · intro b hdec executor proxyApp areOpen
    unfold CometbftV38.ApplyBlock
    rw [hdec]
    simp only [hprev]
  · intro b hdec executor proxyApp areOpen
    unfold CelestiaCoreV34.ApplyBlock
    rw [hdec]
    simp only [hprev]
  · exact (cometbft_doHandshake_executor hlib engine).1
  · exact (cometbft_doHandshake_executor hlib engine).2.1
  · rw [(cometbft_doHandshake_executor hlib engine).2.2, hprev]

/-- Witness for the amended C22: the engine on which no method was called buffers block 5,
and the handshake of the example completes with a block executor. -/
theorem applyBlock_ignores_handshake_witness :
    (newEngine (.ok 1)).prevBlock = none ∧
    CometbftV38.ApplyBlock Demo.cometLib Demo.constants none "5"
        { newEngine (.ok 1) with blockExecutor := none, proxyApp := none,
                                  areDBsOpen := false } =
      ⟨none,
        { newEngine (.ok 1) with blockExecutor := none, proxyApp := none,
                                  areDBsOpen := false, prevBlock := some (Demo.block 5) },
        []⟩ ∧
    (CometbftV38.DoHandshake Demo.handshakeLib (newEngine (.ok 1))).2.blockExecutor ≠ none :=
  ⟨rfl,
    (applyBlock_ignores_handshake Demo.cometLib Demo.celestiaLib Demo.handshakeLib
      Demo.constants none "5" (newEngine (.ok 1)) rfl).1 (Demo.block 5) (by decide)
      none none false,
    (applyBlock_ignores_handshake Demo.cometLib Demo.celestiaLib Demo.handshakeLib
      Demo.constants none "5" (newEngine (.ok 1)) rfl).2.2.1 rfl⟩

/-! ## Choice of the engine -/

/-- The loop over upgrades listed by ascending height ends with the engine of the last
upgrade whose height is not above the continuation height. -/
theorem selectUpgrade_sorted (parseInt : String → Except Err Int) (height : Upgrade → Int)
    (c : Int) (upgrades : List Upgrade) (engine : String)
    (hparse : ∀ u ∈ upgrades, parseInt u.Height = .ok (height u))
    (hsorted : upgrades.Pairwise (fun a b => height a ≤ height b)) :
    ∃ r, selectUpgrade parseInt c upgrades engine = .ok r ∧
      ((∀ u ∈ upgrades, c < height u) → r = engine) ∧
      ((∃ u ∈ upgrades, height u ≤ c) →
        ∃ u ∈ upgrades, height u ≤ c ∧
          (∀ w ∈ upgrades, height w ≤ c → height w ≤ height u) ∧ r = u.Engine) := by
  induction upgrades generalizing engine with
  | nil =>
    refine ⟨engine, rfl, fun _ => rfl, ?_⟩
    rintro ⟨u, hu, _⟩
    cases hu
  | cons u rest ih =>
    have hu := hparse u (List.mem_cons_self _ _)
    have hrest : ∀ w ∈ rest, parseInt w.Height = .ok (height w) :=
      fun w hw => hparse w (List.mem_cons_of_mem _ hw)
    obtain ⟨hfirst, hsortedRest⟩ := List.pairwise_cons.1 hsorted
    unfold selectUpgrade
    rw [hu]
    simp only []
    by_cases hlt : c < height u
    · rw [if_pos hlt]
      refine ⟨engine, rfl, fun _ => rfl, ?_⟩
      rintro ⟨w, hw, hwc⟩
      rcases List.mem_cons.1 hw with h | h
      · rw [h] at hwc
        omega
      · have := hfirst w h
        omega
    · rw [if_neg hlt]
      obtain ⟨r, hr, hnone, hsome⟩ := ih u.Engine hrest hsortedRest
      refine ⟨r, hr, ?_, ?_⟩
      · intro hall
        exact absurd (hall u (List.mem_cons_self _ _)) hlt
      · intro _
        by_cases hex : ∃ w ∈ rest, height w ≤ c
        · obtain ⟨w, hw, hwc, hmax, hrw⟩ := hsome hex
          refine ⟨w, List.mem_cons_of_mem _ hw, hwc, ?_, hrw⟩
          intro z hz hzc
          rcases List.mem_cons.1 hz with h | h
          · rw [h]
            exact hfirst w hw
          · exact hmax z h hzc
        · have hall : ∀ w ∈ rest, c < height w := by
            intro w hw
            by_contra hn
            exact hex ⟨w, hw, by omega⟩
          refine ⟨u, List.mem_cons_self _ _, by omega, ?_, hnone hall⟩
          intro z hz hzc
          rcases List.mem_cons.1 hz with h | h
          · rw [h]
          · have := hall z h
            omega

/-- C23, as the claim states it, fails for upgrades that are not listed by ascending
height. With the continuation height 7 and the upgrades (5, cometbft-v37),
(2, tendermint-v34), the greatest height not above 7 is 5, and the factory takes the tag of
the upgrade at height 2; with the upgrades (8, cometbft-v38), (2, tendermint-v34) the
upgrade at height 2 qualifies, and the factory keeps the empty name of the default
engine. -/
theorem engineSourceFactory_unsorted_upgrades :
    sourceEngineName
        (Demo.registry [⟨"5", "cometbft-v37"⟩, ⟨"2", "tendermint-v34"⟩]) "" "registry" "kyve" 7 =
      .ok "tendermint-v34" ∧
    EngineSourceFactory Demo.names
        (Demo.registry [⟨"5", "cometbft-v37"⟩, ⟨"2", "tendermint-v34"⟩]) "" "registry" "kyve" 7 =
      .ok (some .tendermintV34) ∧
    sourceEngineName
        (Demo.registry [⟨"8", "cometbft-v38"⟩, ⟨"2", "tendermint-v34"⟩]) "" "registry" "kyve" 7 =
      .ok "" := by
  decide

/-- C23, amended: when an engine is given or the source is empty, `EngineSourceFactory`
returns the engine for the given name whatever the registry holds. When no engine is given
and a source is given, for upgrades whose heights parse and that are listed by ascending
height, it returns the engine for the tag of an upgrade with the greatest height that is
`<= continuation_height`, and the default engine (cometbft-v38) when no upgrade height is
`<= continuation_height`. -/
theorem engineSourceFactory_selects_last_reached (names : EngineNames) (lib : RegistryLib)
    (engine registryUrl source : String) (c : Int) :
    (engine ≠ "" ∨ source = "" →
      ∀ (lib2 : RegistryLib) (url2 : String),
        EngineSourceFactory names lib2 engine url2 source c =
          .ok (EngineFactory names engine)) ∧
    (engine = "" → source ≠ "" →
      ∀ (upgrades : List Upgrade) (height : Upgrade → Int),
        lib.GetSourceRegistryEntry registryUrl source = .ok upgrades →
        (∀ u ∈ upgrades, lib.ParseInt u.Height = .ok (height u)) →
        upgrades.Pairwise (fun a b => height a ≤ height b) →
        ((∀ u ∈ upgrades, c < height u) →
          EngineSourceFactory names lib engine registryUrl source c =
            .ok (some .cometbftV38)) ∧
        ((∃ u ∈ upgrades, height u ≤ c) →
          ∃ u ∈ upgrades, height u ≤ c ∧
            (∀ w ∈ upgrades, height w ≤ c → height w ≤ height u) ∧
            EngineSourceFactory names lib engine registryUrl source c =
              .ok (EngineFactory names u.Engine))) := by
  constructor
  · intro h lib2 url2
    unfold EngineSourceFactory sourceEngineName
    rw [if_pos h]
  · intro he hs upgrades height hreg hparse hsorted
    have hname : sourceEngineName lib engine registryUrl source c =
        selectUpgrade lib.ParseInt c upgrades engine := by
      unfold sourceEngineName
      rw [if_neg, hreg]
      rintro (h | h)
      · exact h he
      · exact hs h
    obtain ⟨r, hr, hnone, hsome⟩ :=
      selectUpgrade_sorted lib.ParseInt height c upgrades engine hparse hsorted
    constructor
    · intro hall
      unfold EngineSourceFactory
      rw [hname, hr, hnone hall, he]
      rfl
    · intro hex
      obtain ⟨u, hu, huc, hmax, hru⟩ := hsome hex
      refine ⟨u, hu, huc, hmax, ?_⟩
      unfold EngineSourceFactory
      rw [hname, hr, hru]

/-- The heights of the upgrades of the example. -/
theorem Demo.parse_upgrade_heights :
    ∀ u ∈ [(⟨"2", "tendermint-v34"⟩ : Upgrade), ⟨"5", "cometbft-v37"⟩, ⟨"8", "cometbft-v38"⟩],
      (Demo.registry [⟨"2", "tendermint-v34"⟩, ⟨"5", "cometbft-v37"⟩,
        ⟨"8", "cometbft-v38"⟩]).ParseInt u.Height =
        .ok (match Demo.parseKey u.Height with
          | .ok h => h
          | .error _ => 0) := by
  decide

/-- Witness for the amended C23: with the upgrades at heights 2, 5 and 8 and the
continuation height 7, the engine of the upgrade at height 5 is created; with a given
engine name the registry plays no part. -/
theorem engineSourceFactory_selects_last_reached_witness :
    (∃ u ∈ [(⟨"2", "tendermint-v34"⟩ : Upgrade), ⟨"5", "cometbft-v37"⟩, ⟨"8", "cometbft-v38"⟩],
      EngineSourceFactory Demo.names
        (Demo.registry [⟨"2", "tendermint-v34"⟩, ⟨"5", "cometbft-v37"⟩, ⟨"8", "cometbft-v38"⟩])
        "" "registry" "kyve" 7 = .ok (EngineFactory Demo.names u.Engine)) ∧
    EngineSourceFactory Demo.names
        (Demo.registry [⟨"2", "tendermint-v34"⟩, ⟨"5", "cometbft-v37"⟩, ⟨"8", "cometbft-v38"⟩])
        "" "registry" "kyve" 7 = .ok (some .cometbftV37) ∧
    EngineSourceFactory Demo.names (Demo.registry []) "celestia-core-v34" "registry" "kyve" 7 =
      .ok (some .celestiaCoreV34) := by
  have h := (engineSourceFactory_selects_last_reached Demo.names
    (Demo.registry [⟨"2", "tendermint-v34"⟩, ⟨"5", "cometbft-v37"⟩, ⟨"8", "cometbft-v38"⟩])
    "" "registry" "kyve" 7).2 rfl (by decide)
    [⟨"2", "tendermint-v34"⟩, ⟨"5", "cometbft-v37"⟩, ⟨"8", "cometbft-v38"⟩]
    (fun u => match Demo.parseKey u.Height with
      | .ok h => h
      | .error _ => 0)
    rfl Demo.parse_upgrade_heights (by decide)
  obtain ⟨u, hu, _, _, hres⟩ := h.2 ⟨⟨"2", "tendermint-v34"⟩, by decide, by decide⟩
  exact ⟨⟨u, hu, hres⟩, by decide,
    ((engineSourceFactory_selects_last_reached Demo.names (Demo.registry [])
      "celestia-core-v34" "registry" "kyve" 7).1 (Or.inl (by decide)) (Demo.registry [])
      "registry").trans (by decide)⟩

/-! ## IsSnapshotAvailable -/

theorem uint64_nonneg (h : Int) (h0 : 0 ≤ h) (h1 : h < 9223372036854775808) :
    (uint64 h : Int) = h := by
  unfold uint64
  rw [Int.toNat_of_nonneg (Int.emod_nonneg _ (by decide))]
  omega

theorem uint64_negative (h : Int) (h0 : h < 0) (h1 : -9223372036854775808 ≤ h) :
    (uint64 h : Int) = 18446744073709551616 + h := by
  unfold uint64
  rw [Int.toNat_of_nonneg (Int.emod_nonneg _ (by decide))]
  omega

/-- C24, as the claim states it, fails: the application lists a snapshot at height
`2^64 - 1`, and `IsSnapshotAvailable(-1)` returns true, because the height is converted
with `uint64(height)`. -/
theorem isSnapshotAvailable_true_for_negative_height :
    IsSnapshotAvailable ⟨none, .ok [18446744073709551615], none⟩ (-1) = .ok true ∧
    ¬ ((18446744073709551615 : Int) = -1) := by
  decide

/-- C24, amended: `IsSnapshotAvailable(h)` returns an error if and only if the ABCI client
fails to start, to list the snapshots or to stop. Otherwise it returns true if and only if
the list contains a snapshot whose height is `uint64(h)`: for `h >= 0` that is a snapshot
at exactly `h`; for a negative `h` it is a snapshot at `2^64 + h`, so the result is false
for every negative `h` when all listed heights are below `2^63`. -/
theorem isSnapshotAvailable_matches_uint64 (query : SnapshotQuery) (h : Int)
    (hlow : -9223372036854775808 ≤ h) (hhigh : h < 9223372036854775808) :
    ((∃ e, IsSnapshotAvailable query h = .error e) ↔
      (query.start ≠ none ∨ (∃ e, query.listSnapshots = .error e) ∨ query.stop ≠ none)) ∧
    (∀ snapshots, query.start = none → query.listSnapshots = .ok snapshots →
      query.stop = none →
      (IsSnapshotAvailable query h = .ok true ∨ IsSnapshotAvailable query h = .ok false) ∧
      (IsSnapshotAvailable query h = .ok true ↔ uint64 h ∈ snapshots) ∧
      (0 ≤ h → (IsSnapshotAvailable query h = .ok true ↔ ∃ s ∈ snapshots, (s : Int) = h)) ∧
      (h < 0 → (IsSnapshotAvailable query h = .ok true ↔
        ∃ s ∈ snapshots, (s : Int) = 18446744073709551616 + h)) ∧
      (h < 0 → (∀ s ∈ snapshots, s < 9223372036854775808) →
        IsSnapshotAvailable query h = .ok false)) := by
  constructor
  · unfold IsSnapshotAvailable
    cases hs : query.start with
    | some e => simp
    | none =>
      cases hl : query.listSnapshots with
      | error e => simp
      | ok snapshots =>
        cases hp : query.stop with
        | some e => simp
        | none => simp
  · intro snapshots hs hl hp
    have hval : IsSnapshotAvailable query h =
        .ok (snapshots.any fun snapshotHeight => decide (snapshotHeight = uint64 h)) := by
      unfold IsSnapshotAvailable
      rw [hs, hl, hp]
    have hmem : IsSnapshotAvailable query h = .ok true ↔ uint64 h ∈ snapshots := by
      rw [hval]
      constructor
      · intro ht
        have ht2 := Except.ok.inj ht
        rw [List.any_eq_true] at ht2
        obtain ⟨s, hsm, hse⟩ := ht2
        rw [decide_eq_true_eq] at hse
        rw [← hse]
        exact hsm
      · intro hm
        have : (snapshots.any fun snapshotHeight => decide (snapshotHeight = uint64 h)) = true := by
          rw [List.any_eq_true]
          exact ⟨uint64 h, hm, by simp⟩
        rw [this]
    refine ⟨?_, hmem, ?_, ?_, ?_⟩
    · rw [hval]
      cases (snapshots.any fun snapshotHeight => decide (snapshotHeight = uint64 h))
      · exact Or.inr rfl
      · exact Or.inl rfl
    · intro h0
      rw [hmem]
      have hu := uint64_nonneg h h0 hhigh
      constructor
      · intro hm
        exact ⟨uint64 h, hm, hu⟩
      · rintro ⟨s, hsm, hse⟩
        have : s = uint64 h := by omega
        rw [← this]
        exact hsm
    · intro h0
      rw [hmem]
      have hu := uint64_negative h h0 hlow
      constructor
      · intro hm
        exact ⟨uint64 h, hm, hu⟩
      · rintro ⟨s, hsm, hse⟩
        have : s = uint64 h := by omega
        rw [← this]
        exact hsm
    · intro h0 hsmall
      have hu := uint64_negative h h0 hlow
      have hnot : ¬ uint64 h ∈ snapshots := by
        intro hm
        have := hsmall _ hm
        omega
      rw [hval]
      have : (snapshots.any fun snapshotHeight => decide (snapshotHeight = uint64 h)) = false := by
        rw [List.any_eq_false]
        intro s hsm
        simp only [decide_eq_true_eq]
        intro hse
        rw [hse] at hsm
        exact hnot hsm
      rw [this]

/-- Witness for the amended C24: the application lists snapshots at heights 2 and 4; the
snapshot at height 4 is found, and nothing is found for height -1. -/
theorem isSnapshotAvailable_matches_uint64_witness :
    IsSnapshotAvailable ⟨none, .ok [2, 4], none⟩ 4 = .ok true ∧
    IsSnapshotAvailable ⟨none, .ok [2, 4], none⟩ (-1) = .ok false :=
  ⟨((isSnapshotAvailable_matches_uint64 ⟨none, .ok [2, 4], none⟩ 4 (by decide)
      (by decide)).2 [2, 4] rfl rfl rfl).2.2.1 (by decide) |>.2 ⟨4, by decide, by decide⟩,
    ((isSnapshotAvailable_matches_uint64 ⟨none, .ok [2, 4], none⟩ (-1) (by decide)
      (by decide)).2 [2, 4] rfl rfl rfl).2.2.2.2 (by decide) (by decide)⟩

/-! ## The life cycle of the adapters -/

/-- C25: in both adapters, `StartProxyApp` on an engine whose proxy app is started returns
an error and leaves the engine unchanged; `StopProxyApp` on an engine whose proxy app is
not started returns an error and leaves the engine unchanged; after a `StartProxyApp` and a
`StopProxyApp` that both succeed the proxy app is unset, and a further `StartProxyApp`
succeeds whenever the connections can be created; a `StopProxyApp` that fails leaves the
engine unchanged, with its proxy app set. -/
theorem proxyApp_start_stop_guarded (lib lib2 lib3 : LifecycleLib) (engine : Engine) :
    (∀ app, engine.proxyApp = some app →
      StartProxyApp lib engine = (some (Err.msg "proxy app already started"), engine)) ∧
    (engine.proxyApp = none →
      StopProxyApp lib engine = (some (Err.msg "proxy app already stopped"), engine)) ∧
    ((StartProxyApp lib engine).1 = none →
      (StartProxyApp lib engine).2.proxyApp ≠ none ∧
      ((StopProxyApp lib2 (StartProxyApp lib engine).2).1 = none →
        (StopProxyApp lib2 (StartProxyApp lib engine).2).2.proxyApp = none ∧
        ∀ app,
          lib3.CreateAndStartProxyAppConns
            (StopProxyApp lib2 (StartProxyApp lib engine).2).2.config = .ok app →
          StartProxyApp lib3 (StopProxyApp lib2 (StartProxyApp lib engine).2).2 =
            (none,
              { (StopProxyApp lib2 (StartProxyApp lib engine).2).2 with
                proxyApp := some app }))) ∧
    (∀ e, (StopProxyApp lib engine).1 = some e → (StopProxyApp lib engine).2 = engine) ∧
    (∀ app e, engine.proxyApp = some app → lib.StopProxyApp app = some e →
      StopProxyApp lib engine = (some e, engine)) ∧
    (∀ e, (StartProxyApp lib engine).1 = some e → (StartProxyApp lib engine).2 = engine) := by
  have hstopNone : ∀ (l : LifecycleLib) (s : Engine), (StopProxyApp l s).1 = none →
      (StopProxyApp l s).2.proxyApp = none := by
    intro l s h
    unfold StopProxyApp at h ⊢
    cases hp : s.proxyApp with
    | none =>
      rw [hp] at h
      simp at h
    | some app =>
      rw [hp] at h
      simp only [] at h ⊢
      cases hs : l.StopProxyApp app with
      | some e =>
        rw [hs] at h
        simp at h
      | none => rfl
  have hstartFresh : ∀ (l : LifecycleLib) (s : Engine) (app : Nat), s.proxyApp = none →
      l.CreateAndStartProxyAppConns s.config = .ok app →
      StartProxyApp l s = (none, { s with proxyApp := some app }) := by
    intro l s app hp hc
    unfold StartProxyApp
    rw [hp]
    simp only []
    rw [hc]
  refine ⟨?_, ?_, ?_, ?_, ?_, ?_⟩
  · intro app h
    unfold StartProxyApp
    rw [h]
  · intro h
    unfold StopProxyApp
    rw [h]
  · intro hstart
    constructor
    · unfold StartProxyApp at hstart ⊢
      cases hp : engine.proxyApp with
      | some app =>
        rw [hp] at hstart
        simp at hstart
      | none =>
        rw [hp] at hstart
        simp only [] at hstart ⊢
        cases hc : lib.CreateAndStartProxyAppConns engine.config with
        | error e =>
          rw [hc] at hstart
          simp at hstart
        | ok app => simp
    · intro hstop
      have hnone := hstopNone lib2 _ hstop
      refine ⟨hnone, ?_⟩
      intro app happ
      exact hstartFresh lib3 _ app hnone happ
  · intro e h
    unfold StopProxyApp at h ⊢
    cases hp : engine.proxyApp with
    | none => rfl
    | some app =>
      rw [hp] at h
      simp only [] at h ⊢
      cases hs : lib.StopProxyApp app with
      | some e2 => rfl
      | none =>
        rw [hs] at h
        simp at h
  · intro app e hp hs
    unfold StopProxyApp
    rw [hp]
    simp only []
    rw [hs]
  · intro e h
    unfold StartProxyApp at h ⊢
    cases hp : engine.proxyApp with
    | some app => rfl
    | none =>
      rw [hp] at h
      simp only [] at h ⊢
      cases hc : lib.CreateAndStartProxyAppConns engine.config with
      | error e2 => rfl
      | ok app =>
        rw [hc] at h
        simp at h

/-- Witness for C25: on a new engine `StopProxyApp` is refused; after a start and a stop
that succeed the proxy app is unset; a stop that fails leaves it set. -/
theorem proxyApp_start_stop_guarded_witness :
    StopProxyApp (Demo.lifecycle false false false false) (newEngine (.ok 1)) =
      (some (Err.msg "proxy app already stopped"), newEngine (.ok 1)) ∧
    (StopProxyApp (Demo.lifecycle false false false false)
      (StartProxyApp (Demo.lifecycle false false false false) (newEngine (.ok 1))).2).2.proxyApp =
      none ∧
    StopProxyApp (Demo.lifecycle false false false true) Demo.engineAt4 =
      (some (Err.msg "already stopped"), Demo.engineAt4) :=
  ⟨(proxyApp_start_stop_guarded (Demo.lifecycle false false false false)
      (Demo.lifecycle false false false false) (Demo.lifecycle false false false false)
      (newEngine (.ok 1))).2.1 rfl,
    (((proxyApp_start_stop_guarded (Demo.lifecycle false false false false)
      (Demo.lifecycle false false false false) (Demo.lifecycle false false false false)
      (newEngine (.ok 1))).2.2.1 (by decide)).2 (by decide)).1,
    (proxyApp_start_stop_guarded (Demo.lifecycle false false false true)
      (Demo.lifecycle false false false false) (Demo.lifecycle false false false false)
      Demo.engineAt4).2.2.2.2.1 0 (Err.msg "already stopped") rfl (by decide)⟩

theorem loadConfig_flag (lib : LifecycleLib) (engine : Engine) :
    (LoadConfig lib engine).2.areDBsOpen = engine.areDBsOpen := by
  unfold LoadConfig
  cases engine.config with
  | some c => rfl
  | none =>
    simp only []
    cases lib.LoadConfig <;> rfl

/-- The open flag after `OpenDBs`: set when the call returned `nil`, as before when it
returned an error. -/
theorem openDBs_flag (lib : LifecycleLib) (engine : Engine) :
    ((OpenDBs lib engine).1 = none → (OpenDBs lib engine).2.areDBsOpen = true) ∧
    (∀ e, (OpenDBs lib engine).1 = some e →
      (OpenDBs lib engine).2.areDBsOpen = false ∧ engine.areDBsOpen = false) := by
  unfold OpenDBs
  cases hopen : engine.areDBsOpen with
  | true => simp [hopen]
  | false =>
    simp only [Bool.false_eq_true, if_false]
    have hcfg := loadConfig_flag lib engine
    cases hl : LoadConfig lib engine with
    | mk r e1 =>
      rw [hl] at hcfg
      simp only [] at hcfg
      rw [hopen] at hcfg
      cases r with
      | some err => simp [hcfg]
      | none =>
        simp only []
        cases lib.FormatGenesisFile e1.config with
        | some err => simp [hcfg]
        | none =>
          simp only []
          cases lib.GenesisDocProvider e1.config with
          | error err => simp [hcfg]
          | ok genDoc =>
            simp only []
            cases lib.LoadValidatorKey e1.config with
            | error err => simp [hcfg]
            | ok key =>
              simp only []
              cases lib.GetBlockstoreDBs e1.config with
              | error err => simp [hcfg]
              | ok bdb =>
                obtain ⟨blockDB, blockStore⟩ := bdb
                simp only []
                cases lib.GetStateDBs e1.config with
                | error err => simp [hcfg]
                | ok sdb =>
                  obtain ⟨stateDB, stateStore⟩ := sdb
                  simp

/-- The open flag after `CloseDBs`: cleared when the call returned `nil`; a call that
returned an error has left the engine as it was, with the flag set. -/
theorem closeDBs_flag (lib : LifecycleLib) (engine : Engine) :
    ((CloseDBs lib engine).1 = none → (CloseDBs lib engine).2.areDBsOpen = false) ∧
    (∀ e, (CloseDBs lib engine).1 = some e →
      (CloseDBs lib engine).2 = engine ∧ engine.areDBsOpen = true) := by
  unfold CloseDBs
  cases hopen : engine.areDBsOpen with
  | false => simp [hopen]
  | true =>
    simp only [Bool.true_eq_false, if_false]
    cases lib.CloseDB engine.blockDB with
    | some err => simp
    | none =>
      simp only []
      cases lib.CloseDB engine.stateDB with
      | some err => simp
      | none => simp

theorem dbCall_flag (call : DbCall) (engine : Engine) :
    ((call.run engine).1 = none → (call.run engine).2.areDBsOpen = call.isOpen) ∧
    (∀ e, (call.run engine).1 = some e →
      (call.run engine).2.areDBsOpen = engine.areDBsOpen) := by
  cases call with
  | openDBs lib =>
    refine ⟨(openDBs_flag lib engine).1, ?_⟩
    intro e h
    obtain ⟨h1, h2⟩ := (openDBs_flag lib engine).2 e h
    exact h1.trans h2.symm
  | closeDBs lib =>
    refine ⟨(closeDBs_flag lib engine).1, ?_⟩
    intro e h
    have := ((closeDBs_flag lib engine).2 e h).1
    exact congrArg Engine.areDBsOpen this

theorem getLast_cons_getD (a d : Bool) (l : List Bool) :
    (a :: l).getLast?.getD d = l.getLast?.getD a := by
  cases l with
  | nil => rfl
  | cons b t =>
    rw [List.getLast?_cons_cons]
    simp [List.getLast?_cons]

/-- After a sequence of `OpenDBs` and `CloseDBs` calls the open flag tells which call was
the last to return `nil`. -/
theorem runDbCalls_flag (calls : List DbCall) (engine : Engine) :
    (runDbCalls calls engine).areDBsOpen =
      (successfulDbCalls calls engine).getLast?.getD engine.areDBsOpen := by
  induction calls generalizing engine with
  | nil => rfl
  | cons call rest ih =>
    unfold runDbCalls successfulDbCalls
    rw [ih]
    obtain ⟨hok, herr⟩ := dbCall_flag call engine
    cases hr : (call.run engine).1 with
    | none =>
      simp only []
      rw [getLast_cons_getD, hok hr]
    | some e =>
      simp only []
      rw [herr e hr]

/-- C26: in both adapters, `OpenDBs` on an engine whose databases are open returns `nil`
and changes nothing, and `CloseDBs` on an engine whose databases are not open returns
`nil` and changes nothing, so a second call of either right after a successful one is
without effect. An `OpenDBs` that returns `nil` leaves the open flag true and one that
fails leaves it false; a `CloseDBs` that returns `nil` leaves it false and one that fails
leaves the engine as it was. After any sequence of `OpenDBs` and `CloseDBs` calls on an
engine that was not open, the flag is true exactly when the last call that returned `nil`
is an `OpenDBs` call. -/
theorem openDBs_closeDBs_idempotent (lib lib2 : LifecycleLib) (engine : Engine)
    (calls : List DbCall) :
    (engine.areDBsOpen = true → OpenDBs lib engine = (none, engine)) ∧
    (engine.areDBsOpen = false → CloseDBs lib engine = (none, engine)) ∧
    ((OpenDBs lib engine).1 = none →
      (OpenDBs lib engine).2.areDBsOpen = true ∧
      OpenDBs lib2 (OpenDBs lib engine).2 = (none, (OpenDBs lib engine).2)) ∧
    (∀ e, (OpenDBs lib engine).1 = some e → (OpenDBs lib engine).2.areDBsOpen = false) ∧
    ((CloseDBs lib engine).1 = none →
      (CloseDBs lib engine).2.areDBsOpen = false ∧
      CloseDBs lib2 (CloseDBs lib engine).2 = (none, (CloseDBs lib engine).2)) ∧
    (∀ e, (CloseDBs lib engine).1 = some e →
      (CloseDBs lib engine).2 = engine ∧ engine.areDBsOpen = true) ∧
    (engine.areDBsOpen = false →
      ((runDbCalls calls engine).areDBsOpen = true ↔
        (successfulDbCalls calls engine).getLast? = some true)) := by
  have hopen : ∀ (l : LifecycleLib) (s : Engine), s.areDBsOpen = true →
      OpenDBs l s = (none, s) := by
    intro l s h
    unfold OpenDBs
    rw [if_pos h]
  have hclose : ∀ (l : LifecycleLib) (s : Engine), s.areDBsOpen = false →
      CloseDBs l s = (none, s) := by
    intro l s h
    unfold CloseDBs
    rw [if_pos h]
  refine ⟨hopen lib engine, hclose lib engine, ?_, ?_, ?_, (closeDBs_flag lib engine).2, ?_⟩
  · intro h
    have hflag := (openDBs_flag lib engine).1 h
    exact ⟨hflag, hopen lib2 _ hflag⟩
  · intro e h
    exact ((openDBs_flag lib engine).2 e h).1
  · intro h
    have hflag := (closeDBs_flag lib engine).1 h
    exact ⟨hflag, hclose lib2 _ hflag⟩
  · intro h
    rw [runDbCalls_flag, h]
    cases (successfulDbCalls calls engine).getLast? with
    | none => simp
    | some b => simp

/-- Witness for C26: on a new engine an `OpenDBs` that cannot open the state database
leaves the flag false; after a successful `OpenDBs`, a `CloseDBs` that fails and a second
`OpenDBs` the flag is true; after a successful `CloseDBs` it is false. -/
theorem openDBs_closeDBs_idempotent_witness :
    (OpenDBs (Demo.lifecycle true false false false) (newEngine (.ok 1))).2.areDBsOpen = false ∧
    (runDbCalls
      [.openDBs (Demo.lifecycle true false false false),
       .openDBs (Demo.lifecycle false false false false),
       .closeDBs (Demo.lifecycle false true false false),
       .openDBs (Demo.lifecycle true false false false)]
      (newEngine (.ok 1))).areDBsOpen = true ∧
    CloseDBs (Demo.lifecycle false false false false) (newEngine (.ok 1)) =
      (none, newEngine (.ok 1)) :=
  ⟨(openDBs_closeDBs_idempotent (Demo.lifecycle true false false false)
      (Demo.lifecycle false false false false) (newEngine (.ok 1)) []).2.2.2.1
      (Err.wrap "failed to open stateDB" (Err.msg "resource temporarily unavailable"))
      (by decide),
    ((openDBs_closeDBs_idempotent (Demo.lifecycle false false false false)
      (Demo.lifecycle false false false false) (newEngine (.ok 1))
      [.openDBs (Demo.lifecycle true false false false),
       .openDBs (Demo.lifecycle false false false false),
       .closeDBs (Demo.lifecycle false true false false),
       .openDBs (Demo.lifecycle true false false false)]).2.2.2.2.2.2 rfl).2 (by decide),
    (openDBs_closeDBs_idempotent (Demo.lifecycle false false false false)
      (Demo.lifecycle false false false false) (newEngine (.ok 1)) []).2.1 rfl⟩

/-! ## The order of the steps of ApplyBlock in the two adapters -/

/-- A successful `ApplyBlock` of the cometbft-v38 adapter on a buffered block `p`. -/
theorem cometbft_applyBlock_success (clib : CometbftV38.CometLib) (k : Constants)
    (runtime : Option String) (value : String) (engine : Engine) (p b : Block)
    (hprev : engine.prevBlock = some p)
    (hdec : CometbftV38.decodeBlock clib k runtime value = .ok b)
    (herr : (CometbftV38.ApplyBlock clib k runtime value engine).err = none) :
    ∃ parts state,
      clib.MakePartSet p = .ok parts ∧
      clib.ApplyBlock engine.state ⟨clib.Hash p, parts.Header⟩ p = .ok state ∧
      (CometbftV38.ApplyBlock clib k runtime value engine).effects =
        [Effect.validateBlock engine.state p,
         Effect.verifyCommitLight engine.state.ChainID ⟨clib.Hash p, parts.Header⟩ p.Height
           b.LastCommit,
         Effect.saveBlock p parts b.LastCommit,
         Effect.applyBlock engine.state ⟨clib.Hash p, parts.Header⟩ p] ∧
      (CometbftV38.ApplyBlock clib k runtime value engine).engine =
        { engine with
          blockStore := engine.blockStore.SaveBlock p parts b.LastCommit
          state := state
          prevBlock := some b } := by
  unfold CometbftV38.ApplyBlock at herr ⊢
  rw [hdec] at herr ⊢
  simp only [hprev] at herr ⊢
  cases hparts : clib.MakePartSet p with
  | error e => simp [hparts] at herr
  | ok parts =>
    simp only [hparts] at herr ⊢
    cases hval : clib.ValidateBlock engine.state p with
    | some e => simp [hval] at herr
    | none =>
      simp only [hval] at herr ⊢
      cases hver : clib.VerifyCommitLight engine.state.Validators engine.state.ChainID
          ⟨clib.Hash p, parts.Header⟩ p.Height b.LastCommit with
      | some e => simp [hver] at herr
      | none =>
        simp only [hver] at herr ⊢
        cases happ : clib.ApplyBlock engine.state ⟨clib.Hash p, parts.Header⟩ p with
        | error e => simp [happ] at herr
        | ok state => exact ⟨parts, state, rfl, happ, rfl, rfl⟩

/-- A successful `ApplyBlock` of the celestia-core-v34 adapter on a buffered block `p`. -/
theorem celestia_applyBlock_success (tlib : CelestiaCoreV34.CelestiaLib) (k : Constants)
    (runtime : Option String) (value : String) (engine : Engine) (p b : Block)
    (hprev : engine.prevBlock = some p)
    (hdec : CelestiaCoreV34.decodeBlock tlib k runtime value = .ok b)
    (herr : (CelestiaCoreV34.ApplyBlock tlib k runtime value engine).err = none) :
    ∃ state,
      tlib.ApplyBlock engine.state b.LastBlockID p b.LastCommit = .ok state ∧
      (CelestiaCoreV34.ApplyBlock tlib k runtime value engine).effects =
        [Effect.validateBlock engine.state p,
         Effect.verifyCommitLight engine.state.ChainID b.LastBlockID p.Height b.LastCommit,
         Effect.applyBlock engine.state b.LastBlockID p,
         Effect.saveBlock p (tlib.MakePartSet p) b.LastCommit] ∧
      (CelestiaCoreV34.ApplyBlock tlib k runtime value engine).engine =
        { engine with
          blockStore := engine.blockStore.SaveBlock p (tlib.MakePartSet p) b.LastCommit
          state := { state with AppVersion := p.AppVersion }
          prevBlock := some b } := by
  unfold CelestiaCoreV34.ApplyBlock at herr ⊢
  rw [hdec] at herr ⊢
  simp only [hprev] at herr ⊢
  cases hval : tlib.ValidateBlock engine.state p with
  | some e => simp [hval] at herr
  | none =>
    simp only [hval] at herr ⊢
    cases hver : tlib.VerifyCommitLight engine.state.Validators engine.state.ChainID
        b.LastBlockID p.Height b.LastCommit with
    | some e => simp [hver] at herr
    | none =>
      simp only [hver] at herr ⊢
      cases happ : tlib.ApplyBlock engine.state b.LastBlockID p b.LastCommit with
      | error e => simp [happ] at herr
      | ok state => exact ⟨state, rfl, rfl, rfl⟩

/-- The application step fails in the cometbft-v38 adapter: the buffered block is already
saved. -/
theorem cometbft_applyBlock_app_failure (clib : CometbftV38.CometLib) (k : Constants)
    (runtime : Option String) (value : String) (engine : Engine) (p b : Block)
    (parts : PartSet) (e : Err)
    (hprev : engine.prevBlock = some p)
    (hdec : CometbftV38.decodeBlock clib k runtime value = .ok b)
    (hparts : clib.MakePartSet p = .ok parts)
    (hval : clib.ValidateBlock engine.state p = none)
    (hver : clib.VerifyCommitLight engine.state.Validators engine.state.ChainID
      ⟨clib.Hash p, parts.Header⟩ p.Height b.LastCommit = none)
    (happ : clib.ApplyBlock engine.state ⟨clib.Hash p, parts.Header⟩ p = .error e) :
    (CometbftV38.ApplyBlock clib k runtime value engine).err ≠ none ∧
    (CometbftV38.ApplyBlock clib k runtime value engine).engine =
      { engine with blockStore := engine.blockStore.SaveBlock p parts b.LastCommit } := by
  unfold CometbftV38.ApplyBlock
  rw [hdec]
  simp only [hprev, hparts, hval, hver, happ]
  simp

/-- The application step fails in the celestia-core-v34 adapter: nothing was saved. -/
theorem celestia_applyBlock_app_failure (tlib : CelestiaCoreV34.CelestiaLib) (k : Constants)
    (runtime : Option String) (value : String) (engine : Engine) (p b : Block) (e : Err)
    (hprev : engine.prevBlock = some p)
    (hdec : CelestiaCoreV34.decodeBlock tlib k runtime value = .ok b)
    (hval : tlib.ValidateBlock engine.state p = none)
    (hver : tlib.VerifyCommitLight engine.state.Validators engine.state.ChainID
      b.LastBlockID p.Height b.LastCommit = none)
    (happ : tlib.ApplyBlock engine.state b.LastBlockID p b.LastCommit = .error e) :
    (CelestiaCoreV34.ApplyBlock tlib k runtime value engine).err ≠ none ∧
    (CelestiaCoreV34.ApplyBlock tlib k runtime value engine).engine = engine := by
  unfold CelestiaCoreV34.ApplyBlock
  rw [hdec]
  simp only [hprev, hval, hver, happ]
  simp

/-- C27: the celestia-core-v34 adapter does not keep the order of steps of its sibling. With
block 5 buffered and block 6 incoming, the cometbft-v38 adapter saves block 5 to the block
store and then advances the state through the application; the celestia-core-v34 adapter
advances the state first and saves block 5 afterwards. When the application rejects the
block, the block store of the cometbft-v38 adapter holds block 5 while that of the
celestia-core-v34 adapter holds nothing. -/
theorem applyBlock_save_order_differs :
    (CometbftV38.ApplyBlock Demo.cometLib Demo.constants none "6"
        Demo.engineAt4Buffered5).effects.filter Effect.isWrite =
      [Effect.saveBlock (Demo.block 5) ⟨5, 1⟩ ⟨5, 1⟩,
       Effect.applyBlock ⟨"demo", 4, 1, 2, 0⟩ ⟨5, 5⟩ (Demo.block 5)] ∧
    (CelestiaCoreV34.ApplyBlock Demo.celestiaLib Demo.constants none "6"
        Demo.engineAt4Buffered5).effects.filter Effect.isWrite =
      [Effect.applyBlock ⟨"demo", 4, 1, 2, 0⟩ ⟨5, 5⟩ (Demo.block 5),
       Effect.saveBlock (Demo.block 5) ⟨5, 1⟩ ⟨5, 1⟩] ∧
    (CometbftV38.ApplyBlock Demo.failingCometLib Demo.constants none "6"
        Demo.engineAt4Buffered5).engine.blockStore.saved =
      [⟨Demo.block 5, ⟨5, 1⟩, ⟨5, 1⟩⟩] ∧
    (CelestiaCoreV34.ApplyBlock Demo.failingCelestiaLib Demo.constants none "6"
        Demo.engineAt4Buffered5).engine.blockStore.saved = [] := by
  decide

/-- Steps of `ApplyBlock` as each adapter has them: with a buffered block `p` and an
incoming block `b` a successful call validates `p` and then verifies `b.LastCommit` in both
adapters. The cometbft-v38 adapter then saves `p` with its part set, advances the state through the application and
rotates the buffer; the celestia-core-v34 adapter advances the state first and saves `p`
afterwards. When both libraries make the same part set and the block ids agree, the two
adapters make the same two writes in opposite order and end with the same block store.
When the application step fails, `p` is saved in the block store of the cometbft-v38
adapter and the engine of the celestia-core-v34 adapter is unchanged. -/
theorem applyBlock_steps_per_adapter (clib : CometbftV38.CometLib)
    (tlib : CelestiaCoreV34.CelestiaLib) (k : Constants) (runtime : Option String)
    (value : String) (engine : Engine) (p b : Block)
    (hprev : engine.prevBlock = some p)
    (hc : CometbftV38.decodeBlock clib k runtime value = .ok b)
    (ht : CelestiaCoreV34.decodeBlock tlib k runtime value = .ok b) :
    ((CometbftV38.ApplyBlock clib k runtime value engine).err = none →
      ∃ (parts : PartSet) (state : State),
        (CometbftV38.ApplyBlock clib k runtime value engine).effects =
          [Effect.validateBlock engine.state p,
           Effect.verifyCommitLight engine.state.ChainID ⟨clib.Hash p, parts.Header⟩ p.Height
             b.LastCommit,
           Effect.saveBlock p parts b.LastCommit,
           Effect.applyBlock engine.state ⟨clib.Hash p, parts.Header⟩ p] ∧
        (CometbftV38.ApplyBlock clib k runtime value engine).engine =
          { engine with
            blockStore := engine.blockStore.SaveBlock p parts b.LastCommit
            state := state
            prevBlock := some b }) ∧
    ((CelestiaCoreV34.ApplyBlock tlib k runtime value engine).err = none →
      ∃ state : State,
        (CelestiaCoreV34.ApplyBlock tlib k runtime value engine).effects =
          [Effect.validateBlock engine.state p,
           Effect.verifyCommitLight engine.state.ChainID b.LastBlockID p.Height b.LastCommit,
           Effect.applyBlock engine.state b.LastBlockID p,
           Effect.saveBlock p (tlib.MakePartSet p) b.LastCommit] ∧
        (CelestiaCoreV34.ApplyBlock tlib k runtime value engine).engine =
          { engine with
            blockStore := engine.blockStore.SaveBlock p (tlib.MakePartSet p) b.LastCommit
            state := { state with AppVersion := p.AppVersion }
            prevBlock := some b }) ∧
    ((CometbftV38.ApplyBlock clib k runtime value engine).err = none →
      (CelestiaCoreV34.ApplyBlock tlib k runtime value engine).err = none →
      clib.MakePartSet p = .ok (tlib.MakePartSet p) →
      (⟨clib.Hash p, (tlib.MakePartSet p).Header⟩ : BlockID) = b.LastBlockID →
      (CelestiaCoreV34.ApplyBlock tlib k runtime value engine).effects.filter Effect.isWrite =
        ((CometbftV38.ApplyBlock clib k runtime value engine).effects.filter
          Effect.isWrite).reverse ∧
      (CelestiaCoreV34.ApplyBlock tlib k runtime value engine).engine.blockStore =
        (CometbftV38.ApplyBlock clib k runtime value engine).engine.blockStore) ∧
    (∀ parts e1 e2,
      clib.MakePartSet p = .ok parts →
      clib.ValidateBlock engine.state p = none →
      clib.VerifyCommitLight engine.state.Validators engine.state.ChainID
        ⟨clib.Hash p, parts.Header⟩ p.Height b.LastCommit = none →
      clib.ApplyBlock engine.state ⟨clib.Hash p, parts.Header⟩ p = .error e1 →
      tlib.ValidateBlock engine.state p = none →
      tlib.VerifyCommitLight engine.state.Validators engine.state.ChainID b.LastBlockID
        p.Height b.LastCommit = none →
      tlib.ApplyBlock engine.state b.LastBlockID p b.LastCommit = .error e2 →
      (CometbftV38.ApplyBlock clib k runtime value engine).engine.blockStore =
        engine.blockStore.SaveBlock p parts b.LastCommit ∧
      (CelestiaCoreV34.ApplyBlock tlib k runtime value engine).engine.blockStore =
        engine.blockStore ∧
      (CometbftV38.ApplyBlock clib k runtime value engine).engine.blockStore.saved ≠
        (CelestiaCoreV34.ApplyBlock tlib k runtime value engine).engine.blockStore.saved) := by
  refine ⟨?_, ?_, ?_, ?_⟩
  · intro herr
    obtain ⟨parts, state, _, _, heff, heng⟩ :=
      cometbft_applyBlock_success clib k runtime value engine p b hprev hc herr
    exact ⟨parts, state, heff, heng⟩
  · intro herr
    obtain ⟨state, _, heff, heng⟩ :=
      celestia_applyBlock_success tlib k runtime value engine p b hprev ht herr
    exact ⟨state, heff, heng⟩
  · intro herrC herrT hparts hid
    obtain ⟨parts, state, hp, _, heffC, hengC⟩ :=
      cometbft_applyBlock_success clib k runtime value engine p b hprev hc herrC
    obtain ⟨state2, _, heffT, hengT⟩ :=
      celestia_applyBlock_success tlib k runtime value engine p b hprev ht herrT
    rw [hparts] at hp
    have hpe : tlib.MakePartSet p = parts := Except.ok.inj hp
    rw [heffC, heffT, hengC, hengT, ← hpe, hid]
    simp [Effect.isWrite]
  · intro parts e1 e2 hparts hvalC hverC happC hvalT hverT happT
    have hC := (cometbft_applyBlock_app_failure clib k runtime value engine p b parts e1 hprev
      hc hparts hvalC hverC happC).2
    have hT := (celestia_applyBlock_app_failure tlib k runtime value engine p b e2 hprev ht
      hvalT hverT happT).2
    rw [hC, hT]
    refine ⟨rfl, rfl, ?_⟩
    simp [BlockStore.SaveBlock]

/-- Example of the steps of both adapters: with block 5 buffered and block 6 incoming both
succeed and end with the same block store, having made the two writes in opposite
order. -/
theorem applyBlock_steps_per_adapter_witness :
    Demo.engineAt4Buffered5.prevBlock = some (Demo.block 5) ∧
    (CelestiaCoreV34.ApplyBlock Demo.celestiaLib Demo.constants none "6"
        Demo.engineAt4Buffered5).effects.filter Effect.isWrite =
      ((CometbftV38.ApplyBlock Demo.cometLib Demo.constants none "6"
        Demo.engineAt4Buffered5).effects.filter Effect.isWrite).reverse ∧
    (CelestiaCoreV34.ApplyBlock Demo.celestiaLib Demo.constants none "6"
        Demo.engineAt4Buffered5).engine.blockStore =
      (CometbftV38.ApplyBlock Demo.cometLib Demo.constants none "6"
        Demo.engineAt4Buffered5).engine.blockStore :=
  ⟨rfl,
    (applyBlock_steps_per_adapter Demo.cometLib Demo.celestiaLib Demo.constants none "6"
      Demo.engineAt4Buffered5 (Demo.block 5) (Demo.block 6) rfl (by decide)
      (by decide)).2.2.1 (by decide) (by decide) (by decide) (by decide)⟩

/-! ## The block id of ApplyBlock -/

/-- C28: the celestia-core-v34 adapter takes the block id from the incoming block, not from
the buffered block as its sibling does. With block 5 buffered (hash 5, part set header 5),
two incoming blocks that differ only in `LastBlockID` are verified and applied by the
celestia-core-v34 adapter under different block ids, each the `LastBlockID` of the incoming
block, and the call with the id (5, 7), which is not the id of block 5, succeeds; the
cometbft-v38 adapter uses the id (5, 5) of the buffered block for both. -/
theorem celestia_blockId_from_incoming_block :
    (Demo.block6OtherId).LastCommit = (Demo.block 6).LastCommit ∧
    blockIdsOf (CelestiaCoreV34.ApplyBlock (Demo.celestiaLibFor (Demo.block 6)) Demo.constants
      none "6" Demo.engineAt4Buffered5).effects = [⟨5, 5⟩, ⟨5, 5⟩] ∧
    blockIdsOf (CelestiaCoreV34.ApplyBlock (Demo.celestiaLibFor Demo.block6OtherId)
      Demo.constants none "6" Demo.engineAt4Buffered5).effects = [⟨5, 7⟩, ⟨5, 7⟩] ∧
    (CelestiaCoreV34.ApplyBlock (Demo.celestiaLibFor Demo.block6OtherId)
      Demo.constants none "6" Demo.engineAt4Buffered5).err = none ∧
    blockIdsOf (CometbftV38.ApplyBlock (Demo.cometLibFor (Demo.block 6)) Demo.constants
      none "6" Demo.engineAt4Buffered5).effects = [⟨5, 5⟩, ⟨5, 5⟩] ∧
    blockIdsOf (CometbftV38.ApplyBlock (Demo.cometLibFor Demo.block6OtherId) Demo.constants
      none "6" Demo.engineAt4Buffered5).effects = [⟨5, 5⟩, ⟨5, 5⟩] := by
  decide

/-- In the cometbft-v38 adapter the incoming block enters the steps on the buffered block
only through its `LastCommit`. -/
theorem cometbft_applyBlock_commit_only (clib : CometbftV38.CometLib) (k : Constants)
    (runtime runtime2 : Option String) (value value2 : String) (engine : Engine)
    (p b b2 : Block) (hprev : engine.prevBlock = some p)
    (hdec : CometbftV38.decodeBlock clib k runtime value = .ok b)
    (hdec2 : CometbftV38.decodeBlock clib k runtime2 value2 = .ok b2)
    (hcommit : b.LastCommit = b2.LastCommit) :
    (CometbftV38.ApplyBlock clib k runtime value engine).err =
      (CometbftV38.ApplyBlock clib k runtime2 value2 engine).err ∧
    (CometbftV38.ApplyBlock clib k runtime value engine).effects =
      (CometbftV38.ApplyBlock clib k runtime2 value2 engine).effects ∧
    { (CometbftV38.ApplyBlock clib k runtime value engine).engine with prevBlock := none } =
      { (CometbftV38.ApplyBlock clib k runtime2 value2 engine).engine with
        prevBlock := none } := by
  unfold CometbftV38.ApplyBlock
  rw [hdec, hdec2]
  simp only [hprev, hcommit]
  cases clib.MakePartSet p with
  | error e => simp
  | ok parts =>
    simp only []
    cases clib.ValidateBlock engine.state p with
    | some e => simp
    | none =>
      simp only []
      cases clib.VerifyCommitLight engine.state.Validators engine.state.ChainID
          ⟨clib.Hash p, parts.Header⟩ p.Height b2.LastCommit with
      | some e => simp
      | none =>
        simp only []
        cases clib.ApplyBlock engine.state ⟨clib.Hash p, parts.Header⟩ p with
        | error e => simp
        | ok state => simp

/-- In the celestia-core-v34 adapter the incoming block enters the steps on the buffered
block through its `LastCommit` and its `LastBlockID`. -/
theorem celestia_applyBlock_commit_and_id (tlib : CelestiaCoreV34.CelestiaLib) (k : Constants)
    (runtime runtime2 : Option String) (value value2 : String) (engine : Engine)
    (p b b2 : Block) (hprev : engine.prevBlock = some p)
    (hdec : CelestiaCoreV34.decodeBlock tlib k runtime value = .ok b)
    (hdec2 : CelestiaCoreV34.decodeBlock tlib k runtime2 value2 = .ok b2)
    (hcommit : b.LastCommit = b2.LastCommit) (hid : b.LastBlockID = b2.LastBlockID) :
    (CelestiaCoreV34.ApplyBlock tlib k runtime value engine).err =
      (CelestiaCoreV34.ApplyBlock tlib k runtime2 value2 engine).err ∧
    (CelestiaCoreV34.ApplyBlock tlib k runtime value engine).effects =
      (CelestiaCoreV34.ApplyBlock tlib k runtime2 value2 engine).effects ∧
    { (CelestiaCoreV34.ApplyBlock tlib k runtime value engine).engine with
        prevBlock := none } =
      { (CelestiaCoreV34.ApplyBlock tlib k runtime2 value2 engine).engine with
        prevBlock := none } := by
  unfold CelestiaCoreV34.ApplyBlock
  rw [hdec, hdec2]
  simp only [hprev, hcommit, hid]
  cases tlib.ValidateBlock engine.state p with
  | some e => simp
  | none =>
    simp only []
    cases tlib.VerifyCommitLight engine.state.Validators engine.state.ChainID
        b2.LastBlockID p.Height b2.LastCommit with
    | some e => simp
    | none =>
      simp only []
      cases tlib.ApplyBlock engine.state b2.LastBlockID p b2.LastCommit with
      | error e => simp
      | ok state => simp

/-- The block ids used by the cometbft-v38 adapter are made of the buffered block. -/
theorem cometbft_blockIds (clib : CometbftV38.CometLib) (k : Constants)
    (runtime : Option String) (value : String) (engine : Engine) (p : Block)
    (hprev : engine.prevBlock = some p) :
    ∀ id ∈ blockIdsOf (CometbftV38.ApplyBlock clib k runtime value engine).effects,
      ∃ parts, clib.MakePartSet p = .ok parts ∧ id = ⟨clib.Hash p, parts.Header⟩ := by
  unfold CometbftV38.ApplyBlock
  cases CometbftV38.decodeBlock clib k runtime value with
  | error e => simp [blockIdsOf]
  | ok b =>
    simp only [hprev]
    cases hparts : clib.MakePartSet p with
    | error e => simp [blockIdsOf]
    | ok parts =>
      simp only []
      cases clib.ValidateBlock engine.state p with
      | some e => simp [blockIdsOf]
      | none =>
        simp only []
        cases clib.VerifyCommitLight engine.state.Validators engine.state.ChainID
            ⟨clib.Hash p, parts.Header⟩ p.Height b.LastCommit with
        | some e => simp [blockIdsOf]
        | none =>
          simp only []
          cases clib.ApplyBlock engine.state ⟨clib.Hash p, parts.Header⟩ p with
          | error e => simp [blockIdsOf]
          | ok state => simp [blockIdsOf]

/-- The block ids used by the celestia-core-v34 adapter are the `LastBlockID` of the
incoming block. -/
theorem celestia_blockIds (tlib : CelestiaCoreV34.CelestiaLib) (k : Constants)
    (runtime : Option String) (value : String) (engine : Engine) (p b : Block)
    (hprev : engine.prevBlock = some p)
    (hdec : CelestiaCoreV34.decodeBlock tlib k runtime value = .ok b) :
    ∀ id ∈ blockIdsOf (CelestiaCoreV34.ApplyBlock tlib k runtime value engine).effects,
      id = b.LastBlockID := by
  unfold CelestiaCoreV34.ApplyBlock
  rw [hdec]
  simp only [hprev]
  cases tlib.ValidateBlock engine.state p with
  | some e => simp [blockIdsOf]
  | none =>
    simp only []
    cases tlib.VerifyCommitLight engine.state.Validators engine.state.ChainID
        b.LastBlockID p.Height b.LastCommit with
    | some e => simp [blockIdsOf]
    | none =>
      simp only []
      cases tlib.ApplyBlock engine.state b.LastBlockID p b.LastCommit with
      | error e => simp [blockIdsOf]
      | ok state => simp [blockIdsOf]

/-- Source of the block id in each adapter: with a block `p` buffered, the cometbft-v38
adapter verifies the incoming block's `LastCommit` and applies `p` under the block id made of `p` itself (its hash and the
header of its part set), and two incoming blocks with the same `LastCommit` lead to the same
result, calls and engine apart from the buffer. The celestia-core-v34 adapter uses the
`LastBlockID` of the incoming block as the block id of both steps: its result depends on the
incoming block's `LastCommit` and `LastBlockID`, and on no other field of it. -/
theorem applyBlock_blockId_source (clib : CometbftV38.CometLib)
    (tlib : CelestiaCoreV34.CelestiaLib) (k : Constants) (runtime runtime2 : Option String)
    (value value2 : String) (engine : Engine) (p : Block)
    (hprev : engine.prevBlock = some p) :
    (∀ id ∈ blockIdsOf (CometbftV38.ApplyBlock clib k runtime value engine).effects,
      ∃ parts, clib.MakePartSet p = .ok parts ∧ id = ⟨clib.Hash p, parts.Header⟩) ∧
    (∀ b b2, CometbftV38.decodeBlock clib k runtime value = .ok b →
      CometbftV38.decodeBlock clib k runtime2 value2 = .ok b2 →
      b.LastCommit = b2.LastCommit →
      (CometbftV38.ApplyBlock clib k runtime value engine).err =
        (CometbftV38.ApplyBlock clib k runtime2 value2 engine).err ∧
      (CometbftV38.ApplyBlock clib k runtime value engine).effects =
        (CometbftV38.ApplyBlock clib k runtime2 value2 engine).effects ∧
      { (CometbftV38.ApplyBlock clib k runtime value engine).engine with prevBlock := none } =
        { (CometbftV38.ApplyBlock clib k runtime2 value2 engine).engine with
          prevBlock := none }) ∧
    (∀ b, CelestiaCoreV34.decodeBlock tlib k runtime value = .ok b →
      ∀ id ∈ blockIdsOf (CelestiaCoreV34.ApplyBlock tlib k runtime value engine).effects,
        id = b.LastBlockID) ∧
    (∀ b b2, CelestiaCoreV34.decodeBlock tlib k runtime value = .ok b →
      CelestiaCoreV34.decodeBlock tlib k runtime2 value2 = .ok b2 →
      b.LastCommit = b2.LastCommit → b.LastBlockID = b2.LastBlockID →
      (CelestiaCoreV34.ApplyBlock tlib k runtime value engine).err =
        (CelestiaCoreV34.ApplyBlock tlib k runtime2 value2 engine).err ∧
      (CelestiaCoreV34.ApplyBlock tlib k runtime value engine).effects =
        (CelestiaCoreV34.ApplyBlock tlib k runtime2 value2 engine).effects ∧
      { (CelestiaCoreV34.ApplyBlock tlib k runtime value engine).engine with
          prevBlock := none } =
        { (CelestiaCoreV34.ApplyBlock tlib k runtime2 value2 engine).engine with
          prevBlock := none }) :=
  ⟨cometbft_blockIds clib k runtime value engine p hprev,
    fun b b2 h1 h2 hc =>
      cometbft_applyBlock_commit_only clib k runtime runtime2 value value2 engine p b b2 hprev
        h1 h2 hc,
    fun b h => celestia_blockIds tlib k runtime value engine p b hprev h,
    fun b b2 h1 h2 hc hid =>
      celestia_applyBlock_commit_and_id tlib k runtime runtime2 value value2 engine p b b2
        hprev h1 h2 hc hid⟩

/-- Example of the source of the block id: with block 5 buffered, every block id of the call
for the value "6" in the cometbft-v38 adapter is the id of the buffered block. -/
theorem applyBlock_blockId_source_witness :
    Demo.engineAt4Buffered5.prevBlock = some (Demo.block 5) ∧
    ∀ id ∈ blockIdsOf (CometbftV38.ApplyBlock Demo.cometLib Demo.constants none "6"
        Demo.engineAt4Buffered5).effects,
      ∃ parts, Demo.cometLib.MakePartSet (Demo.block 5) = .ok parts ∧
        id = ⟨Demo.cometLib.Hash (Demo.block 5), parts.Header⟩ :=
  ⟨rfl,
    (applyBlock_blockId_source Demo.cometLib Demo.celestiaLib Demo.constants none none "6" "6"
      Demo.engineAt4Buffered5 (Demo.block 5) rfl).1⟩

/-! ## The engine of a binary -/

theorem firstDecisive_cons (names : EngineNames) (line : List Char) (rest : List (List Char)) :
    firstDecisive names (line :: rest) =
      match classifyLine names line with
      | some result => some result
      | none => firstDecisive names rest := rfl

theorem scanLines_eq_firstDecisive (names : EngineNames) (engine : List Char)
    (lines : List (List Char)) :
    scanLines names engine lines =
      firstDecisive names
        (lines.filter (fun line => strings.Contains line ("- ".toList ++ engine))) := by
  induction lines with
  | nil => rfl
  | cons line rest ih =>
    unfold scanLines
    rw [List.filter_cons]
    by_cases h : strings.Contains line ("- ".toList ++ engine) = true
    · rw [if_pos h, if_pos h, firstDecisive_cons, ih]
    · rw [if_neg h, if_neg h]
      exact ih

theorem firstDecisive_append (names : EngineNames) (a b : List (List Char)) :
    firstDecisive names (a ++ b) =
      match firstDecisive names a with
      | some result => some result
      | none => firstDecisive names b := by
  induction a with
  | nil => rfl
  | cons line rest ih =>
    rw [List.cons_append, firstDecisive_cons, firstDecisive_cons]
    cases classifyLine names line with
    | some r => rfl
    | none => exact ih

/-- `GetEnginePathFromBinary` returns the outcome of the first candidate line that is not
passed over, and exits when there is none. -/
theorem getEnginePath_eq (names : EngineNames) (out : String) :
    GetEnginePathFromBinary names out =
      match firstDecisive names (candidateLines out) with
      | some result => result
      | none => .exit := by
  unfold GetEnginePathFromBinary candidateLines
  rw [firstDecisive_append, scanLines_eq_firstDecisive, scanLines_eq_firstDecisive]
  have h1 : ("- ".toList ++ "github.com/tendermint/tendermint@v".toList) =
      "- github.com/tendermint/tendermint@v".toList := by decide
  have h2 : ("- ".toList ++ "github.com/cometbft/cometbft@v".toList) =
      "- github.com/cometbft/cometbft@v".toList := by decide
  rw [h1, h2]
  cases firstDecisive names
      ((strings.Split out.toList "\n".toList).filter
        (fun line => strings.Contains line "- github.com/tendermint/tendermint@v".toList)) with
  | some r => rfl
  | none => rfl

theorem firstDecisive_skip (names : EngineNames) (skipped rest : List (List Char))
    (h : ∀ l ∈ skipped, classifyLine names l = none) :
    firstDecisive names (skipped ++ rest) = firstDecisive names rest := by
  induction skipped with
  | nil => rfl
  | cons l t ih =>
    rw [List.cons_append, firstDecisive_cons, h l (List.mem_cons_self _ _)]
    exact ih (fun x hx => h x (List.mem_cons_of_mem _ hx))

/-- C29, as the claim states it, fails: the output lists a tendermint dependency at version
0.35.9 and a cometbft dependency at version 0.38.5. The version of the tendermint line
matches none of the patterns, the line is passed over, and the binary is classified from
the cometbft line although a tendermint line exists. -/
theorem getEnginePath_passes_over_tendermint_line :
    dependencyOf "- github.com/tendermint/tendermint@v0.35.9".toList =
      ["github.com/tendermint/tendermint".toList, "0.35.9".toList] ∧
    GetEnginePathFromBinary Demo.names
      "build deps:\n- github.com/tendermint/tendermint@v0.35.9\n- github.com/cometbft/cometbft@v0.38.5" =
      .found "cometbft-v38" := by
  decide

/-- C29, amended: `GetEnginePathFromBinary` looks at the lines that list a tendermint
dependency in their order and after them at the lines that list a cometbft dependency. For
a line whose text after the last `" => "` splits at `"@v"` into a module, a version and
possibly more, it returns celestia-core-v34 when the version contains `"0.34."` and the
module contains `"celestia-core"`, tendermint-v34 when the version contains `"0.34."`
otherwise, cometbft-v37 for `"0.37."`, cometbft-v38 for `"0.38."`, and passes on to the next
line when the version contains none of these. The first line that is not passed over
decides; when every line is passed over the function exits without a result. The outcome
is a function of the output text. -/
theorem getEnginePath_first_decisive_line (names : EngineNames) (out : String) :
    (∀ line module version more, dependencyOf line = module :: version :: more →
      (strings.Contains version "0.34.".toList = true →
        strings.Contains module "celestia-core".toList = true →
        classifyLine names line = some (.found names.EngineCelestiaCoreV34)) ∧
      (strings.Contains version "0.34.".toList = true →
        strings.Contains module "celestia-core".toList = false →
        classifyLine names line = some (.found names.EngineTendermintV34)) ∧
      (strings.Contains version "0.34.".toList = false →
        strings.Contains version "0.37.".toList = true →
        classifyLine names line = some (.found names.EngineCometBFTV37)) ∧
      (strings.Contains version "0.34.".toList = false →
        strings.Contains version "0.37.".toList = false →
        strings.Contains version "0.38.".toList = true →
        classifyLine names line = some (.found names.EngineCometBFTV38)) ∧
      (strings.Contains version "0.34.".toList = false →
        strings.Contains version "0.37.".toList = false →
        strings.Contains version "0.38.".toList = false →
        classifyLine names line = none)) ∧
    (∀ skipped line rest result,
      candidateLines out = skipped ++ line :: rest →
      (∀ l ∈ skipped, classifyLine names l = none) →
      classifyLine names line = some result →
      GetEnginePathFromBinary names out = result) ∧
    ((∀ l ∈ candidateLines out, classifyLine names l = none) →
      GetEnginePathFromBinary names out = .exit) := by
  refine ⟨?_, ?_, ?_⟩
  · intro line module version more hdep
    unfold classifyLine
    rw [hdep]
    simp only []
    refine ⟨?_, ?_, ?_, ?_, ?_⟩
    · intro h1 h2
      rw [if_pos ⟨h1, h2⟩]
    · intro h1 h2
      rw [if_neg (by rw [h2]; simp), if_pos h1]
    · intro h1 h2
      rw [if_neg (by rw [h1]; simp), if_neg (by rw [h1]; simp), if_pos h2]
    · intro h1 h2 h3
      rw [if_neg (by rw [h1]; simp), if_neg (by rw [h1]; simp), if_neg (by rw [h2]; simp),
        if_pos h3]
    · intro h1 h2 h3
      rw [if_neg (by rw [h1]; simp), if_neg (by rw [h1]; simp), if_neg (by rw [h2]; simp),
        if_neg (by rw [h3]; simp)]
  · intro skipped line rest result hcand hskip hline
    rw [getEnginePath_eq, hcand, firstDecisive_skip names skipped _ hskip, firstDecisive_cons,
      hline]
  · intro hall
    rw [getEnginePath_eq]
    have := firstDecisive_skip names (candidateLines out) [] hall
    rw [List.append_nil] at this
    rw [this]
    rfl

/-- Witness for the amended C29: a tendermint line replaced by celestia-core at a version
that contains "0.34." decides for celestia-core-v34, before the cometbft line. -/
theorem getEnginePath_first_decisive_line_witness :
    candidateLines
        "- github.com/cometbft/cometbft@v0.38.5\n- github.com/tendermint/tendermint@v0.34.14 => github.com/celestiaorg/celestia-core@v1.35.0-tm-v0.34.29" =
      [] ++ "- github.com/tendermint/tendermint@v0.34.14 => github.com/celestiaorg/celestia-core@v1.35.0-tm-v0.34.29".toList ::
        ["- github.com/cometbft/cometbft@v0.38.5".toList] ∧
    GetEnginePathFromBinary Demo.names
        "- github.com/cometbft/cometbft@v0.38.5\n- github.com/tendermint/tendermint@v0.34.14 => github.com/celestiaorg/celestia-core@v1.35.0-tm-v0.34.29" =
      .found "celestia-core-v34" :=
  ⟨by decide,
    (getEnginePath_first_decisive_line Demo.names
      "- github.com/cometbft/cometbft@v0.38.5\n- github.com/tendermint/tendermint@v0.34.14 => github.com/celestiaorg/celestia-core@v1.35.0-tm-v0.34.29").2.1
      []
      "- github.com/tendermint/tendermint@v0.34.14 => github.com/celestiaorg/celestia-core@v1.35.0-tm-v0.34.29".toList
      ["- github.com/cometbft/cometbft@v0.38.5".toList] (.found "celestia-core-v34")
      (by decide) (by intro l hl; cases hl) (by decide)⟩

/-- C30: the index `dependency[1]` can be out of range. The line lists the tendermint
dependency with a replacement by a local path, the text after the last `" => "` holds no
`"@v"`, splitting it yields one part, and `GetEnginePathFromBinary` stops with an index
out of range. -/
theorem getEnginePath_index_out_of_range :
    strings.Contains "- github.com/tendermint/tendermint@v0.34.24 => ../tendermint@".toList
      "- github.com/tendermint/tendermint@v".toList = true ∧
    dependencyOf "- github.com/tendermint/tendermint@v0.34.24 => ../tendermint@".toList =
      ["../tendermint@".toList] ∧
    GetEnginePathFromBinary Demo.names
      "build deps:\n- github.com/tendermint/tendermint@v0.34.24 => ../tendermint@\n- github.com/cometbft/cometbft@v0.38.5" =
      .indexOutOfRange := by
  decide

/-! ## Runs to the target height -/

/-- A healthy item is processed up to the target-height check: after `ApplyBlock` come
only calls that are neither `ApplyBlock` nor `StopProxyApp`, and the first item of a run
ends there. -/
theorem processItem_itemHealthy (ops : EngineOps σ) (env : Collaborators) (k : Constants)
    (p : Params) (v : LoopVars) (fuel : Nat) (item : DataItem) (x : Exec σ) (h : Int)
    (hh : itemHealthy ops env k p v fuel item x = true)
    (hkey : env.ParseBlockHeightFromKey item.Key = .ok h) :
    ∃ y, Quiet (afterApply ops v h item x) y ∧
      processItem ops env k p v fuel item x =
        if h = v.continuationHeight then .next y else targetPhase ops p h y := by
  unfold itemHealthy at hh
  rw [hkey] at hh
  simp only [Bool.and_eq_true, Option.isNone_iff_eq_none] at hh
  obtain ⟨happ, hrest⟩ := hh
  rw [processItem_apply_ok ops env k p v fuel item x h hkey happ]
  have hq1 := quiet_snapshotPhase ops env p v fuel (sub64 h 1) (afterApply ops v h item x)
  cases hs : snapshotPhase ops env p v fuel (sub64 h 1) (afterApply ops v h item x) with
  | pending y =>
    rw [hs] at hrest
    simp at hrest
  | finished y =>
    rw [hs] at hrest hq1
    simp only [Wait.exec] at hq1
    simp only [Bool.or_eq_true, decide_eq_true_eq] at hrest
    by_cases hc : h = v.continuationHeight
    · exact ⟨y, hq1, by simp only [if_pos hc]⟩
    · have hrest2 := hrest.resolve_left hc
      simp only [if_neg hc]
      have hq4 := quiet_trans (quiet_trans hq1 (quiet_prunePhase ops k p (sub64 h 1) y))
        (quiet_backupPhase ops env p (sub64 h 1) (prunePhase ops k p (sub64 h 1) y))
      unfold afterPrune
      cases hb : backupPhase ops env p (sub64 h 1) (prunePhase ops k p (sub64 h 1) y) with
      | mk e z =>
        rw [hb] at hrest2 hq4
        simp only [] at hq4
        cases e with
        | some err => simp at hrest2
        | none =>
          simp only [] at hrest2 ⊢
          unfold afterBackup
          have hq5 := quiet_backpressurePhase env k p fuel h z
          cases hbp : backpressurePhase env k p fuel h z with
          | pending w =>
            rw [hbp] at hrest2
            simp at hrest2
          | finished w =>
            rw [hbp] at hq5
            simp only [Wait.exec] at hq5
            exact ⟨w, quiet_trans hq4 hq5, rfl⟩

/-- The items of a healthy run at heights up to the target are all consumed, each with one
`ApplyBlock` and without `StopProxyApp`, and the rest of the run is healthy from the state
reached. -/
theorem mainLoop_below_target (ops : EngineOps σ) (env : Collaborators) (k : Constants)
    (p : Params) (v : LoopVars) (fuel : Nat) (T : Int) (rest : List SourceEvent)
    (htarget : p.targetHeight = T)
    (hmax : T + 1 < 9223372036854775808) (hT : 0 < T)
    (items more : List DataItem) (x : Exec σ) (h : Int)
    (hh : runHealthy ops env k p v fuel (items ++ more) x = true)
    (hsrc : SourceOrdered env h items) (hlen : h + (items.length : Int) ≤ T + 1) :
    ∃ y, mainLoop ops env k p v fuel (items.map SourceEvent.item ++ rest) x =
        mainLoop ops env k p v fuel rest y ∧
      runHealthy ops env k p v fuel more y = true ∧
      applyHeights y.trace =
        applyHeights x.trace ++ (List.range items.length).map (fun i : Nat => h + (i : Int)) ∧
      stopCalls y.trace = stopCalls x.trace := by
  induction items generalizing x h with
  | nil => exact ⟨x, rfl, hh, by simp, rfl⟩
  | cons it tail ih =>
    obtain ⟨hkey, hmore⟩ := hsrc
    simp only [List.length_cons, Nat.cast_add, Nat.cast_one] at hlen
    rw [List.cons_append] at hh
    unfold runHealthy at hh
    rw [Bool.and_eq_true] at hh
    obtain ⟨hitem, hnext⟩ := hh
    obtain ⟨y, hq, hstep⟩ := processItem_itemHealthy ops env k p v fuel it x h hitem hkey
    have hnot : ¬ (p.targetHeight > 0 ∧ h ≥ add64 p.targetHeight 1) := by
      rw [htarget, add64_small T (by omega) hmax]
      omega
    rw [targetPhase_next ops p h y hnot, ite_self] at hstep
    rw [hstep] at hnext
    simp only [] at hnext
    obtain ⟨z, hz, hzh, hz1, hz2⟩ := ih y (h + 1) hnext hmore (by omega)
    refine ⟨z, ?_, hzh, ?_, ?_⟩
    · simp only [List.map_cons, List.cons_append, mainLoop, hstep]
      exact hz
    · rw [hz1, (quiet_applyHeights_eq hq), applyHeights_afterApply, List.append_assoc,
        List.singleton_append, heights_cons, List.length_cons]
    · rw [hz2, (quiet_stopCalls_eq hq), (noStop_stopCalls_eq (noStop_afterApply ops v h it x))]

/-- C6: with target height `T > 0`, continuation height `c <= T`, a source that delivers the
items `c`, `c + 1`, ..., `T + 1` in order (and anything afterwards), and a run in which the
engine calls made for these items succeed and the waits entered end (for each item, in the
state in which the executor takes it: its `ApplyBlock` call and the `GetChainId` call of a
due backup succeed, its snapshot and backpressure waits end), the executor returns right
after the item at height `T + 1`: it has called `ApplyBlock` exactly on the items `c`, ...,
`T + 1`, calls `StopProxyApp` once, as its last call, and returns `nil` if that call
succeeds and the wrapped error if it fails; after any shorter run of the items it still
waits for the next item. -/
theorem target_height_termination (ops : EngineOps σ) (env : Collaborators) (k : Constants)
    (p : Params) (fuel : Nat) (engine : σ) (v : LoopVars) (x0 : Exec σ) (T : Int)
    (items : List DataItem) (extra : List SourceEvent)
    (hT : 0 < T) (hmax : T + 1 < 9223372036854775808) (htarget : p.targetHeight = T)
    (hstart : startup ops env k p fuel engine = .inr (v, x0))
    (hcT : v.continuationHeight ≤ T)
    (hlen : (items.length : Int) = T + 2 - v.continuationHeight)
    (hsrc : SourceOrdered env v.continuationHeight items)
    (hh : runHealthy ops env k p v fuel items x0 = true) :
    ∃ y,
      StartBlockSyncExecutor ops env k p fuel (items.map SourceEvent.item ++ extra) engine =
        (.returned (stopResult ops y), afterStop ops y) ∧
      (stopResult ops y = none ↔ (ops.StopProxyApp y.engine).1 = none) ∧
      applyHeights y.trace =
        (List.range items.length).map (fun i : Nat => v.continuationHeight + (i : Int)) ∧
      stopCalls y.trace = 0 ∧
      ∀ n, n < items.length →
        (StartBlockSyncExecutor ops env k p fuel ((items.take n).map SourceEvent.item)
          engine).1 = .awaitingItem := by
  obtain ⟨_, _, _, _, _, added, hadd, ha1, ha2⟩ := startup_inr ops env k p fuel engine v x0 hstart
  have hx0a : applyHeights x0.trace = [] := by
    rw [hadd, applyHeights_append, ha1]
    rfl
  have hx0s : stopCalls x0.trace = 0 := by
    rw [hadd, stopCalls_append, ha2]
    rfl
  rcases List.eq_nil_or_concat items with hnil | ⟨init, last, hcat⟩
  · subst hnil
    simp only [List.length_nil, Nat.cast_zero] at hlen
    omega
  rw [List.concat_eq_append] at hcat
  subst hcat
  simp only [List.length_append, List.length_singleton, Nat.cast_add, Nat.cast_one] at hlen
  obtain ⟨hinit, hlast, _⟩ := (sourceOrdered_append env init [last] v.continuationHeight).1 hsrc
  have hlastkey : env.ParseBlockHeightFromKey last.Key = .ok (T + 1) := by
    rw [hlast]
    congr 1
    omega
  obtain ⟨y1, hy1, hy1h, hy1a, hy1s⟩ := mainLoop_below_target ops env k p v fuel T
    (SourceEvent.item last :: extra) htarget hmax hT init [last] x0 v.continuationHeight hh
    hinit (by omega)
  have hlastHealthy : itemHealthy ops env k p v fuel last y1 = true := by
    unfold runHealthy at hy1h
    rw [Bool.and_eq_true] at hy1h
    exact hy1h.1
  obtain ⟨y, hq, hstep⟩ := processItem_itemHealthy ops env k p v fuel last y1 (T + 1)
    hlastHealthy hlastkey
  have hne : T + 1 ≠ v.continuationHeight := by omega
  have hstop : p.targetHeight > 0 ∧ T + 1 ≥ add64 p.targetHeight 1 := by
    rw [htarget, add64_small T (by omega) hmax]
    exact ⟨hT, le_refl _⟩
  rw [if_neg hne, targetPhase_stop ops p (T + 1) y hstop] at hstep
  refine ⟨y, ?_, ?_, ?_, ?_, ?_⟩
  · unfold StartBlockSyncExecutor
    rw [hstart]
    simp only [List.map_append, List.map_cons, List.map_nil, List.append_assoc,
      List.singleton_append]
    rw [hy1]
    simp only [mainLoop, hstep]
  · unfold stopResult
    cases (ops.StopProxyApp y.engine).1 <;> simp
  · rw [(quiet_applyHeights_eq hq), applyHeights_afterApply, hy1a, hx0a, List.nil_append,
      List.length_append, List.length_singleton, List.range_succ, List.map_append]
    congr 1
    simp only [List.map_cons, List.map_nil, List.cons.injEq, and_true]
    omega
  · rw [(quiet_stopCalls_eq hq), (noStop_stopCalls_eq (noStop_afterApply ops v (T + 1) last y1)), hy1s, hx0s]
  · intro n hn
    simp only [List.length_append, List.length_singleton] at hn
    have hsplit := List.take_append_drop n (init ++ [last])
    have hord : SourceOrdered env v.continuationHeight ((init ++ [last]).take n) := by
      have h2 := hsrc
      rw [← hsplit] at h2
      exact ((sourceOrdered_append env _ _ v.continuationHeight).1 h2).1
    have hlen2 : ((init ++ [last]).take n).length = n := by
      rw [List.length_take]
      simp only [List.length_append, List.length_singleton]
      omega
    have hh2 : runHealthy ops env k p v fuel
        ((init ++ [last]).take n ++ (init ++ [last]).drop n) x0 = true := by
      rw [hsplit]
      exact hh
    obtain ⟨z, hz, _, _, _⟩ := mainLoop_below_target ops env k p v fuel T [] htarget hmax hT
      ((init ++ [last]).take n) ((init ++ [last]).drop n) x0 v.continuationHeight hh2 hord
      (by rw [hlen2]; omega)
    unfold StartBlockSyncExecutor
    rw [hstart]
    simp only [List.append_nil] at hz
    simp only []
    rw [hz]
    rfl

/-- Witness for C6 on the cometbft-v38 adapter: target 6, store height 4; the source
delivers the items 5, 6 and 7 and then 8. The blocks 5 and 6 are applied, the run returns
`nil` after the item 7, and the item 8 is never taken. -/
theorem target_height_termination_witness :
    runHealthy Demo.adapterOps Demo.env Demo.constants (Demo.params 6) ⟨5, 4, none⟩ 1
      [Demo.item "5", Demo.item "6", Demo.item "7"]
      ⟨Demo.engineHandshaken, startupCalls ++ [Event.startBlockCollector 5 6 true], 0, 0⟩ =
      true ∧
    (StartBlockSyncExecutor Demo.adapterOps Demo.env Demo.constants (Demo.params 6) 1
      ([Demo.item "5", Demo.item "6", Demo.item "7"].map SourceEvent.item ++
        [.item (Demo.item "8")]) Demo.engineOpened).1 = .returned none ∧
    ∃ y,
      StartBlockSyncExecutor Demo.adapterOps Demo.env Demo.constants (Demo.params 6) 1
        ([Demo.item "5", Demo.item "6", Demo.item "7"].map SourceEvent.item ++
          [.item (Demo.item "8")]) Demo.engineOpened =
        (.returned (stopResult Demo.adapterOps y), afterStop Demo.adapterOps y) ∧
      applyHeights y.trace = [5, 6, 7] ∧ stopCalls y.trace = 0 ∧
      CometbftV38.GetHeight y.engine = 6 := by
  have hrun : runHealthy Demo.adapterOps Demo.env Demo.constants (Demo.params 6) ⟨5, 4, none⟩ 1
      [Demo.item "5", Demo.item "6", Demo.item "7"]
      ⟨Demo.engineHandshaken, startupCalls ++ [Event.startBlockCollector 5 6 true], 0, 0⟩ =
      true := by decide
  refine ⟨hrun, by decide, ?_⟩
  obtain ⟨y, h1, _, h3, h4, _⟩ := target_height_termination Demo.adapterOps Demo.env
    Demo.constants (Demo.params 6) 1 Demo.engineOpened ⟨5, 4, none⟩
    ⟨Demo.engineHandshaken, startupCalls ++ [Event.startBlockCollector 5 6 true], 0, 0⟩
    6 [Demo.item "5", Demo.item "6", Demo.item "7"] [.item (Demo.item "8")]
    (by decide) (by decide) rfl rfl (by decide) (by decide)
    ⟨by decide, by decide, by decide, trivial⟩ hrun
  refine ⟨y, h1, h3, h4, ?_⟩
  have hy : (StartBlockSyncExecutor Demo.adapterOps Demo.env Demo.constants (Demo.params 6) 1
      ([Demo.item "5", Demo.item "6", Demo.item "7"].map SourceEvent.item ++
        [.item (Demo.item "8")]) Demo.engineOpened).2.engine.blockStore.height = 6 := by decide
  rw [h1] at hy
  unfold CometbftV38.GetHeight
  have hstop : (afterStop Demo.adapterOps y).engine.blockStore = y.engine.blockStore := by
    unfold afterStop Demo.adapterOps CometbftV38.engineOps StopProxyApp
    simp only []
    split
    · rfl
    · split <;> rfl
  rw [hstop] at hy
  rw [hy]
  exact if_neg (by decide)

/-- C7, amended: with target height `T > 0` and continuation height `T + 1`, a run in which
the calls made for the two items succeed (for each item, in the state in which the
executor takes it: its `ApplyBlock` call and the `GetChainId` call of a due backup succeed,
its snapshot and backpressure waits end) does not return after the item at height `T + 1`:
it has made one `ApplyBlock` call, no `StopProxyApp` call, and waits for the next item. It
returns after the item at height `T + 2`, with a second `ApplyBlock` call and then
`StopProxyApp`. -/
theorem at_target_returns_after_second_item (ops : EngineOps σ) (env : Collaborators)
    (k : Constants) (p : Params) (fuel : Nat) (engine : σ) (v : LoopVars) (x0 : Exec σ)
    (T : Int) (first second : DataItem) (extra : List SourceEvent)
    (hT : 0 < T) (hmax : T + 1 < 9223372036854775808) (htarget : p.targetHeight = T)
    (hstart : startup ops env k p fuel engine = .inr (v, x0))
    (hc : v.continuationHeight = T + 1)
    (hfirst : env.ParseBlockHeightFromKey first.Key = .ok (T + 1))
    (hsecond : env.ParseBlockHeightFromKey second.Key = .ok (T + 2))
    (hh : runHealthy ops env k p v fuel [first, second] x0 = true) :
    (∃ y, StartBlockSyncExecutor ops env k p fuel [SourceEvent.item first] engine =
        (.awaitingItem, y) ∧
      applyHeights y.trace = [T + 1] ∧ stopCalls y.trace = 0) ∧
    (∃ y, StartBlockSyncExecutor ops env k p fuel
        (SourceEvent.item first :: SourceEvent.item second :: extra) engine =
        (.returned (stopResult ops y), afterStop ops y) ∧
      applyHeights y.trace = [T + 1, T + 2] ∧ stopCalls y.trace = 0) := by
  obtain ⟨_, _, _, _, _, added, hadd, ha1, ha2⟩ := startup_inr ops env k p fuel engine v x0 hstart
  have hx0a : applyHeights x0.trace = [] := by
    rw [hadd, applyHeights_append, ha1]
    rfl
  have hx0s : stopCalls x0.trace = 0 := by
    rw [hadd, stopCalls_append, ha2]
    rfl
  have hh1 : itemHealthy ops env k p v fuel first x0 = true := by
    simp only [runHealthy, Bool.and_eq_true] at hh
    exact hh.1
  obtain ⟨y1, hq1, hstep1⟩ := processItem_itemHealthy ops env k p v fuel first x0 (T + 1) hh1
    hfirst
  rw [if_pos hc.symm] at hstep1
  have hh2 : itemHealthy ops env k p v fuel second y1 = true := by
    simp only [runHealthy, hstep1, Bool.and_eq_true] at hh
    exact hh.2.1
  have hy1a : applyHeights y1.trace = [T + 1] := by
    rw [(quiet_applyHeights_eq hq1), applyHeights_afterApply, hx0a]
    rfl
  have hy1s : stopCalls y1.trace = 0 := by
    rw [(quiet_stopCalls_eq hq1), (noStop_stopCalls_eq (noStop_afterApply ops v (T + 1) first x0)), hx0s]
  obtain ⟨y2, hq2, hstep2⟩ := processItem_itemHealthy ops env k p v fuel second y1 (T + 2) hh2
    hsecond
  have hne : T + 2 ≠ v.continuationHeight := by omega
  have hstop : p.targetHeight > 0 ∧ T + 2 ≥ add64 p.targetHeight 1 := by
    rw [htarget, add64_small T (by omega) hmax]
    exact ⟨hT, by omega⟩
  rw [if_neg hne, targetPhase_stop ops p (T + 2) y2 hstop] at hstep2
  constructor
  · refine ⟨y1, ?_, hy1a, hy1s⟩
    unfold StartBlockSyncExecutor
    rw [hstart]
    simp only [mainLoop, hstep1]
  · refine ⟨y2, ?_, ?_, ?_⟩
    · unfold StartBlockSyncExecutor
      rw [hstart]
      simp only [mainLoop, hstep1, hstep2]
    · rw [(quiet_applyHeights_eq hq2), applyHeights_afterApply, hy1a]
      rfl
    · rw [(quiet_stopCalls_eq hq2), (noStop_stopCalls_eq (noStop_afterApply ops v (T + 2) second y1)), hy1s]

/-- Witness for the amended C7 on the cometbft-v38 adapter: target 4, store height 4
(continuation height 5), items 5, 6 and 7. After the item 5 the run waits for the next
item; it returns `nil` after the item 6, and the item 7 is never taken. -/
theorem at_target_returns_after_second_item_witness :
    runHealthy Demo.adapterOps Demo.env Demo.constants (Demo.params 4) ⟨5, 4, none⟩ 1
      [Demo.item "5", Demo.item "6"]
      ⟨Demo.engineHandshaken, startupCalls ++ [Event.startBlockCollector 5 4 true], 0, 0⟩ =
      true ∧
    (StartBlockSyncExecutor Demo.adapterOps Demo.env Demo.constants (Demo.params 4) 1
      [.item (Demo.item "5")] Demo.engineOpened).1 = .awaitingItem ∧
    (StartBlockSyncExecutor Demo.adapterOps Demo.env Demo.constants (Demo.params 4) 1
      [.item (Demo.item "5"), .item (Demo.item "6"), .item (Demo.item "7")]
      Demo.engineOpened).1 = .returned none ∧
    ∃ y, StartBlockSyncExecutor Demo.adapterOps Demo.env Demo.constants (Demo.params 4) 1
        [.item (Demo.item "5"), .item (Demo.item "6"), .item (Demo.item "7")]
        Demo.engineOpened =
        (.returned (stopResult Demo.adapterOps y), afterStop Demo.adapterOps y) ∧
      applyHeights y.trace = [4 + 1, 4 + 2] ∧ stopCalls y.trace = 0 :=
  ⟨by decide, by decide, by decide,
    (at_target_returns_after_second_item Demo.adapterOps Demo.env Demo.constants
      (Demo.params 4) 1 Demo.engineOpened ⟨5, 4, none⟩
      ⟨Demo.engineHandshaken, startupCalls ++ [Event.startBlockCollector 5 4 true], 0, 0⟩
      4 (Demo.item "5") (Demo.item "6") [.item (Demo.item "7")]
      (by decide) (by decide) rfl rfl (by decide) (by decide) (by decide) (by decide)).2⟩
end Ksync
